import Mathlib

/-!
# go-ecommerce: inventory, cart and checkout core

A shallow embedding of the services of the repository
(`internal/services/product_service.go`, `cart_service.go`, `order_service.go`)
and theorems about them.

Modelling conventions.

* A service value (`ProductService`, `CartService`, `OrderService`) is the content of the
  Go struct behind the receiver pointer; a method takes the service and returns the service
  after the call together with what the Go method returns.  A method that returns early
  returns the service it was given.
* A Go `map[K]V` is a list of key/value entries (`GoMap`); a map has pairwise distinct keys
  (`GoMap.WF`).  A `range` loop visits every key once (`GoMap.range`), for a map argument in
  the order of the list; where the result of a method depends on the order, the order is an
  argument of the method (`visit`).
* A Go `int` is an `Int` between `-2^63` and `2^63 - 1` (`IsInt64`).  The `+`, `-` and `*` of
  the program on quantities, stocks and page numbers are `goAdd`, `goSub` and `goMul`, which
  wrap around as the 64-bit representation does.  A counter that moves by one per call
  (`Version`, the statistics), which only `2^63` calls take to the bound, and the lengths of
  strings and slices are plain integers.
* A `float64` price is a `Rat`, a `time.Time` is an `Int`, and the readings of the clock one
  call makes are one argument `now`.
* An `error` is the text of its message; `(*T, bool)` and `(*T, error)` results are
  `Option T` and `Except String T`.
* `mu.Lock()`, `mu.Unlock()` and `time.Sleep` do not change the data: one call is one step.
-/

set_option linter.unusedVariables false

namespace GoEcommerce

/-! ## Go maps -/

/-- A Go map: its entries, in an order in which `range` visits them. -/
abbrev GoMap (κ : Type) (α : Type) := List (κ × α)

namespace GoMap

variable {κ α : Type} [DecidableEq κ]

/-- Map read `v, exists := m[k]`. -/
def get : GoMap κ α → κ → Option α
  | [], _ => none
  | (k', v) :: rest, k => if k' = k then some v else get rest k

/-- Map write `m[k] = v`: the entry of `k` is replaced where it stands, a new key is added. -/
def set : GoMap κ α → κ → α → GoMap κ α
  | [], k, v => [(k, v)]
  | (k', v') :: rest, k, v => if k' = k then (k, v) :: rest else (k', v') :: set rest k v

/-- The keys of the map. -/
def keys (m : GoMap κ α) : List κ := m.map Prod.fst

/-- A map holds every key once. -/
def WF (m : GoMap κ α) : Prop := (keys m).Nodup

instance (m : GoMap κ α) : Decidable (WF m) := by
  unfold WF; infer_instance

/-- The entries a `range` loop over the map visits: every key once, with the value `get`
reads under it.  For a map, whose keys are pairwise distinct, these are all its entries. -/
def range : GoMap κ α → GoMap κ α
  | [] => []
  | (k, v) :: rest => (k, v) :: (range rest).filter (fun e => decide (e.1 ≠ k))

end GoMap

/-! ## Go integers -/

/-- The integer is a value of the Go type `int`: 64 bits, two's complement. -/
def IsInt64 (x : Int) : Prop := -9223372036854775808 ≤ x ∧ x ≤ 9223372036854775807

instance (x : Int) : Decidable (IsInt64 x) := by
  unfold IsInt64; infer_instance

/-- The `int` that differs from `x` by a multiple of `2^64`: what 64 bits keep of an exact
result. -/
def wrap64 (x : Int) : Int :=
  (x + 9223372036854775808) % 18446744073709551616 - 9223372036854775808

/-- Go's `a + b` on `int`: the sum, wrapped around.  (On integers that are no `int`, which no
Go variable holds, it is the exact sum.) -/
def goAdd (a b : Int) : Int := if IsInt64 a ∧ IsInt64 b then wrap64 (a + b) else a + b

/-- Go's `a - b` on `int`: the difference, wrapped around.  (On integers that are no `int`,
which no Go variable holds, it is the exact difference.) -/
def goSub (a b : Int) : Int := if IsInt64 a ∧ IsInt64 b then wrap64 (a - b) else a - b

/-- Go's `a * b` on `int`: the product, wrapped around.  (On integers that are no `int`, which
no Go variable holds, it is the exact product.) -/
def goMul (a b : Int) : Int := if IsInt64 a ∧ IsInt64 b then wrap64 (a * b) else a * b

/-! ## Data model (`internal/models`) -/

/-- Modelled from the spec: the declaration of `models.Product` is not among the sources; the
fields are those of section 3 of the specification, named as the struct literal of
`InitSampleData` names them. -/
structure Product where
  ID : Int
  Name : String
  Description : String
  Price : Rat
  Stock : Int
  Category : String
  CreatedAt : Int
  UpdatedAt : Int
deriving DecidableEq

/-- The struct `models.CartItem`. -/
structure CartItem where
  ProductID : Int
  Quantity : Int
  Price : Rat
  Name : String
  AddedAt : Int
deriving DecidableEq

/-- The struct `models.Cart`. -/
structure Cart where
  ID : String
  UserID : Int
  Items : List CartItem
  CreatedAt : Int
  UpdatedAt : Int
  Version : Int
deriving DecidableEq

/-- The type `models.OrderStatus`, a string. -/
abbrev OrderStatus := String

/-- The constant `models.OrderStatusPending`. -/
def OrderStatusPending : OrderStatus := "pending"

/-- The struct `models.OrderItem`. -/
structure OrderItem where
  ProductID : Int
  Quantity : Int
  Price : Rat
  Name : String
deriving DecidableEq

/-- The struct `models.Order`. -/
structure Order where
  ID : String
  UserID : Int
  Items : List OrderItem
  Total : Rat
  Status : OrderStatus
  CreatedAt : Int
  UpdatedAt : Int
deriving DecidableEq

/-! ## Inventory store (`product_service.go`) -/

/-- The struct `ProductService` without its lock. -/
structure ProductService where
  products : GoMap Int Product
  nextID : Int
deriving DecidableEq

/-- The constructor `NewProductService`. -/
def NewProductService : ProductService :=
  { products := [], nextID := 1 }

namespace ProductService

/-- The method `GetProductByID`: the product stored under `id`, if there is one. -/
def GetProductByID (s : ProductService) (id : Int) : Option Product :=
  match s.products.get id with
  | none => none
  | some product => some product

/-- The method `UpdateStock` (its live body, "VERSION 2"): `(false, nil)` when the product does
not exist or has less stock than `quantity`, otherwise the stock is decremented
(`product.Stock -= quantity`, Go's subtraction), the time stamp is set and the result is
`(true, nil)`. -/
def UpdateStock (s : ProductService) (productID quantity : Int) (now : Int) :
    ProductService × (Bool × Option String) :=
  match s.products.get productID with
  | none => (s, (false, none))
  | some product =>
    if product.Stock < quantity then (s, (false, none))
    else
      let product1 := { product with Stock := goSub product.Stock quantity, UpdatedAt := now }
      ({ s with products := s.products.set productID product1 }, (true, none))

end ProductService

/-! ## Cart store (`cart_service.go`) -/

/-- The struct `CartService` without its lock. -/
structure CartService where
  carts : GoMap String Cart
  userCarts : GoMap Int String
deriving DecidableEq

/-- The constructor `NewCartService`. -/
def NewCartService : CartService :=
  { carts := [], userCarts := [] }

/-- The loop `for i, item := range cart.Items` of the three add methods: at the first item
whose `ProductID` is `productID` the quantity is increased (`Quantity += quantity`, Go's
addition) and the price overwritten; `none` when the loop ends without a match. -/
def addToExisting (productID quantity : Int) (productPrice : Rat) :
    List CartItem → Option (List CartItem)
  | [] => none
  | item :: rest =>
    if item.ProductID = productID then
      some ({ item with Quantity := goAdd item.Quantity quantity, Price := productPrice } :: rest)
    else
      (addToExisting productID quantity productPrice rest).map (fun r => item :: r)

/-- The loop `for i, item := range cart.Items` of the two update methods: at the first item
whose `ProductID` is `productID` the quantity is set; `none` when the loop ends without a
match. -/
def setExisting (productID quantity : Int) : List CartItem → Option (List CartItem)
  | [] => none
  | item :: rest =>
    if item.ProductID = productID then
      some ({ item with Quantity := quantity } :: rest)
    else
      (setExisting productID quantity rest).map (fun r => item :: r)

namespace CartService

/-- The method `AddToCartNoLock`, run alone. -/
def AddToCartNoLock (s : CartService) (cartID : String) (productID quantity : Int)
    (productPrice : Rat) (productName : String) (now : Int) :
    CartService × Except String Cart :=
  match s.carts.get cartID with
  | none => (s, .error "cart not found")
  | some cart =>
    match addToExisting productID quantity productPrice cart.Items with
    | some items =>
      let cart1 := { cart with Items := items, UpdatedAt := now }
      ({ s with carts := s.carts.set cartID cart1 }, .ok cart1)
    | none =>
      let cart1 := { cart with
        Items := cart.Items ++ [{ ProductID := productID, Quantity := quantity,
                                  Price := productPrice, Name := productName, AddedAt := now }],
        UpdatedAt := now }
      ({ s with carts := s.carts.set cartID cart1 }, .ok cart1)

/-- The method `AddToCartWithLock`. -/
def AddToCartWithLock (s : CartService) (cartID : String) (productID quantity : Int)
    (productPrice : Rat) (productName : String) (now : Int) :
    CartService × Except String Cart :=
  match s.carts.get cartID with
  | none => (s, .error "cart not found")
  | some cart =>
    match addToExisting productID quantity productPrice cart.Items with
    | some items =>
      let cart1 := { cart with Items := items, UpdatedAt := now }
      ({ s with carts := s.carts.set cartID cart1 }, .ok cart1)
    | none =>
      let cart1 := { cart with
        Items := cart.Items ++ [{ ProductID := productID, Quantity := quantity,
                                  Price := productPrice, Name := productName, AddedAt := now }],
        UpdatedAt := now }
      ({ s with carts := s.carts.set cartID cart1 }, .ok cart1)

/-- The method `AddToCartOptimistic`. -/
def AddToCartOptimistic (s : CartService) (cartID : String) (productID quantity : Int)
    (productPrice : Rat) (productName : String) (version : Int) (now : Int) :
    CartService × Except String Cart :=
  match s.carts.get cartID with
  | none => (s, .error "cart not found")
  | some cart =>
    if cart.Version ≠ version then (s, .error "cart was modified by another request")
    else
      let items :=
        match addToExisting productID quantity productPrice cart.Items with
        | some items => items
        | none =>
          cart.Items ++ [{ ProductID := productID, Quantity := quantity,
                           Price := productPrice, Name := productName, AddedAt := now }]
      let cart1 := { cart with Items := items, UpdatedAt := now, Version := cart.Version + 1 }
      ({ s with carts := s.carts.set cartID cart1 }, .ok cart1)

/-- The method `UpdateCartItemQuantityRace`, run alone. -/
def UpdateCartItemQuantityRace (s : CartService) (cartID : String) (productID quantity : Int)
    (now : Int) : CartService × Except String Cart :=
  match s.carts.get cartID with
  | none => (s, .error "cart not found")
  | some cart =>
    match setExisting productID quantity cart.Items with
    | some items =>
      let cart1 := { cart with Items := items, UpdatedAt := now }
      ({ s with carts := s.carts.set cartID cart1 }, .ok cart1)
    | none => (s, .error "product not found in cart")

/-- The method `UpdateCartItemQuantitySafe`. -/
def UpdateCartItemQuantitySafe (s : CartService) (cartID : String) (productID quantity : Int)
    (now : Int) : CartService × Except String Cart :=
  match s.carts.get cartID with
  | none => (s, .error "cart not found")
  | some cart =>
    match setExisting productID quantity cart.Items with
    | some items =>
      let cart1 := { cart with Items := items, UpdatedAt := now }
      ({ s with carts := s.carts.set cartID cart1 }, .ok cart1)
    | none => (s, .error "product not found in cart")

/-- The method `CreateCart`; the cart id is `fmt.Sprintf("cart_%d_%d", userID, now)`. -/
def CreateCart (s : CartService) (userID : Int) (now : Int) : CartService × Cart :=
  let cartID := "cart_" ++ toString userID ++ "_" ++ toString now
  let cart : Cart :=
    { ID := cartID, UserID := userID, Items := [], CreatedAt := now, UpdatedAt := now,
      Version := 1 }
  ({ carts := s.carts.set cartID cart, userCarts := s.userCarts.set userID cartID }, cart)

/-- The method `GetCart`. -/
def GetCart (s : CartService) (cartID : String) : Option Cart :=
  s.carts.get cartID

/-- The method `GetCartByUserID`. -/
def GetCartByUserID (s : CartService) (userID : Int) : Option Cart :=
  match s.userCarts.get userID with
  | none => none
  | some cartID => s.carts.get cartID

end CartService

/-! ## Checkout (`order_service.go`) -/

/-- The anonymous struct `stats` of `OrderService` without its lock. -/
structure Stats where
  totalOrders : Int
  failedOrders : Int
  raceConditionDetected : Int
deriving DecidableEq

/-- The struct `OrderService` without its lock; the two services behind its pointers are part
of the state. -/
structure OrderService where
  orders : GoMap String Order
  userOrders : GoMap Int (List String)
  productService : ProductService
  cartService : CartService
  stats : Stats
deriving DecidableEq

/-- The constructor `NewOrderService`. -/
def NewOrderService (productService : ProductService) (cartService : CartService) :
    OrderService :=
  { orders := [], userOrders := [], productService := productService,
    cartService := cartService,
    stats := { totalOrders := 0, failedOrders := 0, raceConditionDetected := 0 } }

/-- The ways the loop "Step 1: Validate inventory" of `CreateOrderSafe` ends. -/
inductive SafeCheck where
  | productNotFound (productID : Int)
  | insufficientStock (name : String)
  | passed (productsToUpdate : List (Int × Int)) (orderItems : List OrderItem) (total : Rat)
deriving DecidableEq

/-- The loop "Step 1: Validate inventory" of `CreateOrderSafe` over the remaining cart items,
with the values of `productsToUpdate`, `orderItems` and `total` so far. -/
def safeCheckItems (ps : ProductService) :
    List CartItem → List (Int × Int) → List OrderItem → Rat → SafeCheck
  | [], productsToUpdate, orderItems, total => .passed productsToUpdate orderItems total
  | item :: rest, productsToUpdate, orderItems, total =>
    match ps.GetProductByID item.ProductID with
    | none => .productNotFound item.ProductID
    | some product =>
      if product.Stock < item.Quantity then .insufficientStock product.Name
      else
        safeCheckItems ps rest
          (productsToUpdate ++ [(item.ProductID, item.Quantity)])
          (orderItems ++ [{ ProductID := item.ProductID, Quantity := item.Quantity,
                            Price := product.Price, Name := product.Name }])
          (total + product.Price * (item.Quantity : Rat))

/-- The loop "Step 2: Update inventory" of `CreateOrderSafe`: `some productID` when the call
of `UpdateStock` for `productID` does not succeed, and the loop stops there. -/
def safeUpdateItems (now : Int) : ProductService → List (Int × Int) → ProductService × Option Int
  | ps, [] => (ps, none)
  | ps, (productID, quantity) :: rest =>
    match ps.UpdateStock productID quantity now with
    | (ps1, (success, err)) =>
      if !success || err.isSome then (ps1, some productID)
      else safeUpdateItems now ps1 rest

/-- The loop of `CreateOrderBatchCheck` over the remaining cart items, with the values of
`productQuantities`, `orderItems` and `total` so far; `Except.error productID` when the
product of an item does not exist. -/
def batchCollectItems (ps : ProductService) :
    List CartItem → GoMap Int Int → List OrderItem → Rat →
      Except Int (GoMap Int Int × List OrderItem × Rat)
  | [], productQuantities, orderItems, total => .ok (productQuantities, orderItems, total)
  | item :: rest, productQuantities, orderItems, total =>
    match ps.GetProductByID item.ProductID with
    | none => .error item.ProductID
    | some product =>
      batchCollectItems ps rest
        (productQuantities.set item.ProductID item.Quantity)
        (orderItems ++ [{ ProductID := item.ProductID, Quantity := item.Quantity,
                          Price := product.Price, Name := product.Name }])
        (total + product.Price * (item.Quantity : Rat))

/-- The first loop of `tryReserveInventory`: every entry's product exists and has at least
the entry's quantity in stock. -/
def reserveCheck (products : GoMap Int Product) : GoMap Int Int → Bool
  | [] => true
  | (productID, quantity) :: rest =>
    match products.get productID with
    | none => false
    | some product => if product.Stock < quantity then false else reserveCheck products rest

/-- The second loop of `tryReserveInventory`: `products[productID].Stock -= quantity` (Go's
subtraction) for every entry.  It runs after `reserveCheck` has found every product; an absent product (a nil
pointer in Go) leaves the map as it is here. -/
def reserveApply : GoMap Int Product → GoMap Int Int → GoMap Int Product
  | products, [] => products
  | products, (productID, quantity) :: rest =>
    match products.get productID with
    | none => reserveApply products rest
    | some product =>
      reserveApply (products.set productID { product with Stock := goSub product.Stock quantity })
        rest

namespace OrderService

/-- The statements that store a new order: `s.orders[orderID] = order`, the append to
`s.userOrders[userID]` and `s.stats.totalOrders++`. -/
def storeOrder (s : OrderService) (order : Order) : OrderService :=
  { s with
    orders := s.orders.set order.ID order,
    userOrders := s.userOrders.set order.UserID
      (((s.userOrders.get order.UserID).getD []) ++ [order.ID]),
    stats := { s.stats with totalOrders := s.stats.totalOrders + 1 } }

/-- The method `tryReserveInventory`: its two loops
`for productID, quantity := range productQuantities`. -/
def tryReserveInventory (s : OrderService) (productQuantities : GoMap Int Int) :
    OrderService × Bool :=
  if reserveCheck s.productService.products productQuantities.range then
    ({ s with productService := { s.productService with
        products := reserveApply s.productService.products productQuantities.range } }, true)
  else (s, false)

/-- The method `CreateOrderSafe`, run alone. -/
def CreateOrderSafe (s : OrderService) (cartID : String) (userID : Int)
    (address paymentMethod : String) (now : Int) : OrderService × Except String Order :=
  match s.cartService.GetCart cartID with
  | none => (s, .error "cart not found")
  | some cart =>
    if cart.UserID ≠ userID then (s, .error "unauthorized")
    else if cart.Items.length = 0 then (s, .error "cart is empty")
    else
      match safeCheckItems s.productService cart.Items [] [] 0 with
      | .productNotFound productID =>
        (s, .error ("product " ++ toString productID ++ " not found"))
      | .insufficientStock name =>
        ({ s with stats := { s.stats with failedOrders := s.stats.failedOrders + 1 } },
          .error ("insufficient stock for product " ++ name))
      | .passed productsToUpdate orderItems total =>
        match safeUpdateItems now s.productService productsToUpdate with
        | (ps1, some productID) =>
          ({ s with productService := ps1 },
            .error ("failed to update inventory for product " ++ toString productID))
        | (ps1, none) =>
          let order : Order :=
            { ID := "order_" ++ toString userID ++ "_" ++ toString now, UserID := userID,
              Items := orderItems, Total := total, Status := OrderStatusPending,
              CreatedAt := now, UpdatedAt := now }
          (storeOrder { s with productService := ps1 } order, .ok order)

/-- The method `CreateOrderBatchCheck`, run alone. -/
def CreateOrderBatchCheck (s : OrderService) (cartID : String) (userID : Int) (now : Int) :
    OrderService × Except String Order :=
  match s.cartService.GetCart cartID with
  | none => (s, .error "cart not found")
  | some cart =>
    match batchCollectItems s.productService cart.Items [] [] 0 with
    | .error productID => (s, .error ("product " ++ toString productID ++ " not found"))
    | .ok (productQuantities, orderItems, total) =>
      match tryReserveInventory s productQuantities with
      | (s1, false) =>
        ({ s1 with stats := { s1.stats with
            raceConditionDetected := s1.stats.raceConditionDetected + 1 } },
          .error "inventory reservation failed - possible race condition")
      | (s1, true) =>
        let order : Order :=
          { ID := "order_" ++ toString userID ++ "_" ++ toString now, UserID := userID,
            Items := orderItems, Total := total, Status := OrderStatusPending,
            CreatedAt := now, UpdatedAt := now }
        (storeOrder s1 order, .ok order)

/-- The method `FlashSalePurchase`, run alone. -/
def FlashSalePurchase (s : OrderService) (productID quantity userID : Int) (now : Int) :
    OrderService × Except String Order :=
  match s.productService.GetProductByID productID with
  | none => (s, .error "product not found")
  | some product =>
    if product.Stock < quantity then (s, .error "out of stock")
    else
      match s.productService.UpdateStock productID quantity now with
      | (ps1, (success, err)) =>
        if !success || err.isSome then ({ s with productService := ps1 }, .error "purchase failed")
        else
          let product1 := (ps1.products.get productID).getD product
          let order : Order :=
            { ID := "flash_" ++ toString userID ++ "_" ++ toString now, UserID := userID,
              Items := [{ ProductID := productID, Quantity := quantity,
                          Price := product1.Price, Name := product1.Name }],
              Total := product1.Price * (quantity : Rat), Status := OrderStatusPending,
              CreatedAt := now, UpdatedAt := now }
          (storeOrder { s with productService := ps1 } order, .ok order)

end OrderService

/-- The loop of `CreateOrderNoLock` over the remaining cart items, with the values of
`orderItems` and `total` so far: each item is checked against the live product and its
quantity is taken from the stock at once (`product.Stock -= item.Quantity`, Go's
subtraction), through the product pointer (the time stamp is not touched); the loop stops at
the first item that fails. -/
def noLockItems : ProductService → List CartItem → List OrderItem → Rat →
    ProductService × Except String (List OrderItem × Rat)
  | ps, [], orderItems, total => (ps, .ok (orderItems, total))
  | ps, item :: rest, orderItems, total =>
    match ps.GetProductByID item.ProductID with
    | none => (ps, .error ("product " ++ toString item.ProductID ++ " not found"))
    | some product =>
      if product.Stock < item.Quantity then
        (ps, .error ("insufficient stock for product " ++ product.Name))
      else
        let product1 := { product with Stock := goSub product.Stock item.Quantity }
        noLockItems { ps with products := ps.products.set item.ProductID product1 } rest
          (orderItems ++ [{ ProductID := item.ProductID, Quantity := item.Quantity,
                            Price := product.Price, Name := product.Name }])
          (total + product.Price * (item.Quantity : Rat))

namespace OrderService

/-- The method `CreateOrderNoLock`, run alone. -/
def CreateOrderNoLock (s : OrderService) (cartID : String) (userID : Int)
    (address paymentMethod : String) (now : Int) : OrderService × Except String Order :=
  match s.cartService.GetCart cartID with
  | none => (s, .error "cart not found")
  | some cart =>
    if cart.UserID ≠ userID then (s, .error "unauthorized")
    else if cart.Items.length = 0 then (s, .error "cart is empty")
    else
      match noLockItems s.productService cart.Items [] 0 with
      | (ps1, .error e) => ({ s with productService := ps1 }, .error e)
      | (ps1, .ok (orderItems, total)) =>
        let order : Order :=
          { ID := "order_" ++ toString userID ++ "_" ++ toString now, UserID := userID,
            Items := orderItems, Total := total, Status := OrderStatusPending,
            CreatedAt := now, UpdatedAt := now }
        (storeOrder { s with productService := ps1 } order, .ok order)

end OrderService

/-! ## Catalog reads (`product_service.go`) and statistics (`order_service.go`)

A method that can stop with a run-time panic returns `none` for the panic. -/

/-- The bytes of a Go string: the UTF-8 encoding of its characters, each byte as a number. -/
def goBytes (s : String) : List Nat :=
  (s.data.flatMap String.utf8EncodeChar).map UInt8.toNat

/-- The slice expression `a[lo:hi]` on a string, or on a slice taken up to its length:
`none` is the run-time panic for indices out of range. -/
def goSlice {α : Type} (a : List α) (lo hi : Int) : Option (List α) :=
  if 0 ≤ lo ∧ lo ≤ hi ∧ hi ≤ (a.length : Int) then
    some ((a.drop lo.toNat).take (hi - lo).toNat)
  else none

/-- The loop `for i := 0; i <= len(s)-len(substr); i++` of `contains`, from index `i` with
the number of passes that are left. -/
def containsLoop (s substr : List Nat) : Int → Nat → Option Bool
  | _, 0 => some false
  | i, fuel + 1 =>
    match goSlice s i (i + (substr.length : Int)) with
    | none => none
    | some part => if part = substr then some true else containsLoop s substr (i + 1) fuel

/-- The helper `contains` of the search. -/
def contains (s substr : String) : Option Bool :=
  containsLoop (goBytes s) (goBytes substr) 0
    (((goBytes s).length : Int) - ((goBytes substr).length : Int) + 1).toNat

/-- The loop `for i := start; i < end; i++` of `GetAllProducts`, from index `i` with the
number of passes that are left: the product stored under `i+1` is appended when it exists.
(As `i < end`, neither `i++` nor `i+1` leaves the range of `int`.) -/
def pageLoop (products : GoMap Int Product) : Int → Nat → List Product
  | _, 0 => []
  | i, n + 1 =>
    match products.get (i + 1) with
    | some product => product :: pageLoop products (i + 1) n
    | none => pageLoop products (i + 1) n

/-- The three tests of the loop body of `SearchProducts` for one product; `||` evaluates its
right side only when the left side is false. -/
def matchesSearch (product : Product) (query category : String) (minPrice maxPrice : Rat) :
    Option Bool :=
  let matchesQuery : Option Bool :=
    if query = "" then some true
    else
      match contains product.Name query with
      | none => none
      | some true => some true
      | some false => contains product.Description query
  match matchesQuery with
  | none => none
  | some matchesQuery =>
    let matchesCategory : Bool := decide (category = "") || decide (product.Category = category)
    let matchesPrice : Bool :=
      (decide (minPrice = 0) || decide (product.Price ≥ minPrice)) &&
        (decide (maxPrice = 0) || decide (product.Price ≤ maxPrice))
    some (matchesQuery && matchesCategory && matchesPrice)

/-- The loop `for _, product := range s.products` of `SearchProducts`: the matching
products, in the order the entries are visited. -/
def searchLoop (query category : String) (minPrice maxPrice : Rat) :
    GoMap Int Product → Option (List Product)
  | [] => some []
  | (_, product) :: rest =>
    match matchesSearch product query category minPrice maxPrice with
    | none => none
    | some true => (searchLoop query category minPrice maxPrice rest).map (fun r => product :: r)
    | some false => searchLoop query category minPrice maxPrice rest

/-- Modelled from the spec: the declaration of `models.Product` is not among the sources; the
size in bytes of a value with the fields of section 3 of the specification on a 64-bit
platform (two `int`, a `float64`, three strings of 16 bytes, two `time.Time` of 24 bytes). -/
def productSize : Int := 120

/-- The constant `maxAlloc` of the Go runtime on a 64-bit platform, `2^48` bytes: `make`
refuses a slice whose capacity takes more. -/
def maxAlloc : Int := 281474976710656

namespace ProductService

/-- The method `GetAllProducts`.  `start`, `end` and the capacity `end-start` are computed with
Go's arithmetic; `make` with a negative capacity, or with a capacity of more than `maxAlloc`
bytes, is a run-time panic; the loop makes `end - start` passes when `start < end` and none
otherwise. -/
def GetAllProducts (s : ProductService) (page limit : Int) :
    ProductService × Option (List Product × Int) :=
  let total : Int := (s.products.length : Int)
  if total = 0 then (s, some ([], 0))
  else
    let start := goMul (goSub page 1) limit
    let end0 := goAdd start limit
    if start ≥ total then (s, some ([], total))
    else
      let end1 := if end0 > total then total else end0
      let capacity := goSub end1 start
      if capacity < 0 ∨ productSize * capacity > maxAlloc then (s, none)
      else (s, some (pageLoop s.products start (end1 - start).toNat, total))

/-- The method `SearchProducts`.  Go leaves the order open in which
`for _, product := range s.products` visits the entries of the map: `visit` is the entries in
the order of this call, a permutation of `s.products`.  `start` and `end` are computed with
Go's arithmetic. -/
def SearchProducts (s : ProductService) (visit : GoMap Int Product) (query category : String)
    (minPrice maxPrice : Rat) (page limit : Int) :
    ProductService × Option (List Product × Int) :=
  match searchLoop query category minPrice maxPrice visit with
  | none => (s, none)
  | some results =>
    let total : Int := (results.length : Int)
    let start := goMul (goSub page 1) limit
    let end0 := goAdd start limit
    if start ≥ total then (s, some ([], total))
    else
      let end1 := if end0 > total then total else end0
      match goSlice results start end1 with
      | none => (s, none)
      | some part => (s, some (part, total))

end ProductService

namespace OrderService

/-- The method `GetStats`: the map literal it returns, in the order of the source. -/
def GetStats (s : OrderService) : OrderService × GoMap String Int :=
  (s, [("total_orders", s.stats.totalOrders), ("failed_orders", s.stats.failedOrders),
       ("race_conditions", s.stats.raceConditionDetected)])

end OrderService

/-! ## Properties the theorems speak about -/

/-- Every product of the inventory has a stock of at least zero. -/
def StockNonneg (ps : ProductService) : Prop :=
  ∀ id p, ps.products.get id = some p → 0 ≤ p.Stock

/-- A call that takes stock from the inventory: `UpdateStock` or `tryReserveInventory`. -/
inductive StockCall where
  | updateStock (productID quantity now : Int)
  | reserve (productQuantities : GoMap Int Int)

namespace StockCall

/-- The map argument of a call holds every key once. -/
def WF : StockCall → Prop
  | updateStock _ _ _ => True
  | reserve productQuantities => GoMap.WF productQuantities

instance (c : StockCall) : Decidable c.WF := by
  cases c <;> unfold WF <;> infer_instance

/-- One call as one step: the service after the call, and whether the call succeeded. -/
def run (s : OrderService) : StockCall → OrderService × Bool
  | updateStock productID quantity now =>
    ({ s with productService := (s.productService.UpdateStock productID quantity now).1 },
      (s.productService.UpdateStock productID quantity now).2.1)
  | reserve productQuantities => s.tryReserveInventory productQuantities

/-- The quantity a call asks of product `id`; zero when the call does not name the product. -/
def asked (id : Int) : StockCall → Int
  | updateStock productID quantity _ => if productID = id then quantity else 0
  | reserve productQuantities => (productQuantities.get id).getD 0

end StockCall

/-- The calls run one after the other: the service at the end, and the sum of the quantities
that the successful calls took from product `id`. -/
def runStockCalls (id : Int) : OrderService → List StockCall → OrderService × Int
  | s, [] => (s, 0)
  | s, c :: cs =>
    ((runStockCalls id (c.run s).1 cs).1,
      (if (c.run s).2 then c.asked id else 0) + (runStockCalls id (c.run s).1 cs).2)

/-- A product for examples: only its id and stock matter. -/
def sampleProduct (id stock : Int) : Product :=
  { ID := id, Name := "Product", Description := "Description", Price := 5, Stock := stock,
    Category := "Books", CreatedAt := 0, UpdatedAt := 0 }

/-- An order service for examples: product 1 with stock 5, product 2 with stock 1, no cart. -/
def sampleShop : OrderService :=
  NewOrderService { products := [(1, sampleProduct 1 5), (2, sampleProduct 2 1)], nextID := 3 }
    NewCartService

/-- The items of a cart after the add-or-merge of the three add methods: the result of the
loop `addToExisting` when it finds the product, the items with the new item appended when it
does not. -/
def mergedItems (productID quantity : Int) (productPrice : Rat) (productName : String)
    (now : Int) (items : List CartItem) : List CartItem :=
  match addToExisting productID quantity productPrice items with
  | some r => r
  | none =>
    items ++ [{ ProductID := productID, Quantity := quantity, Price := productPrice,
                Name := productName, AddedAt := now }]

/-- The cart as `AddToCartNoLock` and `AddToCartWithLock` leave it. -/
def cartAfterAdd (cart : Cart) (productID quantity : Int) (productPrice : Rat)
    (productName : String) (now : Int) : Cart :=
  { cart with
    Items := mergedItems productID quantity productPrice productName now cart.Items,
    UpdatedAt := now }

/-- The cart as an accepted `AddToCartOptimistic` leaves it. -/
def cartAfterOptimisticAdd (cart : Cart) (productID quantity : Int) (productPrice : Rat)
    (productName : String) (now : Int) : Cart :=
  { cart with
    Items := mergedItems productID quantity productPrice productName now cart.Items,
    UpdatedAt := now, Version := cart.Version + 1 }

/-- The store after the cart stored under `cartID` has been changed to `cart`. -/
def storeCart (s : CartService) (cartID : String) (cart : Cart) : CartService :=
  { s with carts := s.carts.set cartID cart }

/-- The quantity of the first line item of the product; zero when the product has none. -/
def quantityOf (productID : Int) : List CartItem → Int
  | [] => 0
  | item :: rest => if item.ProductID = productID then item.Quantity else quantityOf productID rest

/-- The line items of the product. -/
def linesOf (productID : Int) (items : List CartItem) : List CartItem :=
  items.filter (fun item => decide (item.ProductID = productID))

/-- The items have pairwise distinct product ids. -/
def DistinctProducts (items : List CartItem) : Prop :=
  (items.map (fun item => item.ProductID)).Nodup

instance (items : List CartItem) : Decidable (DistinctProducts items) := by
  unfold DistinctProducts; infer_instance

/-- Every cart of the store has one line item per product at most. -/
def CartsDistinct (s : CartService) : Prop :=
  ∀ cartID cart, s.carts.get cartID = some cart → DistinctProducts cart.Items

/-- The arguments of one add call for a fixed cart and product. -/
structure AddCall where
  quantity : Int
  productPrice : Rat
  productName : String
  now : Int

/-- One call of `AddToCartWithLock` for the cart and product: the store after it. -/
def stepWithLock (cartID : String) (productID : Int) (s : CartService) (c : AddCall) :
    CartService :=
  (s.AddToCartWithLock cartID productID c.quantity c.productPrice c.productName c.now).1

/-- One call of `AddToCartOptimistic` for the cart and product, given the version the cart
has when the call is made: the store after it. -/
def stepOptimistic (cartID : String) (productID : Int) (s : CartService) (c : AddCall) :
    CartService :=
  match s.GetCart cartID with
  | none => s
  | some cart =>
    (s.AddToCartOptimistic cartID productID c.quantity c.productPrice c.productName
      cart.Version c.now).1

/-- The calls of `AddToCartWithLock` for one cart and product, one after the other. -/
def addAllWithLock (cartID : String) (productID : Int) (s : CartService)
    (calls : List AddCall) : CartService :=
  calls.foldl (stepWithLock cartID productID) s

/-- The calls of `AddToCartOptimistic` for one cart and product, one after the other, each
given the current version of the cart. -/
def addAllOptimistic (cartID : String) (productID : Int) (s : CartService)
    (calls : List AddCall) : CartService :=
  calls.foldl (stepOptimistic cartID productID) s

/-- The cart as an accepted update of a quantity leaves it. -/
def cartAfterUpdate (cart : Cart) (items : List CartItem) (now : Int) : Cart :=
  { cart with Items := items, UpdatedAt := now }

/-- A cart store for examples: the cart that `CreateCart` makes for user 7 at time 0. -/
def sampleCarts : CartService := (NewCartService.CreateCart 7 0).1

/-- A cart store for examples: the cart of user 7 with 2 of product 1 and 3 of product 2. -/
def sampleCartsFilled : CartService :=
  ((sampleCarts.AddToCartWithLock "cart_7_0" 1 2 5 "Product" 1).1.AddToCartWithLock
    "cart_7_0" 2 3 5 "Product" 2).1

/-- An order service for examples: product 1 with stock 5, product 2 with stock 1, and the
cart of user 7 that asks for 2 of product 1 and 3 of product 2. -/
def sampleCheckoutShort : OrderService :=
  NewOrderService { products := [(1, sampleProduct 1 5), (2, sampleProduct 2 1)], nextID := 3 }
    sampleCartsFilled

/-- An order service for examples: product 1 with stock 5, product 2 with stock 4, and the
cart of user 7 that asks for 2 of product 1 and 3 of product 2. -/
def sampleCheckout : OrderService :=
  NewOrderService { products := [(1, sampleProduct 1 5), (2, sampleProduct 2 4)], nextID := 3 }
    sampleCartsFilled

/-- An order service for examples: product 1 with stock 5, product 2 with stock 4, and the
cart of user 7 with one line, of product 1 with the quantity -9223372036854775808 (the least
`int`; a line reaches it when 1 is added to the quantity 9223372036854775807). -/
def sampleCheckoutLeast : OrderService :=
  NewOrderService { products := [(1, sampleProduct 1 5), (2, sampleProduct 2 4)], nextID := 3 }
    ((sampleCarts.AddToCartWithLock "cart_7_0" 1 9223372036854775807 5 "Product"
      1).1.AddToCartWithLock "cart_7_0" 1 1 5 "Product" 2).1

/-- An order service for examples: the sample inventory and the empty cart of user 7. -/
def sampleCheckoutEmpty : OrderService :=
  NewOrderService { products := [(1, sampleProduct 1 5), (2, sampleProduct 2 1)], nextID := 3 }
    sampleCarts

/-- An order line matches a cart line over an inventory: it carries the product id and the
quantity of the cart line and the price and name of the product in the inventory. -/
def LineOf (ps : ProductService) (item : CartItem) (orderItem : OrderItem) : Prop :=
  orderItem.ProductID = item.ProductID ∧ orderItem.Quantity = item.Quantity ∧
    ∃ p, ps.products.get item.ProductID = some p ∧
      orderItem.Price = p.Price ∧ orderItem.Name = p.Name

/-- The sum of price times quantity over the order lines. -/
def orderTotal (orderItems : List OrderItem) : Rat :=
  (orderItems.map (fun o => o.Price * (o.Quantity : Rat))).sum

/-- Two inventories give every product id the same price and name. -/
def SameCatalog (ps ps1 : ProductService) : Prop :=
  ∀ id, (ps1.products.get id).map (fun p => (p.Price, p.Name)) =
    (ps.products.get id).map (fun p => (p.Price, p.Name))

/-- An order of `userID` has been recorded between the services `s` and `s1`: it is pending,
it is stored under its id, its id is the new last entry of the order index of the user, and of
the counters only `totalOrders` has moved, by one. -/
def OrderRecorded (s s1 : OrderService) (userID : Int) (order : Order) : Prop :=
  order.Status = OrderStatusPending ∧ order.UserID = userID ∧
  s1.orders.get order.ID = some order ∧
  s1.userOrders.get userID = some (((s.userOrders.get userID).getD []) ++ [order.ID]) ∧
  s1.stats.totalOrders = s.stats.totalOrders + 1 ∧
  s1.stats.failedOrders = s.stats.failedOrders ∧
  s1.stats.raceConditionDetected = s.stats.raceConditionDetected

/-- The value of a decimal digit character. -/
def digitValue (c : Char) : Nat := c.toNat - 48

/-- The number that a list of decimal digits writes. -/
def decimalValue (l : List Char) : Nat := l.foldl (fun a c => a * 10 + digitValue c) 0

/-- Every entry of `userCarts` holds a cart id that `CreateCart` made for that user. -/
def UserCartsOwned (s : CartService) : Prop :=
  ∀ userID cartID, s.userCarts.get userID = some cartID →
    ∃ t : Int, cartID = "cart_" ++ toString userID ++ "_" ++ toString t

/-- The cart stores that the methods of `CartService` build from `NewCartService`. -/
inductive CartReachable : CartService → Prop
  | new : CartReachable NewCartService
  | createCart (s : CartService) (userID now : Int) :
      CartReachable s → CartReachable (s.CreateCart userID now).1
  | addNoLock (s : CartService) (cartID : String) (productID quantity : Int) (price : Rat)
      (name : String) (now : Int) :
      CartReachable s →
      CartReachable (s.AddToCartNoLock cartID productID quantity price name now).1
  | addWithLock (s : CartService) (cartID : String) (productID quantity : Int) (price : Rat)
      (name : String) (now : Int) :
      CartReachable s →
      CartReachable (s.AddToCartWithLock cartID productID quantity price name now).1
  | addOptimistic (s : CartService) (cartID : String) (productID quantity : Int) (price : Rat)
      (name : String) (version now : Int) :
      CartReachable s →
      CartReachable (s.AddToCartOptimistic cartID productID quantity price name version now).1
  | updateRace (s : CartService) (cartID : String) (productID quantity now : Int) :
      CartReachable s →
      CartReachable (s.UpdateCartItemQuantityRace cartID productID quantity now).1
  | updateSafe (s : CartService) (cartID : String) (productID quantity now : Int) :
      CartReachable s →
      CartReachable (s.UpdateCartItemQuantitySafe cartID productID quantity now).1

/-- Whether a checkout call returned an order. -/
def returnedOrder : Except String Order → Bool
  | .ok _ => true
  | .error _ => false

/-- The calls `FlashSalePurchase(productID, 1, userID)` for the given users and times, one
after the other: the service at the end, the number of calls that returned an order and the
number of calls that failed. -/
def flashSaleRun (productID : Int) : OrderService → List (Int × Int) → OrderService × Nat × Nat
  | s, [] => (s, 0, 0)
  | s, (userID, now) :: rest =>
    ((flashSaleRun productID (s.FlashSalePurchase productID 1 userID now).1 rest).1,
      (if returnedOrder (s.FlashSalePurchase productID 1 userID now).2 then 1 else 0) +
        (flashSaleRun productID (s.FlashSalePurchase productID 1 userID now).1 rest).2.1,
      (if returnedOrder (s.FlashSalePurchase productID 1 userID now).2 then 0 else 1) +
        (flashSaleRun productID (s.FlashSalePurchase productID 1 userID now).1 rest).2.2)

/-- A call of one of the four methods that create orders. -/
inductive OrderCall where
  | noLock (cartID : String) (userID : Int) (address paymentMethod : String) (now : Int)
  | safe (cartID : String) (userID : Int) (address paymentMethod : String) (now : Int)
  | batch (cartID : String) (userID now : Int)
  | flashSale (productID quantity userID now : Int)

/-- One call as one step. -/
def OrderCall.run (s : OrderService) : OrderCall → OrderService × Except String Order
  | .noLock cartID userID address paymentMethod now =>
    s.CreateOrderNoLock cartID userID address paymentMethod now
  | .safe cartID userID address paymentMethod now =>
    s.CreateOrderSafe cartID userID address paymentMethod now
  | .batch cartID userID now => s.CreateOrderBatchCheck cartID userID now
  | .flashSale productID quantity userID now => s.FlashSalePurchase productID quantity userID now

/-- The calls one after the other: the service at the end and the number of calls that
returned an order. -/
def runOrderCalls : OrderService → List OrderCall → OrderService × Nat
  | s, [] => (s, 0)
  | s, c :: cs =>
    ((runOrderCalls (c.run s).1 cs).1,
      (if returnedOrder (c.run s).2 then 1 else 0) + (runOrderCalls (c.run s).1 cs).2)

/-- The sum, over the users of the order index, of the number of order ids of the user. -/
def indexSize (userOrders : GoMap Int (List String)) : Nat :=
  (userOrders.map (fun e => e.2.length)).sum

/-- An order service for examples: product 1 with stock 10 and no cart. -/
def flashShop : OrderService :=
  NewOrderService { products := [(1, sampleProduct 1 10)], nextID := 2 } NewCartService

/-- Fifteen buyers for examples: users 100 to 114 at times 0 to 14. -/
def flashBuyers : List (Int × Int) :=
  (List.range 15).map (fun i => ((i : Int) + 100, (i : Int)))

/-- The inventory `ps1` has the product ids of `ps`, and, when the condition `c` on the
quantities asked holds, no product has more stock in `ps1` than in `ps`. -/
def StockKept (c : Prop) (ps ps1 : ProductService) : Prop :=
  GoMap.keys ps1.products = GoMap.keys ps.products ∧
  (c → ∀ id p, ps.products.get id = some p →
    ∃ p1, ps1.products.get id = some p1 ∧ p1.Stock ≤ p.Stock)

/-- The string `substr` is a substring of `s`: its bytes stand somewhere in the bytes of
`s`, one after the other. -/
def IsSubstring (substr s : String) : Prop := goBytes substr <:+: goBytes s

/-- The filter of the search as the specification words it: the query is empty or a
substring of the name or of the description, the category is empty or equal, and the price is
within the bounds that are not zero. -/
def SearchMatch (p : Product) (query category : String) (minPrice maxPrice : Rat) : Prop :=
  (query = "" ∨ IsSubstring query p.Name ∨ IsSubstring query p.Description) ∧
  (category = "" ∨ p.Category = category) ∧
  (minPrice = 0 ∨ p.Price ≥ minPrice) ∧
  (maxPrice = 0 ∨ p.Price ≤ maxPrice)

instance (p : Product) (query category : String) (minPrice maxPrice : Rat) :
    Decidable (SearchMatch p query category minPrice maxPrice) := by
  unfold SearchMatch IsSubstring; infer_instance

/-- The products of the catalog that match the filter, in the order of the entries. -/
def matchingProducts (products : GoMap Int Product) (query category : String)
    (minPrice maxPrice : Rat) : List Product :=
  (products.filter
    (fun e => decide (SearchMatch e.2 query category minPrice maxPrice))).map Prod.snd

/-! ## Facts about Go integers -/

theorem wrap64_of_IsInt64 (x : Int) (h : IsInt64 x) : wrap64 x = x := by
  unfold IsInt64 at h; unfold wrap64; omega

theorem wrap64_IsInt64 (x : Int) : IsInt64 (wrap64 x) := by
  unfold IsInt64 wrap64; omega

theorem wrap64_add_wrap64 (a b : Int) : wrap64 (wrap64 a + b) = wrap64 (a + b) := by
  unfold wrap64; omega

theorem goSub_int64 (a b : Int) (ha : IsInt64 a) (hb : IsInt64 b) :
    goSub a b = wrap64 (a - b) := by
  unfold goSub; rw [if_pos ⟨ha, hb⟩]

theorem goSub_of_fits (a b : Int) (h : IsInt64 (a - b)) : goSub a b = a - b := by
  unfold goSub; split
  · exact wrap64_of_IsInt64 _ h
  · rfl

theorem goSub_of_le (a b : Int) (h0 : 0 ≤ b) (h : b ≤ a) : goSub a b = a - b := by
  unfold goSub; split
  · rename_i hr
    apply wrap64_of_IsInt64
    unfold IsInt64 at hr ⊢; omega
  · rfl

theorem goSub_step (a b : Int) (h : b ≤ a) :
    goSub a b = a - b ∨
      (18446744073709551616 ≤ a - b - goSub a b ∧ -9223372036854775808 ≤ goSub a b) := by
  unfold goSub; split
  · unfold wrap64; omega
  · exact Or.inl rfl

theorem goSub_le (a b : Int) (h0 : 0 ≤ b) (h : b ≤ a) : goSub a b ≤ a := by
  rw [goSub_of_le a b h0 h]; omega

theorem goAdd_int64 (a b : Int) (ha : IsInt64 a) (hb : IsInt64 b) :
    goAdd a b = wrap64 (a + b) := by
  unfold goAdd; rw [if_pos ⟨ha, hb⟩]

theorem goAdd_of_fits (a b : Int) (h : IsInt64 (a + b)) : goAdd a b = a + b := by
  unfold goAdd; split
  · exact wrap64_of_IsInt64 _ h
  · rfl

theorem goMul_of_fits (a b : Int) (h : IsInt64 (a * b)) : goMul a b = a * b := by
  unfold goMul; split
  · exact wrap64_of_IsInt64 _ h
  · rfl

/-! ## Facts about Go maps -/

namespace GoMap

variable {κ α : Type} [DecidableEq κ]

theorem get_set_self (m : GoMap κ α) (k : κ) (v : α) : (m.set k v).get k = some v := by
  induction m with
  | nil => simp [set, get]
  | cons e rest ih =>
    obtain ⟨k', v'⟩ := e
    by_cases h : k' = k
    · simp [set, get, h]
    · simp [set, get, h, ih]

theorem get_set_ne (m : GoMap κ α) {k k' : κ} (v : α) (h : k ≠ k') :
    (m.set k v).get k' = m.get k' := by
  induction m with
  | nil => simp [set, get, h]
  | cons e rest ih =>
    obtain ⟨k1, v1⟩ := e
    by_cases h1 : k1 = k
    · subst h1; simp [set, get, h]
    · simp [set, get, h1, ih]

theorem get_eq_none_of_not_mem (m : GoMap κ α) (k : κ) (h : k ∉ keys m) : m.get k = none := by
  induction m with
  | nil => rfl
  | cons e rest ih =>
    obtain ⟨k1, v1⟩ := e
    simp only [keys, List.map_cons, List.mem_cons, not_or] at h
    have h1 : ¬ k1 = k := fun e => h.1 e.symm
    simp only [get, h1, if_false]
    exact ih h.2

theorem mem_keys_of_get (m : GoMap κ α) (k : κ) (v : α) (h : m.get k = some v) : k ∈ keys m := by
  by_contra hk
  rw [get_eq_none_of_not_mem m k hk] at h
  exact Option.noConfusion h

theorem keys_set_of_mem (m : GoMap κ α) (k : κ) (v : α) (h : k ∈ keys m) :
    keys (m.set k v) = keys m := by
  induction m with
  | nil => simp [keys] at h
  | cons e rest ih =>
    obtain ⟨k1, v1⟩ := e
    by_cases h1 : k1 = k
    · simp [set, keys, h1]
    · have hk : k ∈ keys rest := by
        simp only [keys, List.map_cons, List.mem_cons] at h
        rcases h with h | h
        · exact absurd h.symm h1
        · exact h
      have := ih hk
      simp only [keys] at this
      simp [set, keys, h1, this]

theorem keys_set_of_not_mem (m : GoMap κ α) (k : κ) (v : α) (h : k ∉ keys m) :
    keys (m.set k v) = keys m ++ [k] := by
  induction m with
  | nil => simp [keys, set]
  | cons e rest ih =>
    obtain ⟨k1, v1⟩ := e
    simp only [keys, List.map_cons, List.mem_cons, not_or] at h
    have h1 : ¬ k1 = k := fun e => h.1 e.symm
    have := ih h.2
    simp only [keys] at this
    simp [set, keys, h1, this]

theorem range_of_WF (m : GoMap κ α) (h : WF m) : range m = m := by
  induction m with
  | nil => rfl
  | cons e rest ih =>
    obtain ⟨k, v⟩ := e
    have hwf : k ∉ keys rest ∧ WF rest := by
      simpa [WF, keys] using h
    simp only [range, ih hwf.2]
    congr 1
    rw [List.filter_eq_self]
    intro a ha
    simp only [ne_eq, decide_not, Bool.not_eq_eq_eq_not, Bool.not_true, decide_eq_false_iff_not]
    intro heq
    exact hwf.1 (heq ▸ List.mem_map.mpr ⟨a, ha, rfl⟩)

theorem range_subset (m : GoMap κ α) : ∀ e ∈ range m, e ∈ m := by
  induction m with
  | nil => intro e he; simp [range] at he
  | cons x rest ih =>
    obtain ⟨k, v⟩ := x
    intro e he
    simp only [range, List.mem_cons, List.mem_filter] at he
    rcases he with he | ⟨he, _⟩
    · exact he ▸ List.mem_cons_self _ _
    · exact List.mem_cons_of_mem _ (ih e he)

theorem range_WF (m : GoMap κ α) : WF (range m) := by
  induction m with
  | nil => simp [range, WF, keys]
  | cons x rest ih =>
    obtain ⟨k, v⟩ := x
    simp only [range, WF, keys, List.map_cons, List.nodup_cons, List.mem_map, List.mem_filter]
    constructor
    · rintro ⟨a, ⟨_, ha⟩, hk⟩
      simp at ha
      exact ha hk
    · have : (List.map Prod.fst (List.filter (fun e => decide (e.1 ≠ k)) (range rest))).Nodup := by
        have h1 : (List.filter (fun e => decide (e.1 ≠ k)) (range rest)).Sublist (range rest) :=
          List.filter_sublist _
        exact List.Nodup.sublist (List.Sublist.map _ h1) ih
      exact this

theorem WF_set (m : GoMap κ α) (k : κ) (v : α) (h : WF m) : WF (m.set k v) := by
  unfold WF at *
  by_cases hk : k ∈ keys m
  · rw [keys_set_of_mem m k v hk]; exact h
  · rw [keys_set_of_not_mem m k v hk]
    exact List.Nodup.append h (List.nodup_singleton k) (by simpa using hk)

end GoMap

/-! ## Facts about the loops of `tryReserveInventory` -/

theorem tryReserveInventory_of_WF (s : OrderService) (pq : GoMap Int Int) (h : GoMap.WF pq) :
    s.tryReserveInventory pq =
      if reserveCheck s.productService.products pq then
        ({ s with productService := { s.productService with
            products := reserveApply s.productService.products pq } }, true)
      else (s, false) := by
  unfold OrderService.tryReserveInventory
  rw [GoMap.range_of_WF pq h]

theorem reserveCheck_iff (products : GoMap Int Product) (pq : GoMap Int Int) :
    reserveCheck products pq = true ↔
      ∀ e ∈ pq, ∃ p, products.get e.1 = some p ∧ e.2 ≤ p.Stock := by
  induction pq with
  | nil => simp [reserveCheck]
  | cons e rest ih =>
    obtain ⟨k, q⟩ := e
    simp only [reserveCheck, List.mem_cons, forall_eq_or_imp]
    cases hget : products.get k with
    | none => simp
    | some p =>
      by_cases hlt : p.Stock < q
      · simp [hlt]
      · simp only [hlt, if_false, ih]
        have hle : q ≤ p.Stock := not_lt.mp hlt
        constructor
        · intro h
          exact ⟨⟨p, rfl, hle⟩, h⟩
        · intro h
          exact h.2

theorem GoMap.get_of_mem {κ α : Type} [DecidableEq κ] (m : GoMap κ α) (h : GoMap.WF m)
    (k : κ) (v : α) (hm : (k, v) ∈ m) : m.get k = some v := by
  induction m with
  | nil => simp at hm
  | cons e rest ih =>
    obtain ⟨k1, v1⟩ := e
    have hwf : k1 ∉ GoMap.keys rest ∧ GoMap.WF rest := by
      simpa [GoMap.WF, GoMap.keys] using h
    rcases List.mem_cons.mp hm with heq | hin
    · cases heq
      simp [GoMap.get]
    · have hne : ¬ k1 = k := by
        intro e
        subst e
        exact hwf.1 (List.mem_map.mpr ⟨(k1, v), hin, rfl⟩)
      simp only [GoMap.get, hne, if_false]
      exact ih hwf.2 hin

theorem GoMap.mem_of_get {κ α : Type} [DecidableEq κ] (m : GoMap κ α)
    (k : κ) (v : α) (hg : m.get k = some v) : (k, v) ∈ m := by
  induction m with
  | nil => simp [GoMap.get] at hg
  | cons e rest ih =>
    obtain ⟨k1, v1⟩ := e
    by_cases h1 : k1 = k
    · simp only [GoMap.get, h1, if_true, Option.some.injEq] at hg
      simp [h1, hg]
    · simp only [GoMap.get, h1, if_false] at hg
      exact List.mem_cons_of_mem _ (ih hg)

/-- The stock of every product after the second loop of `tryReserveInventory`, when the map
of quantities holds every key once and every listed product exists. -/
theorem reserveApply_get (pq : GoMap Int Int) :
    ∀ (products : GoMap Int Product), GoMap.WF pq →
      (∀ e ∈ pq, ∃ p, products.get e.1 = some p) →
      ∀ id, (reserveApply products pq).get id =
        match pq.get id with
        | some q => (products.get id).map (fun p => { p with Stock := goSub p.Stock q })
        | none => products.get id := by
  induction pq with
  | nil => intro products _ _ id; simp [reserveApply, GoMap.get]
  | cons e rest ih =>
    obtain ⟨k, q⟩ := e
    intro products hwf hex id
    have hwf1 : k ∉ GoMap.keys rest ∧ GoMap.WF rest := by
      simpa [GoMap.WF, GoMap.keys] using hwf
    obtain ⟨p, hp⟩ := hex (k, q) (List.mem_cons_self _ _)
    simp only at hp
    have hex1 : ∀ e ∈ rest,
        ∃ p1, (products.set k { p with Stock := goSub p.Stock q }).get e.1 = some p1 := by
      intro e he
      have hne : k ≠ e.1 := by
        intro heq
        exact hwf1.1 (heq ▸ List.mem_map.mpr ⟨e, he, rfl⟩)
      rw [GoMap.get_set_ne _ _ hne]
      exact hex e (List.mem_cons_of_mem _ he)
    have := ih (products.set k { p with Stock := goSub p.Stock q }) hwf1.2 hex1 id
    simp only [reserveApply, hp]
    rw [this]
    by_cases hid : k = id
    · subst hid
      rw [GoMap.get_eq_none_of_not_mem rest k hwf1.1]
      simp [GoMap.get, GoMap.get_set_self, hp]
    · rw [GoMap.get_set_ne _ _ hid]
      simp [GoMap.get, hid]

/-! ## Facts about stock that stays at least zero -/

theorem UpdateStock_StockNonneg (s : ProductService) (productID quantity now : Int)
    (hq : 0 ≤ quantity) (h : StockNonneg s) :
    StockNonneg (s.UpdateStock productID quantity now).1 := by
  unfold ProductService.UpdateStock
  cases hget : s.products.get productID with
  | none => exact h
  | some p =>
    by_cases hlt : p.Stock < quantity
    · simpa [hlt] using h
    · simp only [hlt, if_false]
      intro id p1 hp1
      by_cases hid : productID = id
      · subst hid
        rw [GoMap.get_set_self] at hp1
        cases hp1
        show 0 ≤ goSub p.Stock quantity
        rw [goSub_of_le _ _ hq (by omega)]
        omega
      · rw [GoMap.get_set_ne _ _ hid] at hp1
        exact h id p1 hp1

theorem safeUpdateItems_StockNonneg (now : Int) (updates : List (Int × Int)) :
    ∀ ps : ProductService, (∀ e ∈ updates, 0 ≤ e.2) → StockNonneg ps →
      StockNonneg (safeUpdateItems now ps updates).1 := by
  induction updates with
  | nil => intro ps _ h; exact h
  | cons e rest ih =>
    obtain ⟨productID, quantity⟩ := e
    intro ps hq h
    have h1 := UpdateStock_StockNonneg ps productID quantity now
      (hq (productID, quantity) (List.mem_cons_self _ _)) h
    simp only [safeUpdateItems]
    by_cases hc : (!(ps.UpdateStock productID quantity now).2.1 ||
        (ps.UpdateStock productID quantity now).2.2.isSome) = true
    · simpa [hc] using h1
    · simp only [hc]
      exact ih _ (fun e he => hq e (List.mem_cons_of_mem _ he)) h1

theorem reserveApply_StockNonneg (products : GoMap Int Product) (pq : GoMap Int Int)
    (hwf : GoMap.WF pq) (hq0 : ∀ e ∈ pq, 0 ≤ e.2)
    (hcheck : reserveCheck products pq = true) (nextID : Int)
    (h : StockNonneg { products := products, nextID := nextID }) :
    StockNonneg { products := reserveApply products pq, nextID := nextID } := by
  have hall := (reserveCheck_iff products pq).mp hcheck
  have hex : ∀ e ∈ pq, ∃ p, products.get e.1 = some p := fun e he =>
    let ⟨p, hp, _⟩ := hall e he
    ⟨p, hp⟩
  intro id p1 hp1
  simp only at hp1
  rw [reserveApply_get pq products hwf hex id] at hp1
  cases hq : pq.get id with
  | none =>
    rw [hq] at hp1
    exact h id p1 hp1
  | some q =>
    rw [hq] at hp1
    have hmem := GoMap.mem_of_get pq id q hq
    obtain ⟨p, hp, hle⟩ := hall (id, q) hmem
    have hq1 := hq0 (id, q) hmem
    simp only at hp hle hq1
    rw [hp] at hp1
    simp only [Option.map_some', Option.some.injEq] at hp1
    subst hp1
    show 0 ≤ goSub p.Stock q
    rw [goSub_of_le _ _ hq1 hle]
    omega

theorem tryReserveInventory_StockNonneg (s : OrderService) (pq : GoMap Int Int)
    (hwf : GoMap.WF pq) (hq0 : ∀ e ∈ pq, 0 ≤ e.2) (h : StockNonneg s.productService) :
    StockNonneg (s.tryReserveInventory pq).1.productService := by
  rw [tryReserveInventory_of_WF s pq hwf]
  by_cases hc : reserveCheck s.productService.products pq = true
  · simp only [hc, if_true]
    exact reserveApply_StockNonneg _ pq hwf hq0 hc _ h
  · simpa [hc] using h

theorem batchCollectItems_WF (ps : ProductService) (items : List CartItem) :
    ∀ (pq : GoMap Int Int) (orderItems : List OrderItem) (total : Rat)
      (pq1 : GoMap Int Int) (orderItems1 : List OrderItem) (total1 : Rat),
      GoMap.WF pq →
      batchCollectItems ps items pq orderItems total = .ok (pq1, orderItems1, total1) →
      GoMap.WF pq1 := by
  induction items with
  | nil =>
    intro pq orderItems total pq1 orderItems1 total1 hwf h
    simp only [batchCollectItems, Except.ok.injEq, Prod.mk.injEq] at h
    exact h.1 ▸ hwf
  | cons item rest ih =>
    intro pq orderItems total pq1 orderItems1 total1 hwf h
    simp only [batchCollectItems] at h
    cases hg : ps.GetProductByID item.ProductID with
    | none => simp [hg] at h
    | some product =>
      simp only [hg] at h
      exact ih _ _ _ _ _ _ (GoMap.WF_set pq _ _ hwf) h

theorem storeOrder_productService (s : OrderService) (order : Order) :
    (s.storeOrder order).productService = s.productService := rfl

theorem StockNonneg_of_forall_mem (ps : ProductService)
    (h : ∀ e ∈ ps.products, 0 ≤ e.2.Stock) : StockNonneg ps := by
  intro id p hp
  exact h (id, p) (GoMap.mem_of_get _ _ _ hp)

/-- One step of `runStockCalls`: the product stays; a call that takes nothing from it leaves
its stock, and a call that takes `a` found a stock of at least `a` and leaves the stock minus
`a`, exactly or a multiple of `2^64` lower. -/
theorem StockCall.run_stock (c : StockCall) (s : OrderService) (id : Int) (p : Product)
    (hwf : c.WF) (hp : s.productService.products.get id = some p) :
    ∃ p1, (c.run s).1.productService.products.get id = some p1 ∧
      ((p1.Stock = p.Stock ∧ (if (c.run s).2 then c.asked id else 0) = 0) ∨
        ((if (c.run s).2 then c.asked id else 0) ≤ p.Stock ∧
          (p1.Stock = p.Stock - (if (c.run s).2 then c.asked id else 0) ∨
            (18446744073709551616 ≤
                p.Stock - (if (c.run s).2 then c.asked id else 0) - p1.Stock ∧
              -9223372036854775808 ≤ p1.Stock)))) := by
  cases c with
  | updateStock productID quantity now =>
    simp only [StockCall.run, StockCall.asked, ProductService.UpdateStock]
    cases hget : s.productService.products.get productID with
    | none => exact ⟨p, hp, Or.inl ⟨rfl, by simp⟩⟩
    | some p0 =>
      by_cases hlt : p0.Stock < quantity
      · simp only [hlt, if_true]
        exact ⟨p, hp, Or.inl ⟨rfl, by simp⟩⟩
      · simp only [hlt, if_false]
        by_cases hid : productID = id
        · subst hid
          rw [hp] at hget
          cases hget
          refine ⟨_, GoMap.get_set_self _ _ _, Or.inr ?_⟩
          simp only [if_true]
          exact ⟨by omega, goSub_step _ _ (by omega)⟩
        · rw [GoMap.get_set_ne _ _ hid]
          exact ⟨p, hp, Or.inl ⟨rfl, by simp [hid]⟩⟩
  | reserve pq =>
    simp only [StockCall.run, StockCall.asked]
    rw [tryReserveInventory_of_WF s pq hwf]
    by_cases hc : reserveCheck s.productService.products pq = true
    · simp only [hc, if_true]
      have hall := (reserveCheck_iff _ pq).mp hc
      have hex : ∀ e ∈ pq, ∃ p, s.productService.products.get e.1 = some p := fun e he =>
        let ⟨p, hp, _⟩ := hall e he
        ⟨p, hp⟩
      rw [reserveApply_get pq _ hwf hex id, hp]
      cases hq : pq.get id with
      | none => exact ⟨p, rfl, Or.inl ⟨rfl, by simp⟩⟩
      | some q =>
        obtain ⟨p0, hp0, hle⟩ := hall (id, q) (GoMap.mem_of_get pq id q hq)
        simp only at hp0 hle
        rw [hp] at hp0
        cases hp0
        refine ⟨_, rfl, Or.inr ?_⟩
        simp only [Option.getD_some]
        exact ⟨hle, goSub_step _ _ hle⟩
    · simp only [hc]
      exact ⟨p, hp, Or.inl ⟨rfl, by simp⟩⟩

/-- The sum of the quantities the successful calls of `runStockCalls` took from a product
is at most the stock it had: `d` is what the wrap-arounds so far have taken besides. -/
theorem runStockCalls_stock (id : Int) (calls : List StockCall) :
    ∀ (s : OrderService) (p : Product) (d : Int), (∀ c ∈ calls, c.WF) →
      s.productService.products.get id = some p →
      ((d = 0 ∧ 0 ≤ p.Stock) ∨
        (18446744073709551616 ≤ d ∧ -9223372036854775808 ≤ p.Stock)) →
      (∃ p1, (runStockCalls id s calls).1.productService.products.get id = some p1) ∧
        (runStockCalls id s calls).2 ≤ p.Stock + d := by
  induction calls with
  | nil =>
    intro s p d _ hp h0
    refine ⟨⟨p, hp⟩, ?_⟩
    simp only [runStockCalls]
    omega
  | cons c cs ih =>
    intro s p d hwf hp h0
    obtain ⟨p1, hp1, hs1⟩ :=
      StockCall.run_stock c s id p (hwf c (List.mem_cons_self _ _)) hp
    have hrest := ih (c.run s).1 p1
      (d + (p.Stock - (if (c.run s).2 then c.asked id else 0) - p1.Stock))
      (fun c1 hc1 => hwf c1 (List.mem_cons_of_mem _ hc1)) hp1 (by omega)
    refine ⟨hrest.1, ?_⟩
    simp only [runStockCalls]
    omega

/-! ## Facts about the loops over the items of a cart -/

theorem addToExisting_none (productID quantity : Int) (productPrice : Rat)
    (items : List CartItem) :
    addToExisting productID quantity productPrice items = none ↔
      ∀ item ∈ items, item.ProductID ≠ productID := by
  induction items with
  | nil => simp [addToExisting]
  | cons x rest ih =>
    by_cases hx : x.ProductID = productID
    · simp [addToExisting, hx]
    · simp [addToExisting, hx, ih]

theorem addToExisting_some (productID quantity : Int) (productPrice : Rat)
    (items : List CartItem) :
    ∀ r, addToExisting productID quantity productPrice items = some r →
      ∃ pre item post, items = pre ++ item :: post ∧
        (∀ x ∈ pre, x.ProductID ≠ productID) ∧ item.ProductID = productID ∧
        r = pre ++ { item with Quantity := goAdd item.Quantity quantity,
                               Price := productPrice } :: post := by
  induction items with
  | nil => intro r h; simp [addToExisting] at h
  | cons x rest ih =>
    intro r h
    by_cases hx : x.ProductID = productID
    · simp only [addToExisting, hx, if_true, Option.some.injEq] at h
      exact ⟨[], x, rest, rfl, by simp, hx, by simp [← h, hx]⟩
    · simp only [addToExisting, hx, if_false, Option.map_eq_some'] at h
      obtain ⟨r1, hr1, hr⟩ := h
      obtain ⟨pre, item, post, hitems, hpre, hitem, hres⟩ := ih r1 hr1
      refine ⟨x :: pre, item, post, by simp [hitems], ?_, hitem, by simp [← hr, hres]⟩
      intro y hy
      rcases List.mem_cons.mp hy with hy | hy
      · exact hy ▸ hx
      · exact hpre y hy

theorem setExisting_none (productID quantity : Int) (items : List CartItem) :
    setExisting productID quantity items = none ↔
      ∀ item ∈ items, item.ProductID ≠ productID := by
  induction items with
  | nil => simp [setExisting]
  | cons x rest ih =>
    by_cases hx : x.ProductID = productID
    · simp [setExisting, hx]
    · simp [setExisting, hx, ih]

theorem setExisting_some (productID quantity : Int) (items : List CartItem) :
    ∀ r, setExisting productID quantity items = some r →
      ∃ pre item post, items = pre ++ item :: post ∧
        (∀ x ∈ pre, x.ProductID ≠ productID) ∧ item.ProductID = productID ∧
        r = pre ++ { item with Quantity := quantity } :: post := by
  induction items with
  | nil => intro r h; simp [setExisting] at h
  | cons x rest ih =>
    intro r h
    by_cases hx : x.ProductID = productID
    · simp only [setExisting, hx, if_true, Option.some.injEq] at h
      exact ⟨[], x, rest, rfl, by simp, hx, by simp [← h, hx]⟩
    · simp only [setExisting, hx, if_false, Option.map_eq_some'] at h
      obtain ⟨r1, hr1, hr⟩ := h
      obtain ⟨pre, item, post, hitems, hpre, hitem, hres⟩ := ih r1 hr1
      refine ⟨x :: pre, item, post, by simp [hitems], ?_, hitem, by simp [← hr, hres]⟩
      intro y hy
      rcases List.mem_cons.mp hy with hy | hy
      · exact hy ▸ hx
      · exact hpre y hy

theorem addToExisting_ids (productID quantity : Int) (productPrice : Rat)
    (items r : List CartItem) (h : addToExisting productID quantity productPrice items = some r) :
    r.map (fun item => item.ProductID) = items.map (fun item => item.ProductID) := by
  obtain ⟨pre, item, post, hitems, _, _, hres⟩ := addToExisting_some _ _ _ _ r h
  simp [hitems, hres]

theorem setExisting_ids (productID quantity : Int)
    (items r : List CartItem) (h : setExisting productID quantity items = some r) :
    r.map (fun item => item.ProductID) = items.map (fun item => item.ProductID) := by
  obtain ⟨pre, item, post, hitems, _, _, hres⟩ := setExisting_some _ _ _ r h
  simp [hitems, hres]

theorem mergedItems_DistinctProducts (productID quantity : Int) (productPrice : Rat)
    (productName : String) (now : Int) (items : List CartItem) (h : DistinctProducts items) :
    DistinctProducts (mergedItems productID quantity productPrice productName now items) := by
  unfold mergedItems
  cases hr : addToExisting productID quantity productPrice items with
  | some r =>
    simp only [DistinctProducts]
    rw [addToExisting_ids _ _ _ _ _ hr]
    exact h
  | none =>
    have hno := (addToExisting_none _ _ _ _).mp hr
    simp only [DistinctProducts, List.map_append, List.map_cons, List.map_nil]
    refine List.Nodup.append h (List.nodup_singleton _) ?_
    intro a ha hb
    rw [List.mem_singleton] at hb
    subst hb
    obtain ⟨x, hx, hxe⟩ := List.mem_map.mp ha
    exact hno x hx hxe

theorem linesOf_eq_nil (productID : Int) (items : List CartItem)
    (h : ∀ item ∈ items, item.ProductID ≠ productID) : linesOf productID items = [] := by
  simp only [linesOf, List.filter_eq_nil_iff, decide_eq_true_eq]
  exact h

theorem quantityOf_eq_zero (productID : Int) (items : List CartItem)
    (h : ∀ item ∈ items, item.ProductID ≠ productID) : quantityOf productID items = 0 := by
  induction items with
  | nil => rfl
  | cons x rest ih =>
    have hx : x.ProductID ≠ productID := h x (List.mem_cons_self _ _)
    simp only [quantityOf, hx, if_false]
    exact ih (fun y hy => h y (List.mem_cons_of_mem _ hy))

theorem goAdd_zero_left (q : Int) : goAdd 0 q = q := by
  unfold goAdd; split
  · rename_i h
    rw [Int.zero_add]
    exact wrap64_of_IsInt64 _ h.2
  · exact Int.zero_add q

/-- After the add-or-merge a cart of distinct products has one line of the product, and the
quantity of that line is Go's sum of the quantity before and the quantity added. -/
theorem mergedItems_linesOf (productID quantity : Int) (productPrice : Rat)
    (productName : String) (now : Int) (items : List CartItem) (h : DistinctProducts items) :
    ∃ item, linesOf productID
        (mergedItems productID quantity productPrice productName now items) = [item] ∧
      item.Quantity = goAdd (quantityOf productID items) quantity ∧
      quantityOf productID (mergedItems productID quantity productPrice productName now items)
        = goAdd (quantityOf productID items) quantity := by
  unfold mergedItems
  cases hr : addToExisting productID quantity productPrice items with
  | none =>
    have hno := (addToExisting_none _ _ _ _).mp hr
    have hq : ∀ l : List CartItem, (∀ item ∈ l, item.ProductID ≠ productID) →
        ∀ n : CartItem, n.ProductID = productID →
          quantityOf productID (l ++ [n]) = n.Quantity := by
      intro l
      induction l with
      | nil => intro _ n hn; simp [quantityOf, hn]
      | cons x rest ih =>
        intro hl n hn
        have hx : x.ProductID ≠ productID := hl x (List.mem_cons_self _ _)
        simp only [List.cons_append, quantityOf, hx, if_false]
        exact ih (fun y hy => hl y (List.mem_cons_of_mem _ hy)) n hn
    refine ⟨{ ProductID := productID, Quantity := quantity, Price := productPrice,
              Name := productName, AddedAt := now }, ?_, ?_, ?_⟩
    · simp only [linesOf, List.filter_append]
      have := linesOf_eq_nil productID items hno
      simp only [linesOf] at this
      rw [this]
      simp [List.filter]
    · rw [quantityOf_eq_zero productID items hno, goAdd_zero_left]
    · rw [hq items hno _ rfl, quantityOf_eq_zero productID items hno, goAdd_zero_left]
  | some r =>
    obtain ⟨pre, item, post, hitems, hpre, hitem, hres⟩ := addToExisting_some _ _ _ _ r hr
    have hpost : ∀ x ∈ post, x.ProductID ≠ productID := by
      intro x hx heq
      have hnd : (List.map (fun item => item.ProductID) (pre ++ item :: post)).Nodup := by
        have := h
        simpa [DistinctProducts, hitems] using this
      rw [List.map_append, List.map_cons] at hnd
      have h2 := (List.nodup_append.mp hnd).2.1
      have h3 := (List.nodup_cons.mp h2).1
      apply h3
      rw [hitem, ← heq]
      exact List.mem_map.mpr ⟨x, hx, rfl⟩
    have hq : ∀ (l : List CartItem), (∀ x ∈ l, x.ProductID ≠ productID) →
        ∀ (n : CartItem) (t : List CartItem), n.ProductID = productID →
          quantityOf productID (l ++ n :: t) = n.Quantity := by
      intro l
      induction l with
      | nil => intro _ n t hn; simp [quantityOf, hn]
      | cons x rest ih =>
        intro hl n t hn
        have hx : x.ProductID ≠ productID := hl x (List.mem_cons_self _ _)
        simp only [List.cons_append, quantityOf, hx, if_false]
        exact ih (fun y hy => hl y (List.mem_cons_of_mem _ hy)) n t hn
    have hquant : quantityOf productID items = item.Quantity := by
      rw [hitems]; exact hq pre hpre item post hitem
    refine ⟨{ item with Quantity := goAdd item.Quantity quantity, Price := productPrice },
      ?_, ?_, ?_⟩
    · simp only [hres, linesOf, List.filter_append]
      have h1 := linesOf_eq_nil productID pre hpre
      have h2 := linesOf_eq_nil productID post hpost
      simp only [linesOf] at h1 h2
      rw [h1]
      simp [List.filter, hitem, h2]
    · simp [hquant]
    · simp only [hres]
      have hq1 := hq pre hpre
        { item with Quantity := goAdd item.Quantity quantity, Price := productPrice }
        post hitem
      rw [hq1, hquant]

/-! ## The cart methods on a cart that exists -/

theorem AddToCartWithLock_eq (s : CartService) (cartID : String) (cart : Cart)
    (h : s.carts.get cartID = some cart) (productID quantity : Int) (productPrice : Rat)
    (productName : String) (now : Int) :
    s.AddToCartWithLock cartID productID quantity productPrice productName now =
      (storeCart s cartID (cartAfterAdd cart productID quantity productPrice productName now),
        .ok (cartAfterAdd cart productID quantity productPrice productName now)) := by
  unfold CartService.AddToCartWithLock storeCart cartAfterAdd mergedItems
  simp only [h]
  cases addToExisting productID quantity productPrice cart.Items <;> rfl

theorem AddToCartNoLock_eq (s : CartService) (cartID : String) (cart : Cart)
    (h : s.carts.get cartID = some cart) (productID quantity : Int) (productPrice : Rat)
    (productName : String) (now : Int) :
    s.AddToCartNoLock cartID productID quantity productPrice productName now =
      (storeCart s cartID (cartAfterAdd cart productID quantity productPrice productName now),
        .ok (cartAfterAdd cart productID quantity productPrice productName now)) := by
  unfold CartService.AddToCartNoLock storeCart cartAfterAdd mergedItems
  simp only [h]
  cases addToExisting productID quantity productPrice cart.Items <;> rfl

theorem AddToCartOptimistic_eq (s : CartService) (cartID : String) (cart : Cart)
    (h : s.carts.get cartID = some cart) (productID quantity : Int) (productPrice : Rat)
    (productName : String) (version now : Int) (hv : cart.Version = version) :
    s.AddToCartOptimistic cartID productID quantity productPrice productName version now =
      (storeCart s cartID
          (cartAfterOptimisticAdd cart productID quantity productPrice productName now),
        .ok (cartAfterOptimisticAdd cart productID quantity productPrice productName now)) := by
  unfold CartService.AddToCartOptimistic storeCart cartAfterOptimisticAdd mergedItems
  simp only [h, hv, ne_eq, not_true_eq_false, if_false]

theorem AddToCartOptimistic_conflict (s : CartService) (cartID : String) (cart : Cart)
    (h : s.carts.get cartID = some cart) (productID quantity : Int) (productPrice : Rat)
    (productName : String) (version now : Int) (hv : cart.Version ≠ version) :
    s.AddToCartOptimistic cartID productID quantity productPrice productName version now =
      (s, .error "cart was modified by another request") := by
  unfold CartService.AddToCartOptimistic
  simp only [h, hv, ne_eq, not_false_eq_true, if_true]

theorem UpdateCartItemQuantitySafe_eq (s : CartService) (cartID : String) (cart : Cart)
    (h : s.carts.get cartID = some cart) (productID quantity now : Int) :
    s.UpdateCartItemQuantitySafe cartID productID quantity now =
      match setExisting productID quantity cart.Items with
      | some items =>
        (storeCart s cartID (cartAfterUpdate cart items now), .ok (cartAfterUpdate cart items now))
      | none => (s, .error "product not found in cart") := by
  unfold CartService.UpdateCartItemQuantitySafe storeCart cartAfterUpdate
  simp only [h]

theorem UpdateCartItemQuantityRace_eq (s : CartService) (cartID : String) (cart : Cart)
    (h : s.carts.get cartID = some cart) (productID quantity now : Int) :
    s.UpdateCartItemQuantityRace cartID productID quantity now =
      match setExisting productID quantity cart.Items with
      | some items =>
        (storeCart s cartID (cartAfterUpdate cart items now), .ok (cartAfterUpdate cart items now))
      | none => (s, .error "product not found in cart") := by
  unfold CartService.UpdateCartItemQuantityRace storeCart cartAfterUpdate
  simp only [h]

theorem storeCart_get_self (s : CartService) (cartID : String) (cart : Cart) :
    (storeCart s cartID cart).carts.get cartID = some cart :=
  GoMap.get_set_self _ _ _

theorem storeCart_get_ne (s : CartService) (cartID other : String) (cart : Cart)
    (h : other ≠ cartID) : (storeCart s cartID cart).carts.get other = s.carts.get other :=
  GoMap.get_set_ne _ _ (Ne.symm h)

theorem CartsDistinct_storeCart (s : CartService) (cartID : String) (cart : Cart)
    (h : CartsDistinct s) (hc : DistinctProducts cart.Items) :
    CartsDistinct (storeCart s cartID cart) := by
  intro other c hget
  by_cases ho : other = cartID
  · subst ho
    rw [storeCart_get_self] at hget
    cases hget
    exact hc
  · rw [storeCart_get_ne s cartID other cart ho] at hget
    exact h other c hget

theorem CartsDistinct_of_forall_mem (s : CartService)
    (h : ∀ e ∈ s.carts, DistinctProducts e.2.Items) : CartsDistinct s := by
  intro cartID cart hget
  exact h (cartID, cart) (GoMap.mem_of_get _ _ _ hget)

/-- A run of add steps on one cart and product, where each step replaces the items of the
cart by their add-or-merge: the cart ends with one line of the product, whose quantity is the
quantity before plus the sum of the quantities added, wrapped around. -/
theorem foldl_add_steps (cartID : String) (productID : Int)
    (step : CartService → AddCall → CartService)
    (hstep : ∀ (s : CartService) (cart : Cart) (c : AddCall), s.carts.get cartID = some cart →
      ∃ cart1, (step s c).carts.get cartID = some cart1 ∧
        cart1.Items =
          mergedItems productID c.quantity c.productPrice c.productName c.now cart.Items)
    (cs : List AddCall) :
    ∀ (c : AddCall) (s : CartService) (cart : Cart), s.carts.get cartID = some cart →
      DistinctProducts cart.Items →
      IsInt64 (quantityOf productID cart.Items) →
      (∀ a ∈ c :: cs, IsInt64 a.quantity) →
      ∃ cart1 item, ((c :: cs).foldl step s).carts.get cartID = some cart1 ∧
        linesOf productID cart1.Items = [item] ∧
        item.Quantity =
          wrap64 (quantityOf productID cart.Items +
            ((c :: cs).map (fun a => a.quantity)).sum) := by
  induction cs with
  | nil =>
    intro c s cart hget hd h0 hr
    obtain ⟨cart1, hget1, hitems1⟩ := hstep s cart c hget
    obtain ⟨item, hl, hq, _⟩ := mergedItems_linesOf productID c.quantity c.productPrice
      c.productName c.now cart.Items hd
    refine ⟨cart1, item, hget1, ?_, ?_⟩
    · rw [hitems1]; exact hl
    · rw [hq, goAdd_int64 _ _ h0 (hr c (List.mem_cons_self _ _))]
      simp
  | cons c1 rest ih =>
    intro c s cart hget hd h0 hr
    obtain ⟨cart1, hget1, hitems1⟩ := hstep s cart c hget
    obtain ⟨_, _, _, hq⟩ := mergedItems_linesOf productID c.quantity c.productPrice
      c.productName c.now cart.Items hd
    have hd1 : DistinctProducts cart1.Items := by
      rw [hitems1]
      exact mergedItems_DistinctProducts _ _ _ _ _ _ hd
    rw [goAdd_int64 _ _ h0 (hr c (List.mem_cons_self _ _))] at hq
    have h1 : IsInt64 (quantityOf productID cart1.Items) := by
      rw [hitems1, hq]
      exact wrap64_IsInt64 _
    obtain ⟨cart2, item, hget2, hl2, hq2⟩ := ih c1 (step s c) cart1 hget1 hd1 h1
      (fun a ha => hr a (List.mem_cons_of_mem _ ha))
    refine ⟨cart2, item, ?_, hl2, ?_⟩
    · simpa [List.foldl] using hget2
    · rw [hq2, hitems1, hq, wrap64_add_wrap64]
      simp only [List.map_cons, List.sum_cons]
      congr 1
      ring

theorem stepWithLock_items (cartID : String) (productID : Int) (s : CartService) (cart : Cart)
    (c : AddCall) (h : s.carts.get cartID = some cart) :
    ∃ cart1, (stepWithLock cartID productID s c).carts.get cartID = some cart1 ∧
      cart1.Items =
        mergedItems productID c.quantity c.productPrice c.productName c.now cart.Items := by
  unfold stepWithLock
  rw [AddToCartWithLock_eq s cartID cart h]
  exact ⟨_, storeCart_get_self _ _ _, rfl⟩

theorem stepOptimistic_items (cartID : String) (productID : Int) (s : CartService) (cart : Cart)
    (c : AddCall) (h : s.carts.get cartID = some cart) :
    ∃ cart1, (stepOptimistic cartID productID s c).carts.get cartID = some cart1 ∧
      cart1.Items =
        mergedItems productID c.quantity c.productPrice c.productName c.now cart.Items := by
  unfold stepOptimistic CartService.GetCart
  simp only [h]
  rw [AddToCartOptimistic_eq s cartID cart h _ _ _ _ _ _ rfl]
  exact ⟨_, storeCart_get_self _ _ _, rfl⟩

/-! ## Facts about the loops of the checkout methods -/

theorem orderTotal_cons (o : OrderItem) (rest : List OrderItem) :
    orderTotal (o :: rest) = o.Price * (o.Quantity : Rat) + orderTotal rest := by
  simp [orderTotal]

/-- What a passed "Step 1" of `CreateOrderSafe` has collected. -/
theorem safeCheckItems_passed (ps : ProductService) (items : List CartItem) :
    ∀ (acc : List (Int × Int)) (oi : List OrderItem) (tot : Rat)
      (u : List (Int × Int)) (o : List OrderItem) (t : Rat),
      safeCheckItems ps items acc oi tot = .passed u o t →
      ∃ ois, u = acc ++ items.map (fun i => (i.ProductID, i.Quantity)) ∧ o = oi ++ ois ∧
        t = tot + orderTotal ois ∧ List.Forall₂ (LineOf ps) items ois ∧
        ∀ item ∈ items, ∃ p, ps.products.get item.ProductID = some p ∧
          item.Quantity ≤ p.Stock := by
  induction items with
  | nil =>
    intro acc oi tot u o t h
    simp only [safeCheckItems, SafeCheck.passed.injEq] at h
    exact ⟨[], by simp [h.1], by simp [h.2.1], by simp [orderTotal, h.2.2], List.Forall₂.nil,
      by simp⟩
  | cons item rest ih =>
    intro acc oi tot u o t h
    simp only [safeCheckItems, ProductService.GetProductByID] at h
    cases hg : ps.products.get item.ProductID with
    | none => simp [hg] at h
    | some p =>
      simp only [hg] at h
      by_cases hlt : p.Stock < item.Quantity
      · simp [hlt] at h
      · simp only [hlt, if_false] at h
        obtain ⟨ois, hu, ho, ht, hf, hall⟩ := ih _ _ _ _ _ _ h
        refine ⟨{ ProductID := item.ProductID, Quantity := item.Quantity, Price := p.Price,
                  Name := p.Name } :: ois, ?_, ?_, ?_, ?_, ?_⟩
        · simp [hu]
        · simp [ho]
        · rw [ht, orderTotal_cons]; ring
        · exact List.Forall₂.cons ⟨rfl, rfl, p, hg, rfl, rfl⟩ hf
        · intro x hx
          rcases List.mem_cons.mp hx with hx | hx
          · subst hx
            exact ⟨p, hg, not_lt.mp hlt⟩
          · exact hall x hx

/-- When every product of the cart exists, "Step 1" of `CreateOrderSafe` passes or finds a
line item whose product has too little stock. -/
theorem safeCheckItems_cases (ps : ProductService) (items : List CartItem) :
    ∀ (acc : List (Int × Int)) (oi : List OrderItem) (tot : Rat),
      (∀ item ∈ items, ∃ p, ps.products.get item.ProductID = some p) →
      (∃ u o t, safeCheckItems ps items acc oi tot = .passed u o t) ∨
      (∃ name, safeCheckItems ps items acc oi tot = .insufficientStock name ∧
        ∃ item ∈ items, ∃ p, ps.products.get item.ProductID = some p ∧
          p.Stock < item.Quantity) := by
  induction items with
  | nil =>
    intro acc oi tot _
    exact Or.inl ⟨_, _, _, rfl⟩
  | cons item rest ih =>
    intro acc oi tot hex
    obtain ⟨p, hg⟩ := hex item (List.mem_cons_self _ _)
    simp only [safeCheckItems, ProductService.GetProductByID, hg]
    by_cases hlt : p.Stock < item.Quantity
    · simp only [hlt, if_true]
      exact Or.inr ⟨p.Name, rfl, item, List.mem_cons_self _ _, p, hg, hlt⟩
    · simp only [hlt, if_false]
      rcases ih (acc ++ [(item.ProductID, item.Quantity)])
          (oi ++ [{ ProductID := item.ProductID, Quantity := item.Quantity, Price := p.Price,
                    Name := p.Name }])
          (tot + p.Price * (item.Quantity : Rat))
          (fun x hx => hex x (List.mem_cons_of_mem _ hx)) with h | ⟨name, h, x, hx, hp⟩
      · exact Or.inl h
      · exact Or.inr ⟨name, h, x, List.mem_cons_of_mem _ hx, hp⟩

/-- What the loop of `CreateOrderBatchCheck` has collected when it ends. -/
theorem batchCollectItems_ok (ps : ProductService) (items : List CartItem) :
    ∀ (pq : GoMap Int Int) (oi : List OrderItem) (tot : Rat)
      (pq1 : GoMap Int Int) (o : List OrderItem) (t : Rat),
      batchCollectItems ps items pq oi tot = .ok (pq1, o, t) →
      ∃ ois, o = oi ++ ois ∧ t = tot + orderTotal ois ∧ List.Forall₂ (LineOf ps) items ois := by
  induction items with
  | nil =>
    intro pq oi tot pq1 o t h
    simp only [batchCollectItems, Except.ok.injEq, Prod.mk.injEq] at h
    exact ⟨[], by simp [h.2.1], by simp [orderTotal, h.2.2], List.Forall₂.nil⟩
  | cons item rest ih =>
    intro pq oi tot pq1 o t h
    simp only [batchCollectItems, ProductService.GetProductByID] at h
    cases hg : ps.products.get item.ProductID with
    | none => simp [hg] at h
    | some p =>
      simp only [hg] at h
      obtain ⟨ois, ho, ht, hf⟩ := ih _ _ _ _ _ _ h
      refine ⟨{ ProductID := item.ProductID, Quantity := item.Quantity, Price := p.Price,
                Name := p.Name } :: ois, ?_, ?_, ?_⟩
      · simp [ho]
      · rw [ht, orderTotal_cons]; ring
      · exact List.Forall₂.cons ⟨rfl, rfl, p, hg, rfl, rfl⟩ hf

theorem SameCatalog_set (ps0 ps : ProductService) (id : Int) (p p1 : Product)
    (h : SameCatalog ps0 ps) (hg : ps.products.get id = some p)
    (hp : p1.Price = p.Price) (hn : p1.Name = p.Name) :
    SameCatalog ps0 { ps with products := ps.products.set id p1 } := by
  intro k
  by_cases hk : id = k
  · subst hk
    rw [← h id, hg]
    simp [GoMap.get_set_self, hp, hn]
  · rw [← h k]
    simp [GoMap.get_set_ne _ _ hk]

/-- What the loop of `CreateOrderNoLock` has collected when it ends without error; the
prices and names are those of the inventory `ps0` the call started from. -/
theorem noLockItems_ok (ps0 : ProductService) (items : List CartItem) :
    ∀ (ps : ProductService) (oi : List OrderItem) (tot : Rat)
      (ps1 : ProductService) (o : List OrderItem) (t : Rat),
      SameCatalog ps0 ps →
      noLockItems ps items oi tot = (ps1, .ok (o, t)) →
      ∃ ois, o = oi ++ ois ∧ t = tot + orderTotal ois ∧
        List.Forall₂ (LineOf ps0) items ois := by
  induction items with
  | nil =>
    intro ps oi tot ps1 o t _ h
    simp only [noLockItems, Prod.mk.injEq, Except.ok.injEq] at h
    exact ⟨[], by simp [h.2.1], by simp [orderTotal, h.2.2], List.Forall₂.nil⟩
  | cons item rest ih =>
    intro ps oi tot ps1 o t hsame h
    simp only [noLockItems, ProductService.GetProductByID] at h
    cases hg : ps.products.get item.ProductID with
    | none => simp [hg] at h
    | some p =>
      simp only [hg] at h
      by_cases hlt : p.Stock < item.Quantity
      · simp [hlt] at h
      · simp only [hlt, if_false] at h
        obtain ⟨ois, ho, ht, hf⟩ :=
          ih _ _ _ _ _ _ (SameCatalog_set ps0 ps item.ProductID p
            { p with Stock := goSub p.Stock item.Quantity } hsame hg rfl rfl) h
        have h0 := hsame item.ProductID
        rw [hg] at h0
        cases hg0 : ps0.products.get item.ProductID with
        | none => simp [hg0] at h0
        | some p0 =>
          simp only [hg0, Option.map_some', Option.some.injEq, Prod.mk.injEq] at h0
          refine ⟨{ ProductID := item.ProductID, Quantity := item.Quantity, Price := p.Price,
                    Name := p.Name } :: ois, ?_, ?_, ?_⟩
          · simp [ho]
          · rw [ht, orderTotal_cons]; ring
          · exact List.Forall₂.cons ⟨rfl, rfl, p0, hg0, h0.1, h0.2⟩ hf

theorem UpdateStock_of_enough (ps : ProductService) (productID quantity now : Int)
    (p : Product) (hg : ps.products.get productID = some p) (hle : quantity ≤ p.Stock) :
    ps.UpdateStock productID quantity now =
      ({ ps with products := (ps.products.set productID
          { p with Stock := goSub p.Stock quantity, UpdatedAt := now }) }, (true, none)) := by
  have hlt : ¬ p.Stock < quantity := not_lt.mpr hle
  simp [ProductService.UpdateStock, hg, hlt]

/-- The inventory after "Step 2" of `CreateOrderSafe`, when the updates name every product
once and every named product exists with enough stock: every call of `UpdateStock` succeeds
and each named product has Go's `stock - quantity` as its stock. -/
theorem safeUpdateItems_get (now : Int) (updates : GoMap Int Int) :
    ∀ (ps : ProductService), GoMap.WF updates →
      (∀ e ∈ updates, ∃ p, ps.products.get e.1 = some p ∧ e.2 ≤ p.Stock) →
      (safeUpdateItems now ps updates).2 = none ∧
      ∀ id, (safeUpdateItems now ps updates).1.products.get id =
        match updates.get id with
        | some q =>
          (ps.products.get id).map
            (fun p => { p with Stock := goSub p.Stock q, UpdatedAt := now })
        | none => ps.products.get id := by
  induction updates with
  | nil => intro ps _ _; simp [safeUpdateItems, GoMap.get]
  | cons e rest ih =>
    obtain ⟨k, q⟩ := e
    intro ps hwf hall
    have hwf1 : k ∉ GoMap.keys rest ∧ GoMap.WF rest := by
      simpa [GoMap.WF, GoMap.keys] using hwf
    obtain ⟨p, hp, hle⟩ := hall (k, q) (List.mem_cons_self _ _)
    simp only at hp hle
    have hall1 : ∀ e ∈ rest, ∃ p1,
        (ps.products.set k { p with Stock := goSub p.Stock q, UpdatedAt := now }).get e.1
          = some p1 ∧ e.2 ≤ p1.Stock := by
      intro e he
      have hne : k ≠ e.1 := by
        intro heq
        exact hwf1.1 (heq ▸ List.mem_map.mpr ⟨e, he, rfl⟩)
      rw [GoMap.get_set_ne _ _ hne]
      exact hall e (List.mem_cons_of_mem _ he)
    have hrec := ih
      { ps with products := (ps.products.set k
          { p with Stock := goSub p.Stock q, UpdatedAt := now }) } hwf1.2 hall1
    simp only [safeUpdateItems, UpdateStock_of_enough ps k q now p hp hle]
    simp only [Bool.not_true, Option.isSome_none, Bool.or_self, Bool.false_eq_true, if_false]
    refine ⟨hrec.1, ?_⟩
    intro id
    rw [hrec.2 id]
    by_cases hid : k = id
    · subst hid
      rw [GoMap.get_eq_none_of_not_mem rest k hwf1.1]
      simp [GoMap.get, GoMap.get_set_self, hp]
    · simp only
      rw [GoMap.get_set_ne _ _ hid]
      simp [GoMap.get, hid]

theorem keys_map_items (items : List CartItem) :
    GoMap.keys (items.map (fun i => (i.ProductID, i.Quantity))) =
      items.map (fun i => i.ProductID) := by
  simp [GoMap.keys, List.map_map, Function.comp_def]

theorem WF_map_items (items : List CartItem) (h : DistinctProducts items) :
    GoMap.WF (items.map (fun i => (i.ProductID, i.Quantity))) := by
  unfold GoMap.WF
  rw [keys_map_items]
  exact h

/-! ## The checkout methods when they return an order -/

theorem storeOrder_facts (s : OrderService) (order : Order) :
    (s.storeOrder order).orders.get order.ID = some order ∧
    (s.storeOrder order).userOrders.get order.UserID
      = some (((s.userOrders.get order.UserID).getD []) ++ [order.ID]) ∧
    (s.storeOrder order).stats.totalOrders = s.stats.totalOrders + 1 ∧
    (s.storeOrder order).stats.failedOrders = s.stats.failedOrders ∧
    (s.storeOrder order).stats.raceConditionDetected = s.stats.raceConditionDetected ∧
    (s.storeOrder order).productService = s.productService ∧
    (s.storeOrder order).cartService = s.cartService := by
  refine ⟨?_, ?_, rfl, rfl, rfl, rfl, rfl⟩
  · exact GoMap.get_set_self _ _ _
  · exact GoMap.get_set_self _ _ _

theorem CreateOrderSafe_ok (s : OrderService) (cartID : String) (userID : Int)
    (address paymentMethod : String) (now : Int) (order : Order)
    (h : (s.CreateOrderSafe cartID userID address paymentMethod now).2 = .ok order) :
    ∃ cart u ps1, s.cartService.GetCart cartID = some cart ∧
      safeCheckItems s.productService cart.Items [] [] 0 = .passed u order.Items order.Total ∧
      safeUpdateItems now s.productService u = (ps1, none) ∧
      (s.CreateOrderSafe cartID userID address paymentMethod now).1
        = OrderService.storeOrder { s with productService := ps1 } order ∧
      order.UserID = userID ∧ order.Status = OrderStatusPending := by
  unfold OrderService.CreateOrderSafe at h ⊢
  cases hc : s.cartService.GetCart cartID with
  | none => simp [hc] at h
  | some cart =>
    simp only [hc] at h ⊢
    by_cases hu : cart.UserID ≠ userID
    · simp [hu] at h
    · by_cases hl : cart.Items.length = 0
      · simp [hu, hl] at h
      · simp only [hu, hl, if_false] at h ⊢
        cases hs : safeCheckItems s.productService cart.Items [] [] 0 with
        | productNotFound productID => simp [hs] at h
        | insufficientStock name => simp [hs] at h
        | passed u o t =>
          simp only [hs] at h ⊢
          rcases hup : safeUpdateItems now s.productService u with ⟨ps1, r⟩
          simp only [hup] at h ⊢
          cases r with
          | some productID => simp at h
          | none =>
            simp only [Except.ok.injEq] at h
            subst h
            exact ⟨cart, u, ps1, rfl, hs, hup, rfl, rfl, rfl⟩

theorem CreateOrderNoLock_ok (s : OrderService) (cartID : String) (userID : Int)
    (address paymentMethod : String) (now : Int) (order : Order)
    (h : (s.CreateOrderNoLock cartID userID address paymentMethod now).2 = .ok order) :
    ∃ cart ps1, s.cartService.GetCart cartID = some cart ∧
      noLockItems s.productService cart.Items [] 0 = (ps1, .ok (order.Items, order.Total)) ∧
      (s.CreateOrderNoLock cartID userID address paymentMethod now).1
        = OrderService.storeOrder { s with productService := ps1 } order ∧
      order.UserID = userID ∧ order.Status = OrderStatusPending := by
  unfold OrderService.CreateOrderNoLock at h ⊢
  cases hc : s.cartService.GetCart cartID with
  | none => simp [hc] at h
  | some cart =>
    simp only [hc] at h ⊢
    by_cases hu : cart.UserID ≠ userID
    · simp [hu] at h
    · by_cases hl : cart.Items.length = 0
      · simp [hu, hl] at h
      · simp only [hu, hl, if_false] at h ⊢
        rcases hn : noLockItems s.productService cart.Items [] 0 with ⟨ps1, r⟩
        simp only [hn] at h ⊢
        cases r with
        | error e => simp at h
        | ok res =>
          obtain ⟨o, t⟩ := res
          simp only [Except.ok.injEq] at h
          subst h
          exact ⟨cart, ps1, rfl, hn, rfl, rfl, rfl⟩

theorem CreateOrderBatchCheck_ok (s : OrderService) (cartID : String) (userID now : Int)
    (order : Order) (h : (s.CreateOrderBatchCheck cartID userID now).2 = .ok order) :
    ∃ cart pq, s.cartService.GetCart cartID = some cart ∧
      batchCollectItems s.productService cart.Items [] [] 0
        = .ok (pq, order.Items, order.Total) ∧
      s.tryReserveInventory pq = ((s.tryReserveInventory pq).1, true) ∧
      (s.CreateOrderBatchCheck cartID userID now).1
        = OrderService.storeOrder (s.tryReserveInventory pq).1 order ∧
      order.UserID = userID ∧ order.Status = OrderStatusPending := by
  unfold OrderService.CreateOrderBatchCheck at h ⊢
  cases hc : s.cartService.GetCart cartID with
  | none => simp [hc] at h
  | some cart =>
    simp only [hc] at h ⊢
    cases hb : batchCollectItems s.productService cart.Items [] [] 0 with
    | error productID => simp [hb] at h
    | ok res =>
      obtain ⟨pq, o, t⟩ := res
      simp only [hb] at h ⊢
      rcases ht : s.tryReserveInventory pq with ⟨s1, ok⟩
      simp only [ht] at h ⊢
      cases ok with
      | false => simp at h
      | true =>
        simp only [Except.ok.injEq] at h
        subst h
        exact ⟨cart, pq, rfl, hb, by rw [ht], by rw [ht], rfl, rfl⟩

theorem FlashSalePurchase_ok (s : OrderService) (productID quantity userID now : Int)
    (order : Order) (h : (s.FlashSalePurchase productID quantity userID now).2 = .ok order) :
    ∃ ps1, (s.FlashSalePurchase productID quantity userID now).1
        = OrderService.storeOrder { s with productService := ps1 } order ∧
      order.UserID = userID ∧ order.Status = OrderStatusPending := by
  unfold OrderService.FlashSalePurchase at h ⊢
  cases hg : s.productService.GetProductByID productID with
  | none => simp [hg] at h
  | some product =>
    simp only [hg] at h ⊢
    by_cases hlt : product.Stock < quantity
    · simp [hlt] at h
    · simp only [hlt, if_false] at h ⊢
      by_cases hc : (!(s.productService.UpdateStock productID quantity now).2.1 ||
          (s.productService.UpdateStock productID quantity now).2.2.isSome) = true
      · simp [hc] at h
      · simp only [hc, if_false] at h ⊢
        simp only [Bool.false_eq_true, if_false, Except.ok.injEq] at h
        subst h
        exact ⟨_, rfl, rfl, rfl⟩

theorem OrderRecorded_storeOrder (s s0 : OrderService) (userID : Int) (order : Order)
    (hu : s0.userOrders = s.userOrders) (hs : s0.stats = s.stats)
    (hid : order.UserID = userID) (hst : order.Status = OrderStatusPending) :
    OrderRecorded s (s0.storeOrder order) userID order := by
  obtain ⟨h1, h2, h3, h4, h5, _, _⟩ := storeOrder_facts s0 order
  subst hid
  refine ⟨hst, rfl, h1, ?_, ?_, ?_, ?_⟩
  · rw [h2, hu]
  · rw [h3, hs]
  · rw [h4, hs]
  · rw [h5, hs]

theorem tryReserveInventory_rest (s : OrderService) (pq : GoMap Int Int) :
    (s.tryReserveInventory pq).1.userOrders = s.userOrders ∧
    (s.tryReserveInventory pq).1.stats = s.stats ∧
    (s.tryReserveInventory pq).1.orders = s.orders ∧
    (s.tryReserveInventory pq).1.cartService = s.cartService := by
  unfold OrderService.tryReserveInventory
  split_ifs <;> exact ⟨rfl, rfl, rfl, rfl⟩

theorem GoMap.set_of_not_mem {κ α : Type} [DecidableEq κ] (m : GoMap κ α) (k : κ) (v : α)
    (h : k ∉ GoMap.keys m) : m.set k v = m ++ [(k, v)] := by
  induction m with
  | nil => rfl
  | cons e rest ih =>
    obtain ⟨k1, v1⟩ := e
    simp only [GoMap.keys, List.map_cons, List.mem_cons, not_or] at h
    have h1 : ¬ k1 = k := fun e => h.1 e.symm
    have := ih h.2
    simp [GoMap.set, h1, this]

/-- The map of quantities that the loop of `CreateOrderBatchCheck` builds from a cart of
distinct products that all exist: one entry per line item, in cart order. -/
theorem batchCollectItems_distinct (ps : ProductService) (items : List CartItem) :
    ∀ (pq : GoMap Int Int) (oi : List OrderItem) (tot : Rat),
      (∀ item ∈ items, ∃ p, ps.products.get item.ProductID = some p) →
      DistinctProducts items →
      (∀ item ∈ items, item.ProductID ∉ GoMap.keys pq) →
      ∃ o t, batchCollectItems ps items pq oi tot =
        .ok (pq ++ items.map (fun i => (i.ProductID, i.Quantity)), o, t) := by
  induction items with
  | nil =>
    intro pq oi tot _ _ _
    exact ⟨oi, tot, by simp [batchCollectItems]⟩
  | cons item rest ih =>
    intro pq oi tot hex hd hnew
    obtain ⟨p, hg⟩ := hex item (List.mem_cons_self _ _)
    have hd1 : item.ProductID ∉ rest.map (fun i => i.ProductID) ∧ DistinctProducts rest := by
      simpa [DistinctProducts] using hd
    have hk : item.ProductID ∉ GoMap.keys pq := hnew item (List.mem_cons_self _ _)
    simp only [batchCollectItems, ProductService.GetProductByID, hg]
    rw [GoMap.set_of_not_mem pq _ _ hk]
    have hnew1 : ∀ x ∈ rest,
        x.ProductID ∉ GoMap.keys (pq ++ [(item.ProductID, item.Quantity)]) := by
      intro x hx hmem
      simp only [GoMap.keys, List.map_append, List.map_cons, List.map_nil, List.mem_append,
        List.mem_singleton] at hmem
      rcases hmem with hmem | hmem
      · exact hnew x (List.mem_cons_of_mem _ hx) hmem
      · exact hd1.1 (hmem ▸ List.mem_map.mpr ⟨x, hx, rfl⟩)
    obtain ⟨o, t, hres⟩ := ih (pq ++ [(item.ProductID, item.Quantity)])
      (oi ++ [{ ProductID := item.ProductID, Quantity := item.Quantity, Price := p.Price,
                Name := p.Name }])
      (tot + p.Price * (item.Quantity : Rat))
      (fun x hx => hex x (List.mem_cons_of_mem _ hx)) hd1.2 hnew1
    exact ⟨o, t, by simp [hres]⟩

/-! ## `CreateOrderNoLock` when it returns an error -/

theorem insufficient_ne_not_found (name : String) (id : Int) :
    "insufficient stock for product " ++ name ≠ "product " ++ toString id ++ " not found" := by
  intro h
  have h1 := congrArg (fun s => s.data.head?) h
  simp only [String.data_append] at h1
  simp at h1

/-- When the loop of `CreateOrderNoLock` stops with an error, it has run without error over
the line items before the one that failed, the inventory is the one that run left, and on
that inventory the next line item fails: its product is missing or has less stock than the
line asks. -/
theorem noLockItems_error (items : List CartItem) :
    ∀ (ps : ProductService) (oi : List OrderItem) (tot : Rat) (ps1 : ProductService)
      (e : String), noLockItems ps items oi tot = (ps1, .error e) →
      ∃ pre item post o t, items = pre ++ item :: post ∧
        noLockItems ps pre oi tot = (ps1, .ok (o, t)) ∧
        ((ps1.products.get item.ProductID = none ∧
            e = "product " ++ toString item.ProductID ++ " not found") ∨
          ∃ p, ps1.products.get item.ProductID = some p ∧ p.Stock < item.Quantity ∧
            e = "insufficient stock for product " ++ p.Name) := by
  induction items with
  | nil =>
    intro ps oi tot ps1 e h
    simp [noLockItems] at h
  | cons item rest ih =>
    intro ps oi tot ps1 e h
    simp only [noLockItems, ProductService.GetProductByID] at h
    cases hg : ps.products.get item.ProductID with
    | none =>
      simp only [hg, Prod.mk.injEq, Except.error.injEq] at h
      refine ⟨[], item, rest, oi, tot, rfl, by simp [noLockItems, h.1], Or.inl ⟨?_, h.2.symm⟩⟩
      rw [← h.1]; exact hg
    | some p =>
      simp only [hg] at h
      by_cases hlt : p.Stock < item.Quantity
      · simp only [hlt, if_true, Prod.mk.injEq, Except.error.injEq] at h
        refine ⟨[], item, rest, oi, tot, rfl, by simp [noLockItems, h.1],
          Or.inr ⟨p, ?_, hlt, h.2.symm⟩⟩
        rw [← h.1]; exact hg
      · simp only [hlt, if_false] at h
        obtain ⟨pre, x, post, o, t, hsplit, hrun, hfail⟩ := ih _ _ _ _ _ h
        refine ⟨item :: pre, x, post, o, t, by simp [hsplit], ?_, hfail⟩
        simp only [noLockItems, ProductService.GetProductByID, hg, hlt, if_false]
        exact hrun

/-- The inventory after the loop of `CreateOrderNoLock` has run without error over line
items of pairwise distinct products: the product of each line has Go's `stock - quantity`
of the line as its stock, every other product is as before. -/
theorem noLockItems_get (items : List CartItem) :
    ∀ (ps : ProductService) (oi : List OrderItem) (tot : Rat) (ps1 : ProductService)
      (o : List OrderItem) (t : Rat), DistinctProducts items →
      noLockItems ps items oi tot = (ps1, .ok (o, t)) →
      ∀ id, ps1.products.get id =
        match GoMap.get (items.map (fun i => (i.ProductID, i.Quantity))) id with
        | some q => (ps.products.get id).map (fun p => { p with Stock := goSub p.Stock q })
        | none => ps.products.get id := by
  induction items with
  | nil =>
    intro ps oi tot ps1 o t _ h id
    simp only [noLockItems, Prod.mk.injEq] at h
    simp [GoMap.get, h.1]
  | cons item rest ih =>
    intro ps oi tot ps1 o t hd h id
    have hd1 : item.ProductID ∉ rest.map (fun i => i.ProductID) ∧ DistinctProducts rest := by
      simpa [DistinctProducts] using hd
    simp only [noLockItems, ProductService.GetProductByID] at h
    cases hg : ps.products.get item.ProductID with
    | none => simp [hg] at h
    | some p =>
      simp only [hg] at h
      by_cases hlt : p.Stock < item.Quantity
      · simp [hlt] at h
      · simp only [hlt, if_false] at h
        rw [ih _ _ _ _ _ _ hd1.2 h id]
        by_cases hid : item.ProductID = id
        · subst hid
          have hnk : item.ProductID ∉
              GoMap.keys (rest.map (fun i => (i.ProductID, i.Quantity))) := by
            rw [keys_map_items]; exact hd1.1
          rw [GoMap.get_eq_none_of_not_mem _ _ hnk]
          simp [GoMap.get, GoMap.get_set_self, hg]
        · simp only
          rw [GoMap.get_set_ne _ _ hid]
          simp [GoMap.get, hid]

/-- After the loop of `CreateOrderNoLock` has run without error over line items of pairwise
distinct products, the product of each line had at least the quantity of the line in stock
before the loop and has Go's `stock - quantity` after it. -/
theorem noLockItems_lines (items : List CartItem) :
    ∀ (ps : ProductService) (oi : List OrderItem) (tot : Rat) (ps1 : ProductService)
      (o : List OrderItem) (t : Rat), DistinctProducts items →
      noLockItems ps items oi tot = (ps1, .ok (o, t)) →
      ∀ x ∈ items, ∃ p, ps.products.get x.ProductID = some p ∧ x.Quantity ≤ p.Stock ∧
        ps1.products.get x.ProductID = some { p with Stock := goSub p.Stock x.Quantity } := by
  intro ps oi tot ps1 o t hd h x hx
  have hget := noLockItems_get items ps oi tot ps1 o t hd h x.ProductID
  have hwf : GoMap.WF (items.map (fun i => (i.ProductID, i.Quantity))) := WF_map_items items hd
  rw [GoMap.get_of_mem _ hwf x.ProductID x.Quantity (List.mem_map.mpr ⟨x, hx, rfl⟩)] at hget
  simp only at hget
  have key : ∀ (items : List CartItem) (ps : ProductService) (oi : List OrderItem) (tot : Rat)
      (ps1 : ProductService) (o : List OrderItem) (t : Rat), DistinctProducts items →
      noLockItems ps items oi tot = (ps1, .ok (o, t)) →
      ∀ x ∈ items, ∃ p, ps.products.get x.ProductID = some p ∧ x.Quantity ≤ p.Stock := by
    intro items
    induction items with
    | nil => intro _ _ _ _ _ _ _ _ x hx; simp at hx
    | cons item rest ih =>
      intro ps oi tot ps1 o t hd h x hx
      have hd1 : item.ProductID ∉ rest.map (fun i => i.ProductID) ∧ DistinctProducts rest := by
        simpa [DistinctProducts] using hd
      simp only [noLockItems, ProductService.GetProductByID] at h
      cases hg : ps.products.get item.ProductID with
      | none => simp [hg] at h
      | some p =>
        simp only [hg] at h
        by_cases hlt : p.Stock < item.Quantity
        · simp [hlt] at h
        · simp only [hlt, if_false] at h
          rcases List.mem_cons.mp hx with hx | hx
          · subst hx
            exact ⟨p, hg, not_lt.mp hlt⟩
          · obtain ⟨p1, hp1, hle⟩ := ih _ _ _ _ _ _ hd1.2 h x hx
            have hne : item.ProductID ≠ x.ProductID := by
              intro heq
              exact hd1.1 (heq ▸ List.mem_map.mpr ⟨x, hx, rfl⟩)
            rw [GoMap.get_set_ne _ _ hne] at hp1
            exact ⟨p1, hp1, hle⟩
  obtain ⟨p, hp, hle⟩ := key items ps oi tot ps1 o t hd h x hx
  rw [hp] at hget
  exact ⟨p, hp, hle, hget⟩

/-! ## The cart ids of `CreateCart` -/

theorem digitChar_facts (d : Nat) (h : d < 10) :
    digitValue (Nat.digitChar d) = d ∧ Nat.digitChar d ≠ '_' ∧ Nat.digitChar d ≠ '-' := by
  interval_cases d <;> decide

theorem toDigitsCore_facts (fuel : Nat) :
    ∀ (n : Nat) (ds : List Char), n < fuel →
      ∃ pre, Nat.toDigitsCore 10 fuel n ds = pre ++ ds ∧ pre ≠ [] ∧
        (∀ c ∈ pre, c ≠ '_' ∧ c ≠ '-') ∧ decimalValue pre = n := by
  induction fuel with
  | zero => intro n ds h; omega
  | succ fuel ih =>
    intro n ds h
    have hd := digitChar_facts (n % 10) (Nat.mod_lt _ (by norm_num))
    simp only [Nat.toDigitsCore]
    by_cases h0 : n / 10 = 0
    · simp only [h0, if_true]
      refine ⟨[Nat.digitChar (n % 10)], rfl, by simp, ?_, ?_⟩
      · intro c hc
        rw [List.mem_singleton] at hc
        subst hc
        exact hd.2
      · simp only [decimalValue, List.foldl, hd.1]
        omega
    · simp only [h0, if_false]
      obtain ⟨pre, hpre, hne, hall, hval⟩ := ih (n / 10) (Nat.digitChar (n % 10) :: ds) (by omega)
      refine ⟨pre ++ [Nat.digitChar (n % 10)], by simp [hpre], by simp, ?_, ?_⟩
      · intro c hc
        rcases List.mem_append.mp hc with hc | hc
        · exact hall c hc
        · rw [List.mem_singleton] at hc
          subst hc
          exact hd.2
      · simp only [decimalValue, List.foldl_append, List.foldl] at hval ⊢
        rw [hval, hd.1]
        omega

theorem toDigits_facts (n : Nat) :
    Nat.toDigits 10 n ≠ [] ∧ (∀ c ∈ Nat.toDigits 10 n, c ≠ '_' ∧ c ≠ '-') ∧
      decimalValue (Nat.toDigits 10 n) = n := by
  obtain ⟨pre, hpre, hne, hall, hval⟩ := toDigitsCore_facts (n + 1) n [] (by omega)
  simp only [List.append_nil] at hpre
  unfold Nat.toDigits
  rw [hpre]
  exact ⟨hne, hall, hval⟩

theorem toString_ofNat_data (m : Nat) : (toString (Int.ofNat m)).data = Nat.toDigits 10 m :=
  rfl

theorem toString_negSucc_data (m : Nat) :
    (toString (Int.negSucc m)).data = '-' :: Nat.toDigits 10 (m + 1) :=
  rfl

theorem toString_int_no_underscore (i : Int) : '_' ∉ (toString i).data := by
  cases i with
  | ofNat m =>
    rw [toString_ofNat_data]
    intro h
    exact ((toDigits_facts m).2.1 _ h).1 rfl
  | negSucc m =>
    rw [toString_negSucc_data]
    intro h
    rcases List.mem_cons.mp h with h | h
    · exact absurd h (by decide)
    · exact ((toDigits_facts (m + 1)).2.1 _ h).1 rfl

theorem toString_int_injective (i j : Int) (h : (toString i).data = (toString j).data) :
    i = j := by
  cases i with
  | ofNat m =>
    cases j with
    | ofNat k =>
      rw [toString_ofNat_data, toString_ofNat_data] at h
      have := congrArg decimalValue h
      rw [(toDigits_facts m).2.2, (toDigits_facts k).2.2] at this
      rw [this]
    | negSucc k =>
      rw [toString_ofNat_data, toString_negSucc_data] at h
      have hm : '-' ∈ Nat.toDigits 10 m := by rw [h]; exact List.mem_cons_self _ _
      exact absurd rfl ((toDigits_facts m).2.1 _ hm).2
  | negSucc m =>
    cases j with
    | ofNat k =>
      rw [toString_ofNat_data, toString_negSucc_data] at h
      have hm : '-' ∈ Nat.toDigits 10 k := by rw [← h]; exact List.mem_cons_self _ _
      exact absurd rfl ((toDigits_facts k).2.1 _ hm).2
    | negSucc k =>
      rw [toString_negSucc_data, toString_negSucc_data] at h
      have h1 := List.tail_eq_of_cons_eq h
      have := congrArg decimalValue h1
      rw [(toDigits_facts (m + 1)).2.2, (toDigits_facts (k + 1)).2.2] at this
      have hmk : m = k := by omega
      rw [hmk]

theorem append_sep_unique (c : Char) (a : List Char) :
    ∀ (a1 b b1 : List Char), c ∉ a → c ∉ a1 → a ++ c :: b = a1 ++ c :: b1 → a = a1 := by
  induction a with
  | nil =>
    intro a1 b b1 _ h1 h
    cases a1 with
    | nil => rfl
    | cons x rest =>
      simp only [List.nil_append, List.cons_append, List.cons.injEq] at h
      exact absurd (h.1 ▸ List.mem_cons_self _ _) h1
  | cons x rest ih =>
    intro a1 b b1 h0 h1 h
    cases a1 with
    | nil =>
      simp only [List.nil_append, List.cons_append, List.cons.injEq] at h
      exact absurd (h.1 ▸ List.mem_cons_self _ _) h0
    | cons y rest1 =>
      simp only [List.cons_append, List.cons.injEq] at h
      rw [h.1, ih rest1 b b1 (fun hm => h0 (List.mem_cons_of_mem _ hm))
        (fun hm => h1 (List.mem_cons_of_mem _ hm)) h.2]

/-- The cart id of `CreateCart` names the user: two ids are equal only for the same user. -/
theorem cartID_user (u t u1 t1 : Int)
    (h : "cart_" ++ toString u ++ "_" ++ toString t =
      "cart_" ++ toString u1 ++ "_" ++ toString t1) : u = u1 := by
  have hd := congrArg String.data h
  simp only [String.data_append, List.append_assoc] at hd
  have hd1 := List.append_cancel_left hd
  have hsplit := append_sep_unique '_' _ _ _ _ (toString_int_no_underscore u)
    (toString_int_no_underscore u1) hd1
  exact toString_int_injective u u1 hsplit

theorem AddToCartNoLock_userCarts (s : CartService) (cartID : String)
    (productID quantity : Int) (price : Rat) (name : String) (now : Int) :
    (s.AddToCartNoLock cartID productID quantity price name now).1.userCarts = s.userCarts := by
  unfold CartService.AddToCartNoLock
  cases s.carts.get cartID with
  | none => rfl
  | some cart => simp only; cases addToExisting productID quantity price cart.Items <;> rfl

theorem AddToCartOptimistic_userCarts (s : CartService) (cartID : String)
    (productID quantity : Int) (price : Rat) (name : String) (version now : Int) :
    (s.AddToCartOptimistic cartID productID quantity price name version now).1.userCarts
      = s.userCarts := by
  unfold CartService.AddToCartOptimistic
  cases s.carts.get cartID with
  | none => rfl
  | some cart => simp only; split_ifs <;> rfl

theorem UpdateCartItemQuantitySafe_userCarts (s : CartService) (cartID : String)
    (productID quantity now : Int) :
    (s.UpdateCartItemQuantitySafe cartID productID quantity now).1.userCarts = s.userCarts := by
  unfold CartService.UpdateCartItemQuantitySafe
  cases s.carts.get cartID with
  | none => rfl
  | some cart => simp only; cases setExisting productID quantity cart.Items <;> rfl

theorem UserCartsOwned_of_userCarts (s s1 : CartService) (h : s1.userCarts = s.userCarts)
    (ho : UserCartsOwned s) : UserCartsOwned s1 := by
  intro userID cartID hg
  rw [h] at hg
  exact ho userID cartID hg

theorem UserCartsOwned_CreateCart (s : CartService) (userID now : Int)
    (ho : UserCartsOwned s) : UserCartsOwned (s.CreateCart userID now).1 := by
  intro u cartID hg
  simp only [CartService.CreateCart] at hg
  by_cases hu : userID = u
  · subst hu
    rw [GoMap.get_set_self] at hg
    cases hg
    exact ⟨now, rfl⟩
  · rw [GoMap.get_set_ne _ _ hu] at hg
    exact ho u cartID hg

/-- In a cart store built by the methods, every user is mapped to a cart id made for that
user. -/
theorem UserCartsOwned_of_reachable (s : CartService) (h : CartReachable s) :
    UserCartsOwned s := by
  induction h with
  | new => intro u cartID hg; simp [NewCartService, GoMap.get] at hg
  | createCart s userID now _ ih => exact UserCartsOwned_CreateCart s userID now ih
  | addNoLock s cartID productID quantity price name now _ ih =>
    exact UserCartsOwned_of_userCarts s _ (AddToCartNoLock_userCarts _ _ _ _ _ _ _) ih
  | addWithLock s cartID productID quantity price name now _ ih =>
    exact UserCartsOwned_of_userCarts s _ (AddToCartNoLock_userCarts _ _ _ _ _ _ _) ih
  | addOptimistic s cartID productID quantity price name version now _ ih =>
    exact UserCartsOwned_of_userCarts s _ (AddToCartOptimistic_userCarts _ _ _ _ _ _ _ _) ih
  | updateRace s cartID productID quantity now _ ih =>
    exact UserCartsOwned_of_userCarts s _ (UpdateCartItemQuantitySafe_userCarts _ _ _ _ _) ih
  | updateSafe s cartID productID quantity now _ ih =>
    exact UserCartsOwned_of_userCarts s _ (UpdateCartItemQuantitySafe_userCarts _ _ _ _ _) ih

/-! ## Facts about `contains` and the slice expression -/

theorem goSlice_nat {α : Type} (a : List α) (k n : Nat) (h : k + n ≤ a.length) :
    goSlice a (k : Int) ((k : Int) + (n : Int)) = some ((a.drop k).take n) := by
  unfold goSlice
  have h1 : (0 : Int) ≤ (k : Int) ∧ (k : Int) ≤ (k : Int) + (n : Int) ∧
      (k : Int) + (n : Int) ≤ (a.length : Int) := by omega
  rw [if_pos h1]
  have h2 : ((k : Int) + (n : Int) - (k : Int)).toNat = n := by omega
  rw [h2, Int.toNat_ofNat]

/-- The loop of `contains`, started at an index from which every pass slices in range: it
ends without panic, and with `true` exactly when some pass finds `substr`. -/
theorem containsLoop_spec (s sub : List Nat) (fuel : Nat) :
    ∀ k : Nat, (fuel = 0 ∨ k + fuel + sub.length ≤ s.length + 1) →
      ∃ b, containsLoop s sub (k : Int) fuel = some b ∧
        (b = true ↔ ∃ j, k ≤ j ∧ j < k + fuel ∧ (s.drop j).take sub.length = sub) := by
  induction fuel with
  | zero =>
    intro k _
    refine ⟨false, rfl, ?_⟩
    constructor
    · intro h; exact absurd h (by simp)
    · rintro ⟨j, h1, h2, _⟩; omega
  | succ fuel ih =>
    intro k hk
    have hk1 : k + sub.length ≤ s.length := by omega
    simp only [containsLoop, goSlice_nat s k sub.length hk1]
    by_cases hm : (s.drop k).take sub.length = sub
    · simp only [hm, if_true]
      exact ⟨true, rfl, by simp only [true_iff]; exact ⟨k, le_refl k, by omega, hm⟩⟩
    · simp only [hm, if_false]
      have hcast : ((k : Int) + 1) = ((k + 1 : Nat) : Int) := by push_cast; ring
      rw [hcast]
      obtain ⟨b, hb, hiff⟩ := ih (k + 1) (by omega)
      refine ⟨b, hb, ?_⟩
      rw [hiff]
      constructor
      · rintro ⟨j, h1, h2, h3⟩
        exact ⟨j, by omega, by omega, h3⟩
      · rintro ⟨j, h1, h2, h3⟩
        have hne : j ≠ k := by
          intro he
          subst he
          exact hm h3
        exact ⟨j, by omega, by omega, h3⟩

/-! ## Facts about runs of checkout calls -/

/-- One flash sale purchase of one unit of a product that exists. -/
theorem FlashSalePurchase_one (s : OrderService) (productID userID now : Int) (p : Product)
    (hg : s.productService.products.get productID = some p) :
    (1 ≤ p.Stock →
      returnedOrder (s.FlashSalePurchase productID 1 userID now).2 = true ∧
      (s.FlashSalePurchase productID 1 userID now).1.productService.products.get productID
        = some { p with Stock := p.Stock - 1, UpdatedAt := now } ∧
      (s.FlashSalePurchase productID 1 userID now).1.stats.totalOrders
        = s.stats.totalOrders + 1) ∧
    (p.Stock < 1 → s.FlashSalePurchase productID 1 userID now = (s, .error "out of stock")) := by
  constructor
  · intro h1
    have hlt : ¬ p.Stock < 1 := not_lt.mpr h1
    have hup := UpdateStock_of_enough s.productService productID 1 now p hg h1
    rw [goSub_of_le p.Stock 1 (by decide) h1] at hup
    simp only [OrderService.FlashSalePurchase, ProductService.GetProductByID, hg, hlt,
      if_false, hup, Bool.not_true, Option.isSome_none, Bool.or_self, Bool.false_eq_true]
    refine ⟨rfl, ?_, rfl⟩
    exact GoMap.get_set_self _ _ _
  · intro hlt
    simp [OrderService.FlashSalePurchase, ProductService.GetProductByID, hg, hlt]

/-- A run of flash sale purchases of one unit each: the purchases succeed while stock
lasts. -/
theorem flashSaleRun_spec (productID : Int) (calls : List (Int × Int)) :
    ∀ (s : OrderService) (p : Product),
      s.productService.products.get productID = some p → 0 ≤ p.Stock →
      (flashSaleRun productID s calls).2.1 = min p.Stock.toNat calls.length ∧
      (flashSaleRun productID s calls).2.2 = calls.length - min p.Stock.toNat calls.length ∧
      (∃ p1, (flashSaleRun productID s calls).1.productService.products.get productID
          = some p1 ∧
        p1.Stock = p.Stock - ((min p.Stock.toNat calls.length : Nat) : Int)) ∧
      (flashSaleRun productID s calls).1.stats.totalOrders
        = s.stats.totalOrders + ((min p.Stock.toNat calls.length : Nat) : Int) := by
  induction calls with
  | nil =>
    intro s p hg h0
    refine ⟨?_, ?_, ⟨p, hg, ?_⟩, ?_⟩ <;> simp [flashSaleRun]
  | cons c rest ih =>
    obtain ⟨userID, now⟩ := c
    intro s p hg h0
    obtain ⟨hyes, hno⟩ := FlashSalePurchase_one s productID userID now p hg
    by_cases h1 : 1 ≤ p.Stock
    · obtain ⟨hok, hget, htot⟩ := hyes h1
      obtain ⟨i1, i2, ⟨p1, hp1, hs1⟩, i4⟩ := ih (s.FlashSalePurchase productID 1 userID now).1
        { p with Stock := p.Stock - 1, UpdatedAt := now } hget (by show 0 ≤ p.Stock - 1; omega)
      simp only [flashSaleRun, hok, if_true, List.length_cons]
      have hmin : min p.Stock.toNat (rest.length + 1)
          = 1 + min (p.Stock - 1).toNat rest.length := by omega
      simp only at i1 i2 hs1 i4
      refine ⟨by rw [i1, hmin], ?_, ⟨p1, hp1, ?_⟩, ?_⟩
      · simp only [Bool.true_eq_false, if_false] at *
        rw [i2, hmin]; omega
      · rw [hs1, hmin]; push_cast; ring
      · rw [i4, htot, hmin]; push_cast; ring
    · have hlt : p.Stock < 1 := not_le.mp h1
      have hres := hno hlt
      have hz : p.Stock.toNat = 0 := by omega
      obtain ⟨i1, i2, ⟨p1, hp1, hs1⟩, i4⟩ := ih s p hg h0
      simp only [flashSaleRun, hres, returnedOrder, Bool.false_eq_true, if_false, if_true,
        List.length_cons]
      rw [hz] at i1 i2 hs1 i4 ⊢
      simp only [Nat.zero_min, Nat.sub_zero, Nat.cast_zero, sub_zero, add_zero,
        zero_add] at i1 i2 hs1 i4 ⊢
      exact ⟨i1, by rw [i2]; omega, ⟨p1, hp1, hs1⟩, i4⟩

theorem indexSize_append (userOrders : GoMap Int (List String)) (userID : Int) (id : String) :
    indexSize (userOrders.set userID (((userOrders.get userID).getD []) ++ [id]))
      = indexSize userOrders + 1 := by
  induction userOrders with
  | nil => simp [indexSize, GoMap.set, GoMap.get]
  | cons e rest ih =>
    obtain ⟨k, v⟩ := e
    by_cases hk : k = userID
    · simp [indexSize, GoMap.set, GoMap.get, hk]
      omega
    · simp only [indexSize, GoMap.set, GoMap.get, hk, if_false, List.map_cons,
        List.sum_cons] at ih ⊢
      rw [ih]
      omega

theorem CreateOrderSafe_frame (s : OrderService) (cartID : String) (userID : Int)
    (address paymentMethod : String) (now : Int) :
    returnedOrder (s.CreateOrderSafe cartID userID address paymentMethod now).2 = true ∨
    ((s.CreateOrderSafe cartID userID address paymentMethod now).1.userOrders = s.userOrders ∧
      (s.CreateOrderSafe cartID userID address paymentMethod now).1.stats.totalOrders
        = s.stats.totalOrders) := by
  unfold OrderService.CreateOrderSafe
  repeat' split
  all_goals first
    | exact Or.inl rfl
    | exact Or.inr ⟨rfl, rfl⟩

theorem CreateOrderNoLock_frame (s : OrderService) (cartID : String) (userID : Int)
    (address paymentMethod : String) (now : Int) :
    returnedOrder (s.CreateOrderNoLock cartID userID address paymentMethod now).2 = true ∨
    ((s.CreateOrderNoLock cartID userID address paymentMethod now).1.userOrders
        = s.userOrders ∧
      (s.CreateOrderNoLock cartID userID address paymentMethod now).1.stats.totalOrders
        = s.stats.totalOrders) := by
  unfold OrderService.CreateOrderNoLock
  repeat' split
  all_goals first
    | exact Or.inl rfl
    | exact Or.inr ⟨rfl, rfl⟩

theorem CreateOrderBatchCheck_frame (s : OrderService) (cartID : String) (userID now : Int) :
    returnedOrder (s.CreateOrderBatchCheck cartID userID now).2 = true ∨
    ((s.CreateOrderBatchCheck cartID userID now).1.userOrders = s.userOrders ∧
      (s.CreateOrderBatchCheck cartID userID now).1.stats.totalOrders
        = s.stats.totalOrders) := by
  unfold OrderService.CreateOrderBatchCheck
  split
  · exact Or.inr ⟨rfl, rfl⟩
  · split
    · exact Or.inr ⟨rfl, rfl⟩
    · rename_i pq orderItems total _
      have hrest := tryReserveInventory_rest s pq
      split
      · rename_i s1 heq
        have h1 : s1 = (s.tryReserveInventory pq).1 := by rw [heq]
        refine Or.inr ⟨?_, ?_⟩
        · show s1.userOrders = s.userOrders
          rw [h1]; exact hrest.1
        · show s1.stats.totalOrders = s.stats.totalOrders
          rw [h1, hrest.2.1]
      · exact Or.inl rfl

theorem FlashSalePurchase_frame (s : OrderService) (productID quantity userID now : Int) :
    returnedOrder (s.FlashSalePurchase productID quantity userID now).2 = true ∨
    ((s.FlashSalePurchase productID quantity userID now).1.userOrders = s.userOrders ∧
      (s.FlashSalePurchase productID quantity userID now).1.stats.totalOrders
        = s.stats.totalOrders) := by
  unfold OrderService.FlashSalePurchase
  repeat' split
  all_goals first
    | exact Or.inl rfl
    | exact Or.inr ⟨rfl, rfl⟩

/-- One checkout call: either it returns an order, the id of which is appended to the order
index of one user while `totalOrders` goes up by one, or the order index and `totalOrders`
are as before. -/
theorem OrderCall.run_frame (c : OrderCall) (s : OrderService) :
    (returnedOrder (c.run s).2 = true ∧
      (∃ userID id, (c.run s).1.userOrders =
        s.userOrders.set userID (((s.userOrders.get userID).getD []) ++ [id])) ∧
      (c.run s).1.stats.totalOrders = s.stats.totalOrders + 1) ∨
    (returnedOrder (c.run s).2 = false ∧ (c.run s).1.userOrders = s.userOrders ∧
      (c.run s).1.stats.totalOrders = s.stats.totalOrders) := by
  have key : ∀ (r : OrderService × Except String Order),
      (∀ order, r.2 = .ok order → ∃ s0 : OrderService, r.1 = s0.storeOrder order ∧
        s0.userOrders = s.userOrders ∧ s0.stats = s.stats) →
      (returnedOrder r.2 = true ∨
        (r.1.userOrders = s.userOrders ∧ r.1.stats.totalOrders = s.stats.totalOrders)) →
      (returnedOrder r.2 = true ∧
        (∃ userID id, r.1.userOrders =
          s.userOrders.set userID (((s.userOrders.get userID).getD []) ++ [id])) ∧
        r.1.stats.totalOrders = s.stats.totalOrders + 1) ∨
      (returnedOrder r.2 = false ∧ r.1.userOrders = s.userOrders ∧
        r.1.stats.totalOrders = s.stats.totalOrders) := by
    rintro ⟨s1, res⟩ hok hframe
    cases res with
    | ok order =>
      obtain ⟨s0, h1, hu, hs⟩ := hok order rfl
      simp only at h1
      subst h1
      refine Or.inl ⟨rfl, ⟨order.UserID, order.ID, ?_⟩, ?_⟩
      · show s0.userOrders.set _ _ = _
        rw [hu]
      · show s0.stats.totalOrders + 1 = _
        rw [hs]
    | error e =>
      rcases hframe with h | h
      · exact absurd h (by simp [returnedOrder])
      · exact Or.inr ⟨rfl, h⟩
  cases c with
  | noLock cartID userID address paymentMethod now =>
    refine key _ ?_ (CreateOrderNoLock_frame s cartID userID address paymentMethod now)
    intro order h
    obtain ⟨_, ps1, _, _, hres, _, _⟩ :=
      CreateOrderNoLock_ok s cartID userID address paymentMethod now order h
    exact ⟨_, hres, rfl, rfl⟩
  | safe cartID userID address paymentMethod now =>
    refine key _ ?_ (CreateOrderSafe_frame s cartID userID address paymentMethod now)
    intro order h
    obtain ⟨_, _, ps1, _, _, _, hres, _, _⟩ :=
      CreateOrderSafe_ok s cartID userID address paymentMethod now order h
    exact ⟨_, hres, rfl, rfl⟩
  | batch cartID userID now =>
    refine key _ ?_ (CreateOrderBatchCheck_frame s cartID userID now)
    intro order h
    obtain ⟨_, pq, _, _, _, hres, _, _⟩ := CreateOrderBatchCheck_ok s cartID userID now order h
    exact ⟨_, hres, (tryReserveInventory_rest s pq).1, (tryReserveInventory_rest s pq).2.1⟩
  | flashSale productID quantity userID now =>
    refine key _ ?_ (FlashSalePurchase_frame s productID quantity userID now)
    intro order h
    obtain ⟨ps1, hres, _, _⟩ := FlashSalePurchase_ok s productID quantity userID now order h
    exact ⟨_, hres, rfl, rfl⟩

/-- Along a run of checkout calls, `totalOrders` and the size of the order index both grow
by the number of calls that returned an order, and the order index stays a map. -/
theorem runOrderCalls_counts (calls : List OrderCall) :
    ∀ s : OrderService, GoMap.WF s.userOrders →
      (runOrderCalls s calls).1.stats.totalOrders
        = s.stats.totalOrders + (((runOrderCalls s calls).2 : Nat) : Int) ∧
      indexSize (runOrderCalls s calls).1.userOrders
        = indexSize s.userOrders + (runOrderCalls s calls).2 ∧
      GoMap.WF (runOrderCalls s calls).1.userOrders := by
  induction calls with
  | nil => intro s hwf; simp [runOrderCalls, hwf]
  | cons c cs ih =>
    intro s hwf
    simp only [runOrderCalls]
    rcases OrderCall.run_frame c s with ⟨hok, ⟨userID, id, hu⟩, ht⟩ | ⟨hno, hu, ht⟩
    · have hwf1 : GoMap.WF (c.run s).1.userOrders := by
        rw [hu]; exact GoMap.WF_set _ _ _ hwf
      obtain ⟨i1, i2, i3⟩ := ih (c.run s).1 hwf1
      refine ⟨?_, ?_, i3⟩
      · rw [i1, ht, hok]; simp only [if_true]; push_cast; ring
      · rw [i2, hu, indexSize_append, hok]; simp only [if_true]; omega
    · have hwf1 : GoMap.WF (c.run s).1.userOrders := by rw [hu]; exact hwf
      obtain ⟨i1, i2, i3⟩ := ih (c.run s).1 hwf1
      refine ⟨?_, ?_, i3⟩
      · rw [i1, ht, hno]; simp
      · rw [i2, hu, hno]; simp

/-! ## Facts about stock that is not raised -/

theorem StockKept_refl (c : Prop) (ps : ProductService) : StockKept c ps ps :=
  ⟨rfl, fun _ _ p hg => ⟨p, hg, le_refl _⟩⟩

theorem StockKept_trans {c c1 c2 : Prop} {a b d : ProductService}
    (h1 : StockKept c1 a b) (h2 : StockKept c2 b d) (i1 : c → c1) (i2 : c → c2) :
    StockKept c a d := by
  refine ⟨h2.1.trans h1.1, ?_⟩
  intro hc id p hg
  obtain ⟨p1, hg1, hle1⟩ := h1.2 (i1 hc) id p hg
  obtain ⟨p2, hg2, hle2⟩ := h2.2 (i2 hc) id p1 hg1
  exact ⟨p2, hg2, le_trans hle2 hle1⟩

theorem StockKept_set (c : Prop) (ps : ProductService) (id : Int) (p p1 : Product)
    (hg : ps.products.get id = some p) (hle : c → p1.Stock ≤ p.Stock) :
    StockKept c ps { ps with products := ps.products.set id p1 } := by
  refine ⟨GoMap.keys_set_of_mem _ _ _ (GoMap.mem_keys_of_get _ _ _ hg), ?_⟩
  intro hc k q hk
  by_cases hid : id = k
  · subst hid
    rw [hg] at hk
    cases hk
    exact ⟨p1, GoMap.get_set_self _ _ _, hle hc⟩
  · exact ⟨q, by simp only; rw [GoMap.get_set_ne _ _ hid]; exact hk, le_refl _⟩

theorem UpdateStock_kept (ps : ProductService) (productID quantity now : Int) :
    StockKept (0 ≤ quantity) ps (ps.UpdateStock productID quantity now).1 := by
  unfold ProductService.UpdateStock
  cases hg : ps.products.get productID with
  | none => exact StockKept_refl _ _
  | some p =>
    by_cases hlt : p.Stock < quantity
    · simp only [hlt, if_true]
      exact StockKept_refl _ _
    · simp only [hlt, if_false]
      exact StockKept_set _ ps productID p _ hg
        (fun h0 => goSub_le p.Stock quantity h0 (not_lt.mp hlt))

theorem safeUpdateItems_kept (now : Int) (updates : List (Int × Int)) :
    ∀ ps : ProductService,
      StockKept (∀ e ∈ updates, 0 ≤ e.2) ps (safeUpdateItems now ps updates).1 := by
  induction updates with
  | nil => intro ps; exact StockKept_refl _ _
  | cons e rest ih =>
    obtain ⟨productID, quantity⟩ := e
    intro ps
    have h1 := UpdateStock_kept ps productID quantity now
    simp only [safeUpdateItems]
    by_cases hc : (!(ps.UpdateStock productID quantity now).2.1 ||
        (ps.UpdateStock productID quantity now).2.2.isSome) = true
    · simp only [hc, if_true]
      exact StockKept_trans h1 (StockKept_refl True _)
        (fun h => h (productID, quantity) (List.mem_cons_self _ _)) (fun _ => trivial)
    · simp only [hc]
      exact StockKept_trans h1 (ih _)
        (fun h => h (productID, quantity) (List.mem_cons_self _ _))
        (fun h e he => h e (List.mem_cons_of_mem _ he))

theorem reserveApply_keys (pq : GoMap Int Int) :
    ∀ (products : GoMap Int Product),
      GoMap.keys (reserveApply products pq) = GoMap.keys products := by
  induction pq with
  | nil => intro products; rfl
  | cons e rest ih =>
    obtain ⟨k, q⟩ := e
    intro products
    simp only [reserveApply]
    cases hg : products.get k with
    | none => exact ih products
    | some p =>
      simp only
      rw [ih]
      exact GoMap.keys_set_of_mem _ _ _ (GoMap.mem_keys_of_get _ _ _ hg)

theorem noLockItems_kept (items : List CartItem) :
    ∀ (ps : ProductService) (oi : List OrderItem) (tot : Rat),
      StockKept (∀ item ∈ items, 0 ≤ item.Quantity) ps (noLockItems ps items oi tot).1 := by
  induction items with
  | nil => intro ps oi tot; exact StockKept_refl _ _
  | cons item rest ih =>
    intro ps oi tot
    simp only [noLockItems, ProductService.GetProductByID]
    cases hg : ps.products.get item.ProductID with
    | none => exact StockKept_refl _ _
    | some p =>
      simp only
      by_cases hlt : p.Stock < item.Quantity
      · simp only [hlt, if_true]
        exact StockKept_refl _ _
      · simp only [hlt, if_false]
        have h1 : StockKept (0 ≤ item.Quantity) ps
            { ps with products := (ps.products.set item.ProductID
                { p with Stock := goSub p.Stock item.Quantity }) } :=
          StockKept_set _ ps item.ProductID p _ hg
            (fun h0 => goSub_le p.Stock item.Quantity h0 (not_lt.mp hlt))
        exact StockKept_trans h1 (ih _ _ _)
          (fun h => h item (List.mem_cons_self _ _))
          (fun h x hx => h x (List.mem_cons_of_mem _ hx))

theorem GoMap.mem_set {κ α : Type} [DecidableEq κ] (m : GoMap κ α) (k : κ) (v : α)
    (e : κ × α) (h : e ∈ m.set k v) : e ∈ m ∨ e = (k, v) := by
  induction m with
  | nil =>
    simp only [GoMap.set, List.mem_singleton] at h
    exact Or.inr h
  | cons x rest ih =>
    obtain ⟨k1, v1⟩ := x
    by_cases h1 : k1 = k
    · simp only [GoMap.set, h1, if_true, List.mem_cons] at h
      rcases h with h | h
      · exact Or.inr h
      · exact Or.inl (List.mem_cons_of_mem _ h)
    · simp only [GoMap.set, h1, if_false, List.mem_cons] at h
      rcases h with h | h
      · exact Or.inl (h ▸ List.mem_cons_self _ _)
      · rcases ih h with h2 | h2
        · exact Or.inl (List.mem_cons_of_mem _ h2)
        · exact Or.inr h2

theorem batchCollectItems_nonneg (ps : ProductService) (items : List CartItem) :
    ∀ (pq : GoMap Int Int) (oi : List OrderItem) (tot : Rat)
      (pq1 : GoMap Int Int) (o : List OrderItem) (t : Rat),
      batchCollectItems ps items pq oi tot = .ok (pq1, o, t) →
      (∀ e ∈ pq, 0 ≤ e.2) → (∀ item ∈ items, 0 ≤ item.Quantity) → ∀ e ∈ pq1, 0 ≤ e.2 := by
  induction items with
  | nil =>
    intro pq oi tot pq1 o t h hpq _
    simp only [batchCollectItems, Except.ok.injEq, Prod.mk.injEq] at h
    exact h.1 ▸ hpq
  | cons item rest ih =>
    intro pq oi tot pq1 o t h hpq hitems
    simp only [batchCollectItems] at h
    cases hg : ps.GetProductByID item.ProductID with
    | none => simp [hg] at h
    | some product =>
      simp only [hg] at h
      refine ih _ _ _ _ _ _ h ?_ (fun x hx => hitems x (List.mem_cons_of_mem _ hx))
      intro e he
      rcases GoMap.mem_set _ _ _ _ he with h1 | h1
      · exact hpq e h1
      · rw [h1]
        exact hitems item (List.mem_cons_self _ _)

theorem tryReserveInventory_kept (s : OrderService) (pq : GoMap Int Int) :
    StockKept (∀ e ∈ pq, 0 ≤ e.2) s.productService
      (s.tryReserveInventory pq).1.productService := by
  unfold OrderService.tryReserveInventory
  by_cases hc : reserveCheck s.productService.products pq.range = true
  · simp only [hc, if_true]
    refine ⟨reserveApply_keys _ _, ?_⟩
    intro h0 id p hp
    have hall := (reserveCheck_iff _ _).mp hc
    have hex : ∀ e ∈ pq.range, ∃ p, s.productService.products.get e.1 = some p :=
      fun e he =>
        let ⟨p, hp, _⟩ := hall e he
        ⟨p, hp⟩
    simp only
    rw [reserveApply_get pq.range _ (GoMap.range_WF pq) hex id, hp]
    cases hq : pq.range.get id with
    | none => exact ⟨p, rfl, le_refl _⟩
    | some q =>
      have hmem := GoMap.mem_of_get pq.range id q hq
      obtain ⟨p0, hp0, hle⟩ := hall (id, q) hmem
      have hq0 := h0 (id, q) (GoMap.range_subset pq _ hmem)
      simp only at hp0 hle hq0
      rw [hp] at hp0
      cases hp0
      exact ⟨_, rfl, goSub_le p.Stock q hq0 hle⟩
  · simp only [hc]
    exact StockKept_refl _ _

theorem CreateOrderNoLock_kept (s : OrderService) (cartID : String) (userID : Int)
    (address paymentMethod : String) (now : Int) :
    StockKept (∀ cart, s.cartService.GetCart cartID = some cart →
        ∀ item ∈ cart.Items, 0 ≤ item.Quantity) s.productService
      (s.CreateOrderNoLock cartID userID address paymentMethod now).1.productService := by
  rcases Option.eq_none_or_eq_some (s.cartService.GetCart cartID) with hc | ⟨cart, hc⟩
  · have hres : (s.CreateOrderNoLock cartID userID address paymentMethod now).1 = s := by
      simp [OrderService.CreateOrderNoLock, hc]
    rw [hres]
    exact StockKept_refl _ _
  · by_cases hu : cart.UserID ≠ userID
    · have hres : (s.CreateOrderNoLock cartID userID address paymentMethod now).1 = s := by
        simp [OrderService.CreateOrderNoLock, hc, hu]
      rw [hres]
      exact StockKept_refl _ _
    · by_cases hl : cart.Items.length = 0
      · have hres : (s.CreateOrderNoLock cartID userID address paymentMethod now).1 = s := by
          simp only [OrderService.CreateOrderNoLock, hc, hu, hl, if_true, if_false]
        rw [hres]
        exact StockKept_refl _ _
      · have hk := noLockItems_kept cart.Items s.productService [] 0
        rcases hn : noLockItems s.productService cart.Items [] 0 with ⟨ps1, r⟩
        rw [hn] at hk
        have hres : (s.CreateOrderNoLock cartID userID address paymentMethod
            now).1.productService = ps1 := by
          cases r with
          | error e => simp only [OrderService.CreateOrderNoLock, hc, hu, hl, if_false, hn]
          | ok res =>
            simp only [OrderService.CreateOrderNoLock, hc, hu, hl, if_false, hn]
            rfl
        rw [hres]
        exact StockKept_trans hk (StockKept_refl True _) (fun h => h cart hc) (fun _ => trivial)

theorem CreateOrderSafe_kept (s : OrderService) (cartID : String) (userID : Int)
    (address paymentMethod : String) (now : Int) :
    StockKept (∀ cart, s.cartService.GetCart cartID = some cart →
        ∀ item ∈ cart.Items, 0 ≤ item.Quantity) s.productService
      (s.CreateOrderSafe cartID userID address paymentMethod now).1.productService := by
  rcases Option.eq_none_or_eq_some (s.cartService.GetCart cartID) with hc | ⟨cart, hc⟩
  · have hres : (s.CreateOrderSafe cartID userID address paymentMethod now).1 = s := by
      simp [OrderService.CreateOrderSafe, hc]
    rw [hres]
    exact StockKept_refl _ _
  · by_cases hu : cart.UserID ≠ userID
    · have hres : (s.CreateOrderSafe cartID userID address paymentMethod now).1 = s := by
        simp [OrderService.CreateOrderSafe, hc, hu]
      rw [hres]
      exact StockKept_refl _ _
    · by_cases hl : cart.Items.length = 0
      · have hres : (s.CreateOrderSafe cartID userID address paymentMethod now).1 = s := by
          simp only [OrderService.CreateOrderSafe, hc, hu, hl, if_true, if_false]
        rw [hres]
        exact StockKept_refl _ _
      · cases hs : safeCheckItems s.productService cart.Items [] [] 0 with
        | productNotFound productID =>
          have hres : (s.CreateOrderSafe cartID userID address paymentMethod
              now).1.productService = s.productService := by
            simp only [OrderService.CreateOrderSafe, hc, hu, hl, if_false, hs]
          rw [hres]
          exact StockKept_refl _ _
        | insufficientStock name =>
          have hres : (s.CreateOrderSafe cartID userID address paymentMethod
              now).1.productService = s.productService := by
            simp only [OrderService.CreateOrderSafe, hc, hu, hl, if_false, hs]
          rw [hres]
          exact StockKept_refl _ _
        | passed u o t =>
          obtain ⟨_, hueq, _, _, _, _⟩ := safeCheckItems_passed _ _ _ _ _ _ _ _ hs
          simp only [List.nil_append] at hueq
          have hk := safeUpdateItems_kept now u s.productService
          rcases hup : safeUpdateItems now s.productService u with ⟨ps1, r⟩
          rw [hup] at hk
          have hres : (s.CreateOrderSafe cartID userID address paymentMethod
              now).1.productService = ps1 := by
            cases r with
            | some productID =>
              simp only [OrderService.CreateOrderSafe, hc, hu, hl, if_false, hs, hup]
            | none =>
              simp only [OrderService.CreateOrderSafe, hc, hu, hl, if_false, hs, hup]
              rfl
          rw [hres]
          refine StockKept_trans hk (StockKept_refl True _) ?_ (fun _ => trivial)
          intro h e he
          rw [hueq] at he
          obtain ⟨item, hmem, heq⟩ := List.mem_map.mp he
          rw [← heq]
          exact h cart hc item hmem

theorem CreateOrderBatchCheck_kept (s : OrderService) (cartID : String) (userID now : Int) :
    StockKept (∀ cart, s.cartService.GetCart cartID = some cart →
        ∀ item ∈ cart.Items, 0 ≤ item.Quantity) s.productService
      (s.CreateOrderBatchCheck cartID userID now).1.productService := by
  rcases Option.eq_none_or_eq_some (s.cartService.GetCart cartID) with hc | ⟨cart, hc⟩
  · have hres : (s.CreateOrderBatchCheck cartID userID now).1 = s := by
      simp [OrderService.CreateOrderBatchCheck, hc]
    rw [hres]
    exact StockKept_refl _ _
  · cases hb : batchCollectItems s.productService cart.Items [] [] 0 with
    | error productID =>
      have hres : (s.CreateOrderBatchCheck cartID userID now).1 = s := by
        simp only [OrderService.CreateOrderBatchCheck, hc, hb]
      rw [hres]
      exact StockKept_refl _ _
    | ok res =>
      obtain ⟨pq, o, t⟩ := res
      have hk := tryReserveInventory_kept s pq
      have hres : (s.CreateOrderBatchCheck cartID userID now).1.productService
          = (s.tryReserveInventory pq).1.productService := by
        rcases ht : s.tryReserveInventory pq with ⟨s1, ok⟩
        cases ok with
        | false => simp only [OrderService.CreateOrderBatchCheck, hc, hb, ht]
        | true =>
          simp only [OrderService.CreateOrderBatchCheck, hc, hb, ht]
          rfl
      rw [hres]
      refine StockKept_trans hk (StockKept_refl True _) ?_ (fun _ => trivial)
      intro h
      exact batchCollectItems_nonneg _ _ _ _ _ _ _ _ hb (by simp) (h cart hc)

theorem FlashSalePurchase_kept (s : OrderService) (productID quantity userID now : Int) :
    StockKept (0 ≤ quantity) s.productService
      (s.FlashSalePurchase productID quantity userID now).1.productService := by
  have hk := UpdateStock_kept s.productService productID quantity now
  unfold OrderService.FlashSalePurchase
  cases hg : s.productService.GetProductByID productID with
  | none => exact StockKept_refl _ _
  | some product =>
    simp only
    by_cases hlt : product.Stock < quantity
    · simp only [hlt, if_true]
      exact StockKept_refl _ _
    · simp only [hlt, if_false]
      by_cases hc : (!(s.productService.UpdateStock productID quantity now).2.1 ||
          (s.productService.UpdateStock productID quantity now).2.2.isSome) = true
      · simp only [hc, if_true]
        exact hk
      · simp only [hc]
        exact hk

/-! ## Facts about the catalog reads -/

theorem infix_iff_slice (sub s : List Nat) :
    sub <:+: s ↔ ∃ j, 0 ≤ j ∧ j < 0 + (s.length + 1 - sub.length) ∧
      (s.drop j).take sub.length = sub := by
  constructor
  · rintro ⟨pre, post, h⟩
    refine ⟨pre.length, Nat.zero_le _, ?_, ?_⟩
    · have hl := congrArg List.length h
      simp only [List.length_append] at hl
      omega
    · rw [← h, List.append_assoc, List.drop_left, List.take_left]
  · rintro ⟨j, _, _, h⟩
    refine ⟨s.take j, (s.drop j).drop sub.length, ?_⟩
    rw [List.append_assoc]
    nth_rewrite 1 [← h]
    rw [List.take_append_drop, List.take_append_drop]

/-- The helper `contains` ends without panic and answers whether `substr` is a substring. -/
theorem contains_infix (s substr : String) :
    ∃ b, contains s substr = some b ∧ (b = true ↔ IsSubstring substr s) := by
  obtain ⟨b, hb, hiff⟩ := containsLoop_spec (goBytes s) (goBytes substr)
    (((goBytes s).length : Int) - ((goBytes substr).length : Int) + 1).toNat 0 (by omega)
  refine ⟨b, hb, ?_⟩
  rw [hiff, IsSubstring, infix_iff_slice]
  have hf : (((goBytes s).length : Int) - ((goBytes substr).length : Int) + 1).toNat
      = (goBytes s).length + 1 - (goBytes substr).length := by omega
  rw [hf]

theorem matchesSearch_spec (p : Product) (query category : String) (minPrice maxPrice : Rat) :
    ∃ b, matchesSearch p query category minPrice maxPrice = some b ∧
      (b = true ↔ SearchMatch p query category minPrice maxPrice) := by
  obtain ⟨b1, hb1, hi1⟩ := contains_infix p.Name query
  obtain ⟨b2, hb2, hi2⟩ := contains_infix p.Description query
  unfold matchesSearch SearchMatch
  by_cases hq : query = ""
  · simp only [hq, if_true, true_or, true_and]
    refine ⟨_, rfl, ?_⟩
    simp
  · simp only [hq, if_false, false_or, hb1, hb2]
    cases b1 with
    | true =>
      have h1 : IsSubstring query p.Name := hi1.mp rfl
      refine ⟨_, rfl, ?_⟩
      simp [h1]
    | false =>
      have h1 : ¬ IsSubstring query p.Name := fun h => by simpa using hi1.mpr h
      simp only [hb2]
      refine ⟨_, rfl, ?_⟩
      cases b2 with
      | true =>
        have h2 : IsSubstring query p.Description := hi2.mp rfl
        simp [h2]
      | false =>
        have h2 : ¬ IsSubstring query p.Description := fun h => by simpa using hi2.mpr h
        simp [h1, h2]

theorem searchLoop_spec (query category : String) (minPrice maxPrice : Rat)
    (products : GoMap Int Product) :
    searchLoop query category minPrice maxPrice products =
      some (matchingProducts products query category minPrice maxPrice) := by
  induction products with
  | nil => rfl
  | cons e rest ih =>
    obtain ⟨k, p⟩ := e
    obtain ⟨b, hb, hiff⟩ := matchesSearch_spec p query category minPrice maxPrice
    simp only [searchLoop, hb, ih, matchingProducts]
    cases b with
    | true =>
      have hm : SearchMatch p query category minPrice maxPrice := hiff.mp rfl
      simp [List.filter, hm]
    | false =>
      have hm : ¬ SearchMatch p query category minPrice maxPrice := fun h => by
        simpa using hiff.mpr h
      simp [List.filter, hm]

theorem matchingProducts_mem (products : GoMap Int Product) (query category : String)
    (minPrice maxPrice : Rat) (p : Product)
    (h : p ∈ matchingProducts products query category minPrice maxPrice) :
    SearchMatch p query category minPrice maxPrice := by
  unfold matchingProducts at h
  obtain ⟨e, he, hp⟩ := List.mem_map.mp h
  have := (List.mem_filter.mp he).2
  rw [← hp]
  simpa using this

theorem GoMap.get_of_mem_keys {κ α : Type} [DecidableEq κ] (m : GoMap κ α) (k : κ)
    (h : k ∈ GoMap.keys m) : ∃ v, m.get k = some v := by
  induction m with
  | nil => simp [GoMap.keys] at h
  | cons e rest ih =>
    obtain ⟨k1, v1⟩ := e
    by_cases h1 : k1 = k
    · exact ⟨v1, by simp [GoMap.get, h1]⟩
    · simp only [GoMap.keys, List.map_cons, List.mem_cons] at h
      rcases h with h | h
      · exact absurd h.symm h1
      · obtain ⟨v, hv⟩ := ih h
        exact ⟨v, by simp [GoMap.get, h1, hv]⟩

/-- A catalog whose product ids are exactly 1 to `N` holds `N` products. -/
theorem length_of_ids (products : GoMap Int Product) (N : Nat) (hwf : GoMap.WF products)
    (hids : ∀ id, id ∈ GoMap.keys products ↔ 1 ≤ id ∧ id ≤ (N : Int)) :
    products.length = N := by
  have h1 : (GoMap.keys products).toFinset = Finset.Icc (1 : Int) (N : Int) := by
    ext id
    simp only [List.mem_toFinset, Finset.mem_Icc]
    exact hids id
  have h2 : (GoMap.keys products).toFinset.card = (GoMap.keys products).length :=
    List.toFinset_card_of_nodup hwf
  have h3 : (GoMap.keys products).length = products.length := by simp [GoMap.keys]
  rw [← h3, ← h2, h1, Int.card_Icc]
  omega

/-- The loop of `GetAllProducts` over ids that all exist: one product per pass, in the order
of the ids. -/
theorem pageLoop_spec (products : GoMap Int Product) (n : Nat) :
    ∀ i : Int, (∀ k : Nat, k < n → ∃ p, products.get (i + 1 + (k : Int)) = some p) →
      (pageLoop products i n).length = n ∧
      ∀ k : Nat, k < n → (pageLoop products i n)[k]? = products.get (i + 1 + (k : Int)) := by
  induction n with
  | zero => intro i _; exact ⟨rfl, fun k hk => absurd hk (Nat.not_lt_zero k)⟩
  | succ n ih =>
    intro i hex
    obtain ⟨p, hp⟩ := hex 0 (Nat.succ_pos n)
    simp only [Nat.cast_zero, add_zero] at hp
    have hex1 : ∀ k : Nat, k < n → ∃ q, products.get (i + 1 + 1 + (k : Int)) = some q := by
      intro k hk
      obtain ⟨q, hq⟩ := hex (k + 1) (Nat.succ_lt_succ hk)
      refine ⟨q, ?_⟩
      rw [← hq]
      congr 1
      push_cast
      ring
    obtain ⟨hlen, hget⟩ := ih (i + 1) hex1
    simp only [pageLoop, hp]
    refine ⟨by simp [hlen], ?_⟩
    intro k hk
    cases k with
    | zero => simp [hp]
    | succ k =>
      simp only [List.getElem?_cons_succ]
      rw [hget k (by omega)]
      congr 1
      push_cast
      ring

theorem goSlice_page {α : Type} (results : List α) (start limit : Int) (h0 : 0 ≤ start)
    (hlt : start < (results.length : Int)) (hlimit : 1 ≤ limit) :
    goSlice results start
        (if start + limit > (results.length : Int) then (results.length : Int)
          else start + limit)
      = some ((results.drop start.toNat).take
          (min limit ((results.length : Int) - start)).toNat) := by
  unfold goSlice
  split_ifs with h1 h2 h2
  · congr 2
    omega
  · exact absurd (by omega) h2
  · congr 2
    omega
  · exact absurd (by omega) h2

/-- The page arithmetic of the two catalog reads when `page * limit` is an `int`: nothing
wraps around. -/
theorem page_bounds (page limit : Int) (hpage : 1 ≤ page) (hlimit : 1 ≤ limit)
    (hfit : page * limit ≤ 9223372036854775807) :
    goMul (goSub page 1) limit = (page - 1) * limit ∧
    goAdd ((page - 1) * limit) limit = (page - 1) * limit + limit ∧
    0 ≤ (page - 1) * limit ∧ (page - 1) * limit + limit ≤ 9223372036854775807 := by
  have hpl : page * limit = (page - 1) * limit + limit := by ring
  have hstart : 0 ≤ (page - 1) * limit := mul_nonneg (by omega) (by omega)
  have hp : page ≤ page * limit := le_mul_of_one_le_right (by omega) hlimit
  have h1 : goSub page 1 = page - 1 := goSub_of_fits _ _ (by unfold IsInt64; omega)
  have h2 : goMul (page - 1) limit = (page - 1) * limit :=
    goMul_of_fits _ _ (by unfold IsInt64; omega)
  have h3 : goAdd ((page - 1) * limit) limit = (page - 1) * limit + limit :=
    goAdd_of_fits _ _ (by unfold IsInt64; omega)
  rw [h1, h2]
  exact ⟨rfl, h3, hstart, by omega⟩

/-- The capacity `GetAllProducts` asks of `make` for a limit from 1 to 100 is between 1 and
the limit, whatever `start` the page arithmetic has given, wrapped around or not. -/
theorem page_capacity (start limit total : Int) (hlimit : 1 ≤ limit) (hmax : limit ≤ 100)
    (hlt : ¬ start ≥ total) :
    ¬ (goSub (if goAdd start limit > total then total else goAdd start limit) start < 0 ∨
      productSize * goSub (if goAdd start limit > total then total else goAdd start limit)
        start > maxAlloc) := by
  unfold goAdd goSub wrap64 IsInt64 productSize maxAlloc
  split_ifs <;> omega

/-! ## Theorems -/

/-- C1, the claim as stated fails: product 1 of the sample inventory has stock 5; `UpdateStock`
with the quantity -9223372036854775808, the least `int`, succeeds, and the stock afterwards is
-9223372036854775803, not the old stock minus the quantity, which is 9223372036854775813. -/
theorem UpdateStock_contract_counterexample :
    (sampleShop.productService.products.get 1).map (fun p => p.Stock) = some 5 ∧
    (sampleShop.productService.UpdateStock 1 (-9223372036854775808) 0).2 = (true, none) ∧
    ((sampleShop.productService.UpdateStock 1 (-9223372036854775808) 0).1.products.get 1).map
      (fun p => p.Stock) = some (-9223372036854775803) ∧
    ((sampleShop.productService.UpdateStock 1 (-9223372036854775808) 0).1.products.get 1).map
      (fun p => p.Stock) ≠ some (5 - (-9223372036854775808)) := by
  refine ⟨by decide, by decide, by decide, by decide⟩

/-- C1 as amended: `UpdateStock` returns `(true, nil)` exactly when the product exists and
its stock is at least `quantity`, and `(false, nil)` otherwise.  On success the product's
stock becomes Go's `old stock - quantity` and its time stamp the time of the call: for `int`
operands that is the difference wrapped around to 64 bits, and it is exactly the old stock
minus the quantity whenever that difference is an `int`, so for every quantity at least zero;
every other product is as before.  On failure the service is as before. -/
theorem UpdateStock_contract (s : ProductService) (productID quantity now : Int) :
    ((s.UpdateStock productID quantity now).2 = (true, none) ↔
        ∃ p, s.products.get productID = some p ∧ quantity ≤ p.Stock) ∧
    ((s.UpdateStock productID quantity now).2.1 = true ∨
        (s.UpdateStock productID quantity now).2 = (false, none)) ∧
    ((s.UpdateStock productID quantity now).2.1 = true →
        (∃ p, s.products.get productID = some p ∧
          (s.UpdateStock productID quantity now).1.products.get productID =
            some { p with Stock := goSub p.Stock quantity, UpdatedAt := now } ∧
          (IsInt64 p.Stock → IsInt64 quantity →
            goSub p.Stock quantity = wrap64 (p.Stock - quantity)) ∧
          (IsInt64 (p.Stock - quantity) → goSub p.Stock quantity = p.Stock - quantity) ∧
          (0 ≤ quantity → goSub p.Stock quantity = p.Stock - quantity)) ∧
        ∀ id, id ≠ productID →
          (s.UpdateStock productID quantity now).1.products.get id = s.products.get id) ∧
    ((s.UpdateStock productID quantity now).2.1 = false →
        (s.UpdateStock productID quantity now).1 = s) := by
  unfold ProductService.UpdateStock
  cases hget : s.products.get productID with
  | none => simp
  | some p =>
    by_cases hlt : p.Stock < quantity
    · simp [hlt]
    · have hle : quantity ≤ p.Stock := not_lt.mp hlt
      simp only [hlt, if_false]
      refine ⟨by simp [hle], by simp, fun _ => ⟨⟨p, rfl, ?_, ?_, ?_, ?_⟩, ?_⟩, by simp⟩
      · exact GoMap.get_set_self _ _ _
      · exact fun h1 h2 => goSub_int64 _ _ h1 h2
      · exact fun h1 => goSub_of_fits _ _ h1
      · exact fun h1 => goSub_of_le _ _ h1 hle
      · intro id hid
        exact GoMap.get_set_ne _ _ (Ne.symm hid)

/-- C1 as amended, at an instance: `UpdateStock` of 2 of product 1, which has stock 5,
succeeds and leaves the stock 3: Go's `5 - 2` is 5 minus 2. -/
theorem UpdateStock_contract_witness :
    (sampleShop.productService.UpdateStock 1 2 0).2.1 = true ∧
    ((sampleShop.productService.UpdateStock 1 2 0).1.products.get 1).map (fun p => p.Stock)
      = some 3 ∧
    ∃ p, sampleShop.productService.products.get 1 = some p ∧
      (sampleShop.productService.UpdateStock 1 2 0).1.products.get 1 =
        some { p with Stock := goSub p.Stock 2, UpdatedAt := 0 } ∧
      goSub p.Stock 2 = p.Stock - 2 :=
  ⟨by decide, by decide,
    ((UpdateStock_contract sampleShop.productService 1 2 0).2.2.1 (by decide)).1.imp
      (fun p hp => ⟨hp.1, hp.2.1, hp.2.2.2.2 (by decide)⟩)⟩

/-- C2, the claim as stated fails: every stock of the sample inventory is at least zero, and
after `UpdateStock` of product 1 with the quantity -9223372036854775808, as after the flash
sale purchase with that quantity, the stock of product 1 is -9223372036854775803. -/
theorem stock_nonneg_invariant_counterexample :
    StockNonneg sampleShop.productService ∧
    ((sampleShop.productService.UpdateStock 1 (-9223372036854775808) 0).1.products.get 1).map
      (fun p => p.Stock) = some (-9223372036854775803) ∧
    ¬ StockNonneg (sampleShop.productService.UpdateStock 1 (-9223372036854775808) 0).1 ∧
    ((sampleShop.FlashSalePurchase 1 (-9223372036854775808) 7
      0).1.productService.products.get 1).map (fun p => p.Stock)
        = some (-9223372036854775803) ∧
    ¬ StockNonneg (sampleShop.FlashSalePurchase 1 (-9223372036854775808) 7
      0).1.productService := by
  refine ⟨StockNonneg_of_forall_mem _ (by decide), by decide, ?_, by decide, ?_⟩
  · intro h
    have h1 := h 1 (sampleProduct 1 (-9223372036854775803)) (by decide)
    exact absurd h1 (by decide)
  · intro h
    have h1 := h 1 (sampleProduct 1 (-9223372036854775803)) (by decide)
    exact absurd h1 (by decide)

/-- C2 as amended: when every product's stock is at least zero, it still is after any call of
`UpdateStock`, `tryReserveInventory` (on a map, which holds every key once), `CreateOrderSafe`,
`CreateOrderBatchCheck` or `FlashSalePurchase` whose quantities (the quantity argument, the
quantities of the map, the quantities of the line items of the cart) are at least zero,
whatever the other arguments and the outcome. -/
theorem stock_nonneg_invariant (s : OrderService) (h : StockNonneg s.productService) :
    (∀ productID quantity now : Int, 0 ≤ quantity →
      StockNonneg (s.productService.UpdateStock productID quantity now).1) ∧
    (∀ productQuantities : GoMap Int Int, GoMap.WF productQuantities →
      (∀ e ∈ productQuantities, 0 ≤ e.2) →
      StockNonneg (s.tryReserveInventory productQuantities).1.productService) ∧
    (∀ (cartID : String) (userID : Int) (address paymentMethod : String) (now : Int),
      (∀ cart, s.cartService.GetCart cartID = some cart →
        ∀ item ∈ cart.Items, 0 ≤ item.Quantity) →
      StockNonneg (s.CreateOrderSafe cartID userID address paymentMethod now).1.productService) ∧
    (∀ (cartID : String) (userID now : Int),
      (∀ cart, s.cartService.GetCart cartID = some cart →
        ∀ item ∈ cart.Items, 0 ≤ item.Quantity) →
      StockNonneg (s.CreateOrderBatchCheck cartID userID now).1.productService) ∧
    (∀ productID quantity userID now : Int, 0 ≤ quantity →
      StockNonneg (s.FlashSalePurchase productID quantity userID now).1.productService) := by
  refine ⟨fun productID quantity now hq => UpdateStock_StockNonneg _ _ _ _ hq h,
    fun pq hwf hq => tryReserveInventory_StockNonneg s pq hwf hq h, ?_, ?_, ?_⟩
  · intro cartID userID address paymentMethod now hq
    unfold OrderService.CreateOrderSafe
    rcases Option.eq_none_or_eq_some (s.cartService.GetCart cartID) with hc | ⟨cart, hc⟩
    · rw [hc]; exact h
    · rw [hc]
      simp only
      split_ifs
      · exact h
      · exact h
      · cases hs : safeCheckItems s.productService cart.Items [] [] 0 with
        | productNotFound productID => exact h
        | insufficientStock name => exact h
        | passed productsToUpdate orderItems total =>
          simp only
          obtain ⟨_, hu, _⟩ := safeCheckItems_passed _ _ _ _ _ _ _ _ hs
          have hq1 : ∀ e ∈ productsToUpdate, 0 ≤ e.2 := by
            intro e he
            rw [hu, List.nil_append] at he
            obtain ⟨item, hitem, rfl⟩ := List.mem_map.mp he
            exact hq cart hc item hitem
          have h1 := safeUpdateItems_StockNonneg now productsToUpdate s.productService hq1 h
          rcases hres : safeUpdateItems now s.productService productsToUpdate with ⟨ps1, r⟩
          rw [hres] at h1
          cases r with
          | some productID => exact h1
          | none => exact h1
  · intro cartID userID now hq
    unfold OrderService.CreateOrderBatchCheck
    rcases Option.eq_none_or_eq_some (s.cartService.GetCart cartID) with hc | ⟨cart, hc⟩
    · rw [hc]; exact h
    · rw [hc]
      simp only
      cases hb : batchCollectItems s.productService cart.Items [] [] 0 with
      | error productID => exact h
      | ok res =>
        obtain ⟨pq, orderItems, total⟩ := res
        have hwf : GoMap.WF pq :=
          batchCollectItems_WF _ _ _ _ _ _ _ _ (by simp [GoMap.WF, GoMap.keys]) hb
        have hq1 : ∀ e ∈ pq, 0 ≤ e.2 :=
          batchCollectItems_nonneg _ _ _ _ _ _ _ _ hb (by simp) (hq cart hc)
        have h1 := tryReserveInventory_StockNonneg s pq hwf hq1 h
        simp only
        rcases hres : s.tryReserveInventory pq with ⟨s1, ok⟩
        rw [hres] at h1
        cases ok with
        | false => exact h1
        | true => exact h1
  · intro productID quantity userID now hq
    unfold OrderService.FlashSalePurchase
    cases s.productService.GetProductByID productID with
    | none => exact h
    | some product =>
      simp only
      split_ifs
      · exact h
      · exact UpdateStock_StockNonneg _ _ _ _ hq h
      · exact UpdateStock_StockNonneg _ _ _ _ hq h

/-- C2 as amended, at an instance: the sample inventory has stocks 5 and 1, and after a flash
sale purchase of 2 of product 1 every stock is still at least zero. -/
theorem stock_nonneg_invariant_witness :
    StockNonneg sampleShop.productService ∧
    StockNonneg (sampleShop.FlashSalePurchase 1 2 7 0).1.productService :=
  ⟨StockNonneg_of_forall_mem _ (by decide),
    (stock_nonneg_invariant sampleShop (StockNonneg_of_forall_mem _ (by decide))).2.2.2.2 1 2 7 0
      (by decide)⟩

/-- C3: for a product of stock `S` at least zero and every sequence of `UpdateStock` and
`tryReserveInventory` calls, each one step, the product stays in the inventory and the sum of
the quantities the successful calls took from it is at most `S`. -/
theorem no_oversell (s : OrderService) (id : Int) (p : Product) (calls : List StockCall)
    (hp : s.productService.products.get id = some p) (hS : 0 ≤ p.Stock)
    (hwf : ∀ c ∈ calls, c.WF) :
    (runStockCalls id s calls).2 ≤ p.Stock ∧
    ∃ p1, (runStockCalls id s calls).1.productService.products.get id = some p1 := by
  obtain ⟨hp1, hs1⟩ := runStockCalls_stock id calls s p 0 hwf hp (Or.inl ⟨rfl, hS⟩)
  exact ⟨by omega, hp1⟩

/-- C3 at an instance: on product 1 of stock 5, `UpdateStock` of 3 succeeds, a reservation of
3 fails and `UpdateStock` of 2 succeeds: 5 are taken, not more.  And after `UpdateStock` with
the least `int`, which wraps the stock around to -9223372036854775803, `UpdateStock` of 3
fails: the sum taken is the least `int`. -/
theorem no_oversell_witness :
    (runStockCalls 1 sampleShop
      [.updateStock 1 3 0, .reserve [(1, 3), (2, 1)], .updateStock 1 2 0]).2 = 5 ∧
    (runStockCalls 1 sampleShop
      [.updateStock 1 3 0, .reserve [(1, 3), (2, 1)], .updateStock 1 2 0]).2 ≤ 5 ∧
    (runStockCalls 1 sampleShop
      [.updateStock 1 (-9223372036854775808) 0, .updateStock 1 3 0]).2
      = -9223372036854775808 ∧
    ((runStockCalls 1 sampleShop
      [.updateStock 1 (-9223372036854775808) 0, .updateStock 1 3 0]).1.productService.products.get
        1).map (fun p => p.Stock) = some (-9223372036854775803) :=
  ⟨by decide,
    (no_oversell sampleShop 1 (sampleProduct 1 5)
      [.updateStock 1 3 0, .reserve [(1, 3), (2, 1)], .updateStock 1 2 0]
      (by decide) (by decide) (by decide)).1,
    by decide, by decide⟩

/-- C4, the claim as stated fails: product 1 of the sample inventory has stock 5;
`tryReserveInventory` on the map of product 1 to the quantity -9223372036854775808, the least
`int`, returns `true`, and the stock afterwards is -9223372036854775803, not 5 minus the
quantity, which is 9223372036854775813. -/
theorem tryReserveInventory_all_or_nothing_counterexample :
    GoMap.WF [((1 : Int), (-9223372036854775808 : Int))] ∧
    (sampleShop.productService.products.get 1).map (fun p => p.Stock) = some 5 ∧
    (sampleShop.tryReserveInventory [(1, -9223372036854775808)]).2 = true ∧
    ((sampleShop.tryReserveInventory
      [(1, -9223372036854775808)]).1.productService.products.get 1).map
        (fun p => p.Stock) = some (-9223372036854775803) ∧
    ((sampleShop.tryReserveInventory
      [(1, -9223372036854775808)]).1.productService.products.get 1).map
        (fun p => p.Stock) ≠ some (5 - (-9223372036854775808)) := by
  refine ⟨by decide, by decide, by decide, by decide, by decide⟩

/-- C4 as amended: for a map of quantities, `tryReserveInventory` returns `true` exactly when
every entry's product exists with a stock of at least the entry's quantity; then the stock of
every listed product becomes Go's `stock - quantity` (for `int` operands the difference
wrapped around to 64 bits; exactly the stock minus the quantity whenever that difference is
an `int`, so for every quantity at least zero) and every unlisted product is as before; when
it returns `false` the service is as before. -/
theorem tryReserveInventory_all_or_nothing (s : OrderService) (pq : GoMap Int Int)
    (hwf : GoMap.WF pq) :
    ((s.tryReserveInventory pq).2 = true ↔
      ∀ id q, pq.get id = some q →
        ∃ p, s.productService.products.get id = some p ∧ q ≤ p.Stock) ∧
    ((s.tryReserveInventory pq).2 = true →
      (∀ id q, pq.get id = some q →
        ∃ p, s.productService.products.get id = some p ∧
          (s.tryReserveInventory pq).1.productService.products.get id =
            some { p with Stock := goSub p.Stock q } ∧
          (IsInt64 p.Stock → IsInt64 q → goSub p.Stock q = wrap64 (p.Stock - q)) ∧
          (IsInt64 (p.Stock - q) → goSub p.Stock q = p.Stock - q) ∧
          (0 ≤ q → goSub p.Stock q = p.Stock - q)) ∧
      (∀ id, pq.get id = none →
        (s.tryReserveInventory pq).1.productService.products.get id =
          s.productService.products.get id)) ∧
    ((s.tryReserveInventory pq).2 = false → (s.tryReserveInventory pq).1 = s) := by
  have hiff : reserveCheck s.productService.products pq = true ↔
      ∀ id q, pq.get id = some q →
        ∃ p, s.productService.products.get id = some p ∧ q ≤ p.Stock := by
    rw [reserveCheck_iff]
    constructor
    · intro h id q hq
      exact h (id, q) (GoMap.mem_of_get pq id q hq)
    · intro h e he
      exact h e.1 e.2 (GoMap.get_of_mem pq hwf e.1 e.2 he)
  rw [tryReserveInventory_of_WF s pq hwf]
  by_cases hc : reserveCheck s.productService.products pq = true
  · simp only [hc, if_true, true_iff, forall_true_left]
    have hall := (reserveCheck_iff _ pq).mp hc
    have hex : ∀ e ∈ pq, ∃ p, s.productService.products.get e.1 = some p := fun e he =>
      let ⟨p, hp, _⟩ := hall e he
      ⟨p, hp⟩
    refine ⟨hiff.mp hc, ⟨?_, ?_⟩, by simp⟩
    · intro id q hq
      obtain ⟨p, hp, hle⟩ := hiff.mp hc id q hq
      refine ⟨p, hp, ?_, fun h1 h2 => goSub_int64 _ _ h1 h2,
        fun h1 => goSub_of_fits _ _ h1, fun h1 => goSub_of_le _ _ h1 hle⟩
      rw [reserveApply_get pq _ hwf hex id, hq, hp]
      rfl
    · intro id hq
      rw [reserveApply_get pq _ hwf hex id, hq]
  · simp only [hc]
    refine ⟨?_, by simp, by simp⟩
    constructor
    · intro h; exact absurd h (by simp)
    · intro h; exact absurd (hiff.mpr h) hc

/-- C4 as amended, at an instance: product 1 has stock 5 and product 2 has stock 1; reserving
2 of product 1 and 3 of product 2 fails and leaves both stocks as they were. -/
theorem tryReserveInventory_all_or_nothing_witness :
    GoMap.WF [((1 : Int), (2 : Int)), (2, 3)] ∧
    (sampleShop.tryReserveInventory [(1, 2), (2, 3)]).2 = false ∧
    (sampleShop.tryReserveInventory [(1, 2), (2, 3)]).1 = sampleShop ∧
    ((sampleShop.tryReserveInventory [(1, 2), (2, 3)]).1.productService.products.get 1).map
      (fun p => p.Stock) = some 5 ∧
    ((sampleShop.tryReserveInventory [(1, 2), (2, 3)]).1.productService.products.get 2).map
      (fun p => p.Stock) = some 1 :=
  ⟨by decide, by decide,
    (tryReserveInventory_all_or_nothing sampleShop [(1, 2), (2, 3)] (by decide)).2.2 (by decide),
    by decide, by decide⟩

/-- C5: on a cart that exists, `AddToCartOptimistic` returns the version-conflict error
exactly when the cart's version differs from the expected version, and then the cart store is
as before; when the versions agree it succeeds, the stored cart has the items that
`AddToCartWithLock` gives for the same arguments (the add-or-merge) and the version
`expectedVersion + 1`, and every other cart is as before. -/
theorem AddToCartOptimistic_contract (s : CartService) (cartID : String) (cart : Cart)
    (h : s.carts.get cartID = some cart) (productID quantity : Int) (productPrice : Rat)
    (productName : String) (version now : Int) :
    ((s.AddToCartOptimistic cartID productID quantity productPrice productName version now).2 =
        .error "cart was modified by another request" ↔ cart.Version ≠ version) ∧
    (cart.Version ≠ version →
      (s.AddToCartOptimistic cartID productID quantity productPrice productName version now).1
        = s) ∧
    (cart.Version = version →
      ∃ cartL cart1,
        (s.AddToCartWithLock cartID productID quantity productPrice productName now).2 =
          .ok cartL ∧
        (s.AddToCartOptimistic cartID productID quantity productPrice productName version
          now).2 = .ok cart1 ∧
        (s.AddToCartOptimistic cartID productID quantity productPrice productName version
          now).1.carts.get cartID = some cart1 ∧
        cart1.Items = cartL.Items ∧
        cart1.Items = mergedItems productID quantity productPrice productName now cart.Items ∧
        cart1.Version = version + 1 ∧
        (∀ other, other ≠ cartID →
          (s.AddToCartOptimistic cartID productID quantity productPrice productName version
            now).1.carts.get other = s.carts.get other) ∧
        (s.AddToCartOptimistic cartID productID quantity productPrice productName version
          now).1.userCarts = s.userCarts) := by
  by_cases hv : cart.Version = version
  · rw [AddToCartOptimistic_eq s cartID cart h _ _ _ _ _ _ hv,
      AddToCartWithLock_eq s cartID cart h]
    refine ⟨by simp [hv], fun hne => absurd hv hne,
      fun _ => ⟨_, _, rfl, rfl, ?_, rfl, rfl, ?_, ?_, rfl⟩⟩
    · exact GoMap.get_set_self _ _ _
    · simp [cartAfterOptimisticAdd, hv]
    · intro other hne
      exact GoMap.get_set_ne _ _ (Ne.symm hne)
  · rw [AddToCartOptimistic_conflict s cartID cart h _ _ _ _ _ _ hv]
    exact ⟨by simp [hv], fun _ => rfl, fun he => absurd he hv⟩

/-- C5 at an instance: the cart of user 7 has version 1; an optimistic add that expects
version 1 succeeds and leaves version 2. -/
theorem AddToCartOptimistic_contract_witness :
    sampleCarts.carts.get "cart_7_0" =
      some { ID := "cart_7_0", UserID := 7, Items := [], CreatedAt := 0, UpdatedAt := 0,
             Version := 1 } ∧
    ((sampleCarts.AddToCartOptimistic "cart_7_0" 3 1 2 "Product" 1 5).1.carts.get
      "cart_7_0").map (fun c => c.Version) = some 2 ∧
    ((sampleCarts.AddToCartOptimistic "cart_7_0" 3 1 2 "Product" 2 5).1 = sampleCarts) :=
  ⟨by decide, by decide,
    (AddToCartOptimistic_contract sampleCarts "cart_7_0"
      { ID := "cart_7_0", UserID := 7, Items := [], CreatedAt := 0, UpdatedAt := 0,
        Version := 1 } (by decide) 3 1 2 "Product" 2 5).2.1 (by decide)⟩

/-- C6: of two `AddToCartOptimistic` calls with the same expected version, run one after the
other on a cart that exists, at most one succeeds; when the cart has that version the first
succeeds, the second returns the version-conflict error and changes nothing, and the cart
ends as the first call left it, at version `expectedVersion + 1`. -/
theorem optimistic_exclusivity (s : CartService) (cartID : String) (cart : Cart)
    (h : s.carts.get cartID = some cart) (version : Int)
    (productID1 quantity1 : Int) (price1 : Rat) (name1 : String) (now1 : Int)
    (productID2 quantity2 : Int) (price2 : Rat) (name2 : String) (now2 : Int) :
    ¬ ((∃ c, (s.AddToCartOptimistic cartID productID1 quantity1 price1 name1 version now1).2
          = .ok c) ∧
       (∃ c, ((s.AddToCartOptimistic cartID productID1 quantity1 price1 name1 version
          now1).1.AddToCartOptimistic cartID productID2 quantity2 price2 name2 version now2).2
          = .ok c)) ∧
    (cart.Version = version →
      ∃ c1, (s.AddToCartOptimistic cartID productID1 quantity1 price1 name1 version now1).2
          = .ok c1 ∧
        ((s.AddToCartOptimistic cartID productID1 quantity1 price1 name1 version
          now1).1.AddToCartOptimistic cartID productID2 quantity2 price2 name2 version now2).2
          = .error "cart was modified by another request" ∧
        ((s.AddToCartOptimistic cartID productID1 quantity1 price1 name1 version
          now1).1.AddToCartOptimistic cartID productID2 quantity2 price2 name2 version now2).1
          = (s.AddToCartOptimistic cartID productID1 quantity1 price1 name1 version now1).1 ∧
        ((s.AddToCartOptimistic cartID productID1 quantity1 price1 name1 version
          now1).1.AddToCartOptimistic cartID productID2 quantity2 price2 name2 version
          now2).1.carts.get cartID = some c1 ∧
        c1.Version = version + 1 ∧
        c1.Items = mergedItems productID1 quantity1 price1 name1 now1 cart.Items) := by
  by_cases hv : cart.Version = version
  · rw [AddToCartOptimistic_eq s cartID cart h _ _ _ _ _ _ hv]
    have hget : (storeCart s cartID
        (cartAfterOptimisticAdd cart productID1 quantity1 price1 name1 now1)).carts.get cartID =
        some (cartAfterOptimisticAdd cart productID1 quantity1 price1 name1 now1) :=
      GoMap.get_set_self _ _ _
    have hne : (cartAfterOptimisticAdd cart productID1 quantity1 price1 name1 now1).Version
        ≠ version := by
      show cart.Version + 1 ≠ version
      omega
    have h2 := AddToCartOptimistic_conflict
      (storeCart s cartID (cartAfterOptimisticAdd cart productID1 quantity1 price1 name1 now1))
      cartID _ hget productID2 quantity2 price2 name2 version now2 hne
    simp only at h2 ⊢
    rw [h2]
    refine ⟨?_, fun _ => ⟨_, rfl, rfl, rfl, hget, by simp [cartAfterOptimisticAdd, hv], rfl⟩⟩
    rintro ⟨_, c, hc⟩
    exact Except.noConfusion hc
  · rw [AddToCartOptimistic_conflict s cartID cart h _ _ _ _ _ _ hv]
    refine ⟨?_, fun he => absurd he hv⟩
    rintro ⟨⟨c, hc⟩, _⟩
    exact Except.noConfusion hc

/-- C6 at an instance: the new cart of user 7 has version 1; of two adds that expect version
1 the first succeeds, the second gets the version-conflict error, and the cart ends at
version 2 with the one item of the first add. -/
theorem optimistic_exclusivity_witness :
    ((sampleCarts.AddToCartOptimistic "cart_7_0" 3 1 2 "Product" 1
      5).1.AddToCartOptimistic "cart_7_0" 4 2 9 "Other" 1 6).2
      = .error "cart was modified by another request" ∧
    (((sampleCarts.AddToCartOptimistic "cart_7_0" 3 1 2 "Product" 1
      5).1.AddToCartOptimistic "cart_7_0" 4 2 9 "Other" 1 6).1.carts.get "cart_7_0").map
        (fun c => (c.Version, c.Items.map (fun i => (i.ProductID, i.Quantity))))
      = some (2, [(3, 1)]) ∧
    ¬ ((∃ c, (sampleCarts.AddToCartOptimistic "cart_7_0" 3 1 2 "Product" 1 5).2 = .ok c) ∧
       (∃ c, ((sampleCarts.AddToCartOptimistic "cart_7_0" 3 1 2 "Product" 1
          5).1.AddToCartOptimistic "cart_7_0" 4 2 9 "Other" 1 6).2 = .ok c)) :=
  ⟨by rfl, by decide,
    (optimistic_exclusivity sampleCarts "cart_7_0"
      { ID := "cart_7_0", UserID := 7, Items := [], CreatedAt := 0, UpdatedAt := 0,
        Version := 1 } (by decide) 1 3 1 2 "Product" 5 4 2 9 "Other" 6).1⟩

/-- C7, the claim as stated fails: the cart of user 7 holds one line of product 3 with the
quantity 9223372036854775807, the greatest `int`; after `AddToCartWithLock` of product 3 with
the quantity 1 the quantity of the line is -9223372036854775808, not the old quantity
plus 1. -/
theorem AddToCartWithLock_add_or_merge_counterexample :
    ((sampleCarts.AddToCartWithLock "cart_7_0" 3 9223372036854775807 2 "Product"
      1).1.carts.get "cart_7_0").map
        (fun c => c.Items.map (fun i => (i.ProductID, i.Quantity)))
      = some [(3, 9223372036854775807)] ∧
    (((sampleCarts.AddToCartWithLock "cart_7_0" 3 9223372036854775807 2 "Product"
      1).1.AddToCartWithLock "cart_7_0" 3 1 2 "Product" 2).1.carts.get "cart_7_0").map
        (fun c => c.Items.map (fun i => (i.ProductID, i.Quantity)))
      = some [(3, -9223372036854775808)] ∧
    (((sampleCarts.AddToCartWithLock "cart_7_0" 3 9223372036854775807 2 "Product"
      1).1.AddToCartWithLock "cart_7_0" 3 1 2 "Product" 2).1.carts.get "cart_7_0").map
        (fun c => c.Items.map (fun i => (i.ProductID, i.Quantity)))
      ≠ some [(3, 9223372036854775807 + 1)] := by
  refine ⟨by decide, by decide, by decide⟩

/-- C7 as amended: on a cart that exists `AddToCartWithLock` succeeds and stores the cart it
returns.  If a line item has the product id, the first such item gets Go's
`old quantity + quantity` as its quantity (for `int` operands the sum wrapped around to 64
bits; exactly the old quantity plus the quantity whenever that sum is an `int`) and its price
set to the price, and the items before and after it, its name and the number of items are as
before; if no line item has the product id, the items are the old items followed by the one
new item. -/
theorem AddToCartWithLock_add_or_merge (s : CartService) (cartID : String) (cart : Cart)
    (h : s.carts.get cartID = some cart) (productID quantity : Int) (productPrice : Rat)
    (productName : String) (now : Int) :
    ∃ cart1,
      (s.AddToCartWithLock cartID productID quantity productPrice productName now).2
        = .ok cart1 ∧
      (s.AddToCartWithLock cartID productID quantity productPrice productName now).1.carts.get
        cartID = some cart1 ∧
      ((∃ item ∈ cart.Items, item.ProductID = productID) →
        ∃ pre item post, cart.Items = pre ++ item :: post ∧
          (∀ x ∈ pre, x.ProductID ≠ productID) ∧ item.ProductID = productID ∧
          cart1.Items =
            pre ++ { item with Quantity := goAdd item.Quantity quantity,
                               Price := productPrice } :: post ∧
          (IsInt64 item.Quantity → IsInt64 quantity →
            goAdd item.Quantity quantity = wrap64 (item.Quantity + quantity)) ∧
          (IsInt64 (item.Quantity + quantity) →
            goAdd item.Quantity quantity = item.Quantity + quantity) ∧
          cart1.Items.length = cart.Items.length) ∧
      ((∀ item ∈ cart.Items, item.ProductID ≠ productID) →
        cart1.Items = cart.Items ++
          [{ ProductID := productID, Quantity := quantity, Price := productPrice,
             Name := productName, AddedAt := now }]) := by
  rw [AddToCartWithLock_eq s cartID cart h]
  refine ⟨_, rfl, storeCart_get_self _ _ _, ?_, ?_⟩
  · rintro ⟨item, hmem, hid⟩
    cases hr : addToExisting productID quantity productPrice cart.Items with
    | none => exact absurd hid ((addToExisting_none _ _ _ _).mp hr item hmem)
    | some r =>
      obtain ⟨pre, it, post, hitems, hpre, hit, hres⟩ := addToExisting_some _ _ _ _ r hr
      have hm : (cartAfterAdd cart productID quantity productPrice productName now).Items
          = r := by
        simp [cartAfterAdd, mergedItems, hr]
      refine ⟨pre, it, post, hitems, hpre, hit, ?_, fun h1 h2 => goAdd_int64 _ _ h1 h2,
        fun h1 => goAdd_of_fits _ _ h1, ?_⟩
      · rw [hm, hres]
      · rw [hm, hres, hitems]
        simp
  · intro hno
    have hr := (addToExisting_none productID quantity productPrice cart.Items).mpr hno
    simp [cartAfterAdd, mergedItems, hr]

/-- C7 as amended, at an instance: in the cart of user 7, product 3 is added with quantity 1
and then with quantity 2; the cart ends with one line, of product 3 with quantity 3. -/
theorem AddToCartWithLock_add_or_merge_witness :
    (sampleCarts.AddToCartWithLock "cart_7_0" 3 1 2 "Product" 1).1.carts.get "cart_7_0" =
      some { ID := "cart_7_0", UserID := 7,
             Items := [{ ProductID := 3, Quantity := 1, Price := 2, Name := "Product",
                         AddedAt := 1 }],
             CreatedAt := 0, UpdatedAt := 1, Version := 1 } ∧
    (∃ cart1, ((sampleCarts.AddToCartWithLock "cart_7_0" 3 1 2 "Product"
      1).1.AddToCartWithLock "cart_7_0" 3 2 2 "Product" 2).2 = .ok cart1) ∧
    (((sampleCarts.AddToCartWithLock "cart_7_0" 3 1 2 "Product"
      1).1.AddToCartWithLock "cart_7_0" 3 2 2 "Product" 2).1.carts.get "cart_7_0").map
        (fun c => c.Items.map (fun i => (i.ProductID, i.Quantity))) = some [(3, 3)] :=
  ⟨by decide,
    (AddToCartWithLock_add_or_merge
      (sampleCarts.AddToCartWithLock "cart_7_0" 3 1 2 "Product" 1).1 "cart_7_0"
      { ID := "cart_7_0", UserID := 7,
        Items := [{ ProductID := 3, Quantity := 1, Price := 2, Name := "Product",
                    AddedAt := 1 }],
        CreatedAt := 0, UpdatedAt := 1, Version := 1 }
      (by decide) 3 2 2 "Product" 2).imp (fun _ hc => hc.1),
    by decide⟩

/-- C8, the claim as stated fails: the cart of user 7 holds one line, of product 3 with the
quantity 9223372036854775807; after one `AddToCartWithLock` call for product 3 with the
quantity 1 the quantity of the line is -9223372036854775808, not 9223372036854775807 plus
1. -/
theorem no_lost_updates_counterexample :
    DistinctProducts [(⟨3, 9223372036854775807, 2, "Product", 1⟩ : CartItem)] ∧
    ((sampleCarts.AddToCartWithLock "cart_7_0" 3 9223372036854775807 2 "Product"
      1).1.carts.get "cart_7_0").map (fun c => c.Items)
      = some [{ ProductID := 3, Quantity := 9223372036854775807, Price := 2,
                Name := "Product", AddedAt := 1 }] ∧
    ((addAllWithLock "cart_7_0" 3
      (sampleCarts.AddToCartWithLock "cart_7_0" 3 9223372036854775807 2 "Product" 1).1
      [⟨1, 2, "Product", 2⟩]).carts.get "cart_7_0").map
        (fun c => c.Items.map (fun i => (i.ProductID, i.Quantity)))
      = some [(3, -9223372036854775808)] ∧
    (-9223372036854775808 : Int) ≠ 9223372036854775807 + 1 := by
  refine ⟨by decide, by decide, by decide, by decide⟩

/-- C8 as amended: on a cart of pairwise distinct product ids, after one or more
`AddToCartWithLock` calls for one product, run one after the other, the cart has exactly one
line item of the product, and its quantity is the quantity the product had before (zero if it
had no line) plus the sum of the quantities of the calls, wrapped around to 64 bits: it is
exactly that sum whenever the sum is an `int`.  The same holds for `AddToCartOptimistic` calls
that are each given the current version of the cart.  (The quantities are `int` values.) -/
theorem no_lost_updates (s : CartService) (cartID : String) (cart : Cart)
    (h : s.carts.get cartID = some cart) (hd : DistinctProducts cart.Items)
    (productID : Int) (c : AddCall) (cs : List AddCall)
    (h0 : IsInt64 (quantityOf productID cart.Items))
    (hq : ∀ a ∈ c :: cs, IsInt64 a.quantity) :
    (∃ cart1 item, (addAllWithLock cartID productID s (c :: cs)).carts.get cartID = some cart1 ∧
      linesOf productID cart1.Items = [item] ∧
      item.Quantity = wrap64
        (quantityOf productID cart.Items + ((c :: cs).map (fun a => a.quantity)).sum) ∧
      (IsInt64 (quantityOf productID cart.Items + ((c :: cs).map (fun a => a.quantity)).sum) →
        item.Quantity =
          quantityOf productID cart.Items + ((c :: cs).map (fun a => a.quantity)).sum)) ∧
    (∃ cart1 item, (addAllOptimistic cartID productID s (c :: cs)).carts.get cartID
        = some cart1 ∧
      linesOf productID cart1.Items = [item] ∧
      item.Quantity = wrap64
        (quantityOf productID cart.Items + ((c :: cs).map (fun a => a.quantity)).sum) ∧
      (IsInt64 (quantityOf productID cart.Items + ((c :: cs).map (fun a => a.quantity)).sum) →
        item.Quantity =
          quantityOf productID cart.Items + ((c :: cs).map (fun a => a.quantity)).sum)) := by
  obtain ⟨cart1, item1, hg1, hl1, hq1⟩ :=
    foldl_add_steps cartID productID (stepWithLock cartID productID)
      (fun s cart c hg => stepWithLock_items cartID productID s cart c hg) cs c s cart h hd h0 hq
  obtain ⟨cart2, item2, hg2, hl2, hq2⟩ :=
    foldl_add_steps cartID productID (stepOptimistic cartID productID)
      (fun s cart c hg => stepOptimistic_items cartID productID s cart c hg) cs c s cart h hd
      h0 hq
  exact ⟨⟨cart1, item1, hg1, hl1, hq1, fun hf => by rw [hq1, wrap64_of_IsInt64 _ hf]⟩,
    ⟨cart2, item2, hg2, hl2, hq2, fun hf => by rw [hq2, wrap64_of_IsInt64 _ hf]⟩⟩

/-- C8 as amended, at an instance: three adds of product 3 with quantities 1, 2 and 4 to the
new cart of user 7 leave one line of quantity 7, with the lock and with the versions. -/
theorem no_lost_updates_witness :
    DistinctProducts ([] : List CartItem) ∧
    ((addAllWithLock "cart_7_0" 3 sampleCarts
        [⟨1, 2, "Product", 1⟩, ⟨2, 2, "Product", 2⟩, ⟨4, 2, "Product", 3⟩]).carts.get
      "cart_7_0").map (fun c => c.Items.map (fun i => (i.ProductID, i.Quantity)))
      = some [(3, 7)] ∧
    ((addAllOptimistic "cart_7_0" 3 sampleCarts
        [⟨1, 2, "Product", 1⟩, ⟨2, 2, "Product", 2⟩, ⟨4, 2, "Product", 3⟩]).carts.get
      "cart_7_0").map (fun c => c.Items.map (fun i => (i.ProductID, i.Quantity)))
      = some [(3, 7)] ∧
    (∃ cart1 item, (addAllWithLock "cart_7_0" 3 sampleCarts
        [⟨1, 2, "Product", 1⟩, ⟨2, 2, "Product", 2⟩, ⟨4, 2, "Product", 3⟩]).carts.get
      "cart_7_0" = some cart1 ∧ linesOf 3 cart1.Items = [item] ∧
      item.Quantity = quantityOf 3 [] + (1 + (2 + (4 + 0)))) :=
  ⟨by decide, by decide, by decide,
    (no_lost_updates sampleCarts "cart_7_0"
      { ID := "cart_7_0", UserID := 7, Items := [], CreatedAt := 0, UpdatedAt := 0,
        Version := 1 } (by decide) (by decide) 3
      ⟨1, 2, "Product", 1⟩ [⟨2, 2, "Product", 2⟩, ⟨4, 2, "Product", 3⟩]
      (by decide) (by decide)).1.imp
      (fun _ hc => hc.imp (fun _ hi => ⟨hi.1, hi.2.1, hi.2.2.2 (by decide)⟩))⟩

/-- C9: a cart made by `CreateCart` has no items, and when every cart of the store has
pairwise distinct product ids, every cart still has after `CreateCart` and after any call of
`AddToCartNoLock`, `AddToCartWithLock`, `AddToCartOptimistic`, `UpdateCartItemQuantityRace` or
`UpdateCartItemQuantitySafe`, each run as one step. -/
theorem one_line_per_product (s : CartService) (h : CartsDistinct s) :
    (∀ userID now : Int,
      (s.CreateCart userID now).2.Items = [] ∧ CartsDistinct (s.CreateCart userID now).1) ∧
    (∀ (cartID : String) (productID quantity : Int) (price : Rat) (name : String) (now : Int),
      CartsDistinct (s.AddToCartNoLock cartID productID quantity price name now).1) ∧
    (∀ (cartID : String) (productID quantity : Int) (price : Rat) (name : String) (now : Int),
      CartsDistinct (s.AddToCartWithLock cartID productID quantity price name now).1) ∧
    (∀ (cartID : String) (productID quantity : Int) (price : Rat) (name : String)
      (version now : Int),
      CartsDistinct (s.AddToCartOptimistic cartID productID quantity price name version now).1) ∧
    (∀ (cartID : String) (productID quantity now : Int),
      CartsDistinct (s.UpdateCartItemQuantityRace cartID productID quantity now).1) ∧
    (∀ (cartID : String) (productID quantity now : Int),
      CartsDistinct (s.UpdateCartItemQuantitySafe cartID productID quantity now).1) := by
  have hupd : ∀ (cart : Cart) (productID quantity now : Int) (cartID : String),
      s.carts.get cartID = some cart →
      CartsDistinct (match setExisting productID quantity cart.Items with
        | some items =>
          (storeCart s cartID (cartAfterUpdate cart items now),
            (Except.ok (cartAfterUpdate cart items now) : Except String Cart))
        | none => (s, .error "product not found in cart")).1 := by
    intro cart productID quantity now cartID hget
    cases hr : setExisting productID quantity cart.Items with
    | none => exact h
    | some items =>
      refine CartsDistinct_storeCart s cartID _ h ?_
      show DistinctProducts items
      unfold DistinctProducts
      rw [setExisting_ids _ _ _ _ hr]
      exact h cartID cart hget
  refine ⟨?_, ?_, ?_, ?_, ?_, ?_⟩
  · intro userID now
    refine ⟨rfl, ?_⟩
    exact CartsDistinct_storeCart
      { carts := s.carts, userCarts := s.userCarts.set userID _ } _ _ h
      (by simp [DistinctProducts])
  · intro cartID productID quantity price name now
    cases hget : s.carts.get cartID with
    | none => simpa [CartService.AddToCartNoLock, hget] using h
    | some cart =>
      rw [AddToCartNoLock_eq s cartID cart hget]
      exact CartsDistinct_storeCart s cartID _ h
        (mergedItems_DistinctProducts _ _ _ _ _ _ (h cartID cart hget))
  · intro cartID productID quantity price name now
    cases hget : s.carts.get cartID with
    | none => simpa [CartService.AddToCartWithLock, hget] using h
    | some cart =>
      rw [AddToCartWithLock_eq s cartID cart hget]
      exact CartsDistinct_storeCart s cartID _ h
        (mergedItems_DistinctProducts _ _ _ _ _ _ (h cartID cart hget))
  · intro cartID productID quantity price name version now
    cases hget : s.carts.get cartID with
    | none => simpa [CartService.AddToCartOptimistic, hget] using h
    | some cart =>
      by_cases hv : cart.Version = version
      · rw [AddToCartOptimistic_eq s cartID cart hget _ _ _ _ _ _ hv]
        exact CartsDistinct_storeCart s cartID _ h
          (mergedItems_DistinctProducts _ _ _ _ _ _ (h cartID cart hget))
      · rw [AddToCartOptimistic_conflict s cartID cart hget _ _ _ _ _ _ hv]
        exact h
  · intro cartID productID quantity now
    cases hget : s.carts.get cartID with
    | none => simpa [CartService.UpdateCartItemQuantityRace, hget] using h
    | some cart =>
      rw [UpdateCartItemQuantityRace_eq s cartID cart hget]
      exact hupd cart productID quantity now cartID hget
  · intro cartID productID quantity now
    cases hget : s.carts.get cartID with
    | none => simpa [CartService.UpdateCartItemQuantitySafe, hget] using h
    | some cart =>
      rw [UpdateCartItemQuantitySafe_eq s cartID cart hget]
      exact hupd cart productID quantity now cartID hget

/-- C9 at an instance: the store with the new cart of user 7 has distinct product ids in
every cart, and still has after product 3 is added with the lock. -/
theorem one_line_per_product_witness :
    CartsDistinct sampleCarts ∧
    CartsDistinct (sampleCarts.AddToCartWithLock "cart_7_0" 3 1 2 "Product" 1).1 :=
  ⟨CartsDistinct_of_forall_mem _ (by decide),
    (one_line_per_product sampleCarts (CartsDistinct_of_forall_mem _ (by decide))).2.2.1
      "cart_7_0" 3 1 2 "Product" 1⟩

/-- C10, the claim as stated fails: the new cart of user 7 has version 1, `AddToCartWithLock`
succeeds on it, and the version of the cart is still 1, not 2. -/
theorem version_counterexample :
    (sampleCarts.GetCart "cart_7_0").map (fun c => c.Version) = some 1 ∧
    ((sampleCarts.AddToCartWithLock "cart_7_0" 3 1 2 "Product" 1).2.toOption).map
      (fun c => c.Version) = some 1 ∧
    ((sampleCarts.AddToCartWithLock "cart_7_0" 3 1 2 "Product" 1).1.GetCart "cart_7_0").map
      (fun c => c.Version) = some 1 ∧
    ((sampleCarts.AddToCartWithLock "cart_7_0" 3 1 2 "Product" 1).1.GetCart "cart_7_0").map
      (fun c => c.Version) ≠ some (1 + 1) := by
  refine ⟨by decide, by decide, by decide, by decide⟩

/-- C10 as amended: on a cart that exists, a successful `AddToCartOptimistic` leaves the
version of the cart at its previous value plus 1; a successful `AddToCartNoLock`,
`AddToCartWithLock`, `UpdateCartItemQuantityRace` or `UpdateCartItemQuantitySafe` leaves the
version as it was; a failed call of any of the five leaves the whole store as it was. -/
theorem version_after_mutation (s : CartService) (cartID : String) (cart : Cart)
    (h : s.carts.get cartID = some cart) :
    (∀ (productID quantity : Int) (price : Rat) (name : String) (version now : Int)
        (cart1 : Cart),
      (s.AddToCartOptimistic cartID productID quantity price name version now).2 = .ok cart1 →
      (s.AddToCartOptimistic cartID productID quantity price name version now).1.carts.get
        cartID = some cart1 ∧ cart1.Version = cart.Version + 1) ∧
    (∀ (productID quantity : Int) (price : Rat) (name : String) (now : Int) (cart1 : Cart),
      (s.AddToCartNoLock cartID productID quantity price name now).2 = .ok cart1 →
      (s.AddToCartNoLock cartID productID quantity price name now).1.carts.get cartID
        = some cart1 ∧ cart1.Version = cart.Version) ∧
    (∀ (productID quantity : Int) (price : Rat) (name : String) (now : Int) (cart1 : Cart),
      (s.AddToCartWithLock cartID productID quantity price name now).2 = .ok cart1 →
      (s.AddToCartWithLock cartID productID quantity price name now).1.carts.get cartID
        = some cart1 ∧ cart1.Version = cart.Version) ∧
    (∀ (productID quantity now : Int) (cart1 : Cart),
      (s.UpdateCartItemQuantityRace cartID productID quantity now).2 = .ok cart1 →
      (s.UpdateCartItemQuantityRace cartID productID quantity now).1.carts.get cartID
        = some cart1 ∧ cart1.Version = cart.Version) ∧
    (∀ (productID quantity now : Int) (cart1 : Cart),
      (s.UpdateCartItemQuantitySafe cartID productID quantity now).2 = .ok cart1 →
      (s.UpdateCartItemQuantitySafe cartID productID quantity now).1.carts.get cartID
        = some cart1 ∧ cart1.Version = cart.Version) ∧
    (∀ (productID quantity : Int) (price : Rat) (name : String) (version now : Int)
        (e : String),
      (s.AddToCartOptimistic cartID productID quantity price name version now).2 = .error e →
      (s.AddToCartOptimistic cartID productID quantity price name version now).1 = s) ∧
    (∀ (productID quantity : Int) (price : Rat) (name : String) (now : Int) (e : String),
      (s.AddToCartNoLock cartID productID quantity price name now).2 = .error e →
      (s.AddToCartNoLock cartID productID quantity price name now).1 = s) ∧
    (∀ (productID quantity : Int) (price : Rat) (name : String) (now : Int) (e : String),
      (s.AddToCartWithLock cartID productID quantity price name now).2 = .error e →
      (s.AddToCartWithLock cartID productID quantity price name now).1 = s) ∧
    (∀ (productID quantity now : Int) (e : String),
      (s.UpdateCartItemQuantityRace cartID productID quantity now).2 = .error e →
      (s.UpdateCartItemQuantityRace cartID productID quantity now).1 = s) ∧
    (∀ (productID quantity now : Int) (e : String),
      (s.UpdateCartItemQuantitySafe cartID productID quantity now).2 = .error e →
      (s.UpdateCartItemQuantitySafe cartID productID quantity now).1 = s) := by
  refine ⟨?_, ?_, ?_, ?_, ?_, ?_, ?_, ?_, ?_, ?_⟩
  · intro productID quantity price name version now cart1
    by_cases hv : cart.Version = version
    · rw [AddToCartOptimistic_eq s cartID cart h _ _ _ _ _ _ hv]
      intro hok
      simp only [Except.ok.injEq] at hok
      subst hok
      exact ⟨storeCart_get_self _ _ _, rfl⟩
    · rw [AddToCartOptimistic_conflict s cartID cart h _ _ _ _ _ _ hv]
      intro hok
      exact Except.noConfusion hok
  · intro productID quantity price name now cart1
    rw [AddToCartNoLock_eq s cartID cart h]
    intro hok
    simp only [Except.ok.injEq] at hok
    subst hok
    exact ⟨storeCart_get_self _ _ _, rfl⟩
  · intro productID quantity price name now cart1
    rw [AddToCartWithLock_eq s cartID cart h]
    intro hok
    simp only [Except.ok.injEq] at hok
    subst hok
    exact ⟨storeCart_get_self _ _ _, rfl⟩
  · intro productID quantity now cart1
    rw [UpdateCartItemQuantityRace_eq s cartID cart h]
    cases setExisting productID quantity cart.Items with
    | none => intro hok; exact Except.noConfusion hok
    | some items =>
      intro hok
      simp only [Except.ok.injEq] at hok
      subst hok
      exact ⟨storeCart_get_self _ _ _, rfl⟩
  · intro productID quantity now cart1
    rw [UpdateCartItemQuantitySafe_eq s cartID cart h]
    cases setExisting productID quantity cart.Items with
    | none => intro hok; exact Except.noConfusion hok
    | some items =>
      intro hok
      simp only [Except.ok.injEq] at hok
      subst hok
      exact ⟨storeCart_get_self _ _ _, rfl⟩
  · intro productID quantity price name version now e
    by_cases hv : cart.Version = version
    · rw [AddToCartOptimistic_eq s cartID cart h _ _ _ _ _ _ hv]
      intro herr
      exact Except.noConfusion herr
    · rw [AddToCartOptimistic_conflict s cartID cart h _ _ _ _ _ _ hv]
      intro _
      rfl
  · intro productID quantity price name now e
    rw [AddToCartNoLock_eq s cartID cart h]
    intro herr
    exact Except.noConfusion herr
  · intro productID quantity price name now e
    rw [AddToCartWithLock_eq s cartID cart h]
    intro herr
    exact Except.noConfusion herr
  · intro productID quantity now e
    rw [UpdateCartItemQuantityRace_eq s cartID cart h]
    cases setExisting productID quantity cart.Items with
    | none => intro _; rfl
    | some items => intro herr; exact Except.noConfusion herr
  · intro productID quantity now e
    rw [UpdateCartItemQuantitySafe_eq s cartID cart h]
    cases setExisting productID quantity cart.Items with
    | none => intro _; rfl
    | some items => intro herr; exact Except.noConfusion herr

/-- C10 as amended, at an instance: on the new cart of user 7, of version 1, an accepted
optimistic add returns a cart of version 2, and an update of the quantity of a product the
cart does not hold fails and leaves the store as it was. -/
theorem version_after_mutation_witness :
    (sampleCarts.AddToCartOptimistic "cart_7_0" 3 1 2 "Product" 1 5).2 =
      .ok { ID := "cart_7_0", UserID := 7,
            Items := [{ ProductID := 3, Quantity := 1, Price := 2, Name := "Product",
                        AddedAt := 5 }],
            CreatedAt := 0, UpdatedAt := 5, Version := 2 } ∧
    (2 : Int) = 1 + 1 ∧
    (sampleCarts.UpdateCartItemQuantitySafe "cart_7_0" 3 4 5).2 =
      .error "product not found in cart" ∧
    (sampleCarts.UpdateCartItemQuantitySafe "cart_7_0" 3 4 5).1 = sampleCarts :=
  ⟨by rfl,
    ((version_after_mutation sampleCarts "cart_7_0"
      { ID := "cart_7_0", UserID := 7, Items := [], CreatedAt := 0, UpdatedAt := 0,
        Version := 1 } (by decide)).1 3 1 2 "Product" 1 5
      { ID := "cart_7_0", UserID := 7,
        Items := [{ ProductID := 3, Quantity := 1, Price := 2, Name := "Product",
                    AddedAt := 5 }],
        CreatedAt := 0, UpdatedAt := 5, Version := 2 } (by rfl)).2,
    by rfl,
    (version_after_mutation sampleCarts "cart_7_0"
      { ID := "cart_7_0", UserID := 7, Items := [], CreatedAt := 0, UpdatedAt := 0,
        Version := 1 } (by decide)).2.2.2.2.2.2.2.2.2 3 4 5 "product not found in cart"
      (by rfl)⟩

/-- C11: `AddToCartNoLock` and `AddToCartWithLock`, each run alone, return the same result and
leave the same cart store, for every store and arguments; and on a cart that exists,
`AddToCartOptimistic` called with the current version of the cart succeeds and leaves the
same items as `AddToCartWithLock`. -/
theorem add_strategies_agree (s : CartService) (cartID : String) (productID quantity : Int)
    (productPrice : Rat) (productName : String) (now : Int) :
    s.AddToCartNoLock cartID productID quantity productPrice productName now =
      s.AddToCartWithLock cartID productID quantity productPrice productName now ∧
    ∀ cart, s.carts.get cartID = some cart →
      ∃ cartL cartO,
        (s.AddToCartWithLock cartID productID quantity productPrice productName now).2
          = .ok cartL ∧
        (s.AddToCartWithLock cartID productID quantity productPrice productName
          now).1.carts.get cartID = some cartL ∧
        (s.AddToCartOptimistic cartID productID quantity productPrice productName cart.Version
          now).2 = .ok cartO ∧
        (s.AddToCartOptimistic cartID productID quantity productPrice productName cart.Version
          now).1.carts.get cartID = some cartO ∧
        cartO.Items = cartL.Items := by
  refine ⟨rfl, ?_⟩
  intro cart h
  rw [AddToCartWithLock_eq s cartID cart h,
    AddToCartOptimistic_eq s cartID cart h _ _ _ _ _ _ rfl]
  exact ⟨_, _, rfl, storeCart_get_self _ _ _, rfl, storeCart_get_self _ _ _, rfl⟩

/-- C11 at an instance: on the cart of user 7 that holds products 1 and 2, adding 4 of
product 2 without lock and with lock gives the same result and store, and the optimistic add
at version 1 leaves the same lines. -/
theorem add_strategies_agree_witness :
    sampleCartsFilled.AddToCartNoLock "cart_7_0" 2 4 6 "Product" 3 =
      sampleCartsFilled.AddToCartWithLock "cart_7_0" 2 4 6 "Product" 3 ∧
    ((sampleCartsFilled.AddToCartOptimistic "cart_7_0" 2 4 6 "Product" 1 3).1.carts.get
      "cart_7_0").map (fun c => c.Items.map (fun i => (i.ProductID, i.Quantity)))
      = some [(1, 2), (2, 7)] ∧
    ∃ cartL cartO,
      (sampleCartsFilled.AddToCartWithLock "cart_7_0" 2 4 6 "Product" 3).2 = .ok cartL ∧
      (sampleCartsFilled.AddToCartOptimistic "cart_7_0" 2 4 6 "Product" 1 3).2 = .ok cartO ∧
      cartO.Items = cartL.Items :=
  ⟨(add_strategies_agree sampleCartsFilled "cart_7_0" 2 4 6 "Product" 3).1, by decide,
    ((add_strategies_agree sampleCartsFilled "cart_7_0" 2 4 6 "Product" 3).2
      { ID := "cart_7_0", UserID := 7,
        Items := [{ ProductID := 1, Quantity := 2, Price := 5, Name := "Product", AddedAt := 1 },
                  { ProductID := 2, Quantity := 3, Price := 5, Name := "Product", AddedAt := 2 }],
        CreatedAt := 0, UpdatedAt := 2, Version := 1 } (by decide)).imp
      (fun _ h1 => h1.imp (fun _ h2 => ⟨h2.1, h2.2.2.1, h2.2.2.2.2⟩))⟩

/-- C13: on a cart that exists, `UpdateCartItemQuantityRace` and `UpdateCartItemQuantitySafe`,
each run alone, return the same result and leave the same store.  If the cart has a line item
of the product, the call succeeds, the quantity of the first such item is the given quantity,
and the other fields of that item and every other item are as before; if the cart has no line
item of the product, the call returns the error "product not found in cart" and the store is
as before. -/
theorem update_quantity_contract (s : CartService) (cartID : String) (cart : Cart)
    (h : s.carts.get cartID = some cart) (productID quantity now : Int) :
    s.UpdateCartItemQuantityRace cartID productID quantity now =
      s.UpdateCartItemQuantitySafe cartID productID quantity now ∧
    ((∃ item ∈ cart.Items, item.ProductID = productID) →
      ∃ pre item post cart1, cart.Items = pre ++ item :: post ∧
        (∀ x ∈ pre, x.ProductID ≠ productID) ∧ item.ProductID = productID ∧
        (s.UpdateCartItemQuantitySafe cartID productID quantity now).2 = .ok cart1 ∧
        (s.UpdateCartItemQuantitySafe cartID productID quantity now).1.carts.get cartID
          = some cart1 ∧
        cart1.Items = pre ++ { item with Quantity := quantity } :: post ∧
        (∀ other, other ≠ cartID →
          (s.UpdateCartItemQuantitySafe cartID productID quantity now).1.carts.get other
            = s.carts.get other)) ∧
    ((∀ item ∈ cart.Items, item.ProductID ≠ productID) →
      s.UpdateCartItemQuantitySafe cartID productID quantity now =
        (s, .error "product not found in cart")) := by
  refine ⟨rfl, ?_, ?_⟩
  · rintro ⟨item, hmem, hid⟩
    rw [UpdateCartItemQuantitySafe_eq s cartID cart h]
    cases hr : setExisting productID quantity cart.Items with
    | none => exact absurd hid ((setExisting_none _ _ _).mp hr item hmem)
    | some r =>
      obtain ⟨pre, it, post, hitems, hpre, hit, hres⟩ := setExisting_some _ _ _ r hr
      refine ⟨pre, it, post, _, hitems, hpre, hit, rfl, storeCart_get_self _ _ _, hres, ?_⟩
      intro other hne
      exact storeCart_get_ne _ _ _ _ hne
  · intro hno
    rw [UpdateCartItemQuantitySafe_eq s cartID cart h,
      (setExisting_none productID quantity cart.Items).mpr hno]

/-- C13 at an instance: in the cart of user 7 with 2 of product 1 and 3 of product 2, setting
the quantity of product 2 to 9 leaves the lines (1, 2) and (2, 9), and setting the quantity of
product 8 fails and leaves the store as it was. -/
theorem update_quantity_contract_witness :
    ((sampleCartsFilled.UpdateCartItemQuantitySafe "cart_7_0" 2 9 3).1.carts.get
      "cart_7_0").map (fun c => c.Items.map (fun i => (i.ProductID, i.Quantity)))
      = some [(1, 2), (2, 9)] ∧
    sampleCartsFilled.UpdateCartItemQuantitySafe "cart_7_0" 8 9 3 =
      (sampleCartsFilled, .error "product not found in cart") :=
  ⟨by decide,
    (update_quantity_contract sampleCartsFilled "cart_7_0"
      { ID := "cart_7_0", UserID := 7,
        Items := [{ ProductID := 1, Quantity := 2, Price := 5, Name := "Product", AddedAt := 1 },
                  { ProductID := 2, Quantity := 3, Price := 5, Name := "Product", AddedAt := 2 }],
        CreatedAt := 0, UpdatedAt := 2, Version := 1 } (by decide) 8 9 3).2.2 (by decide)⟩

/-- C14: `CreateOrderNoLock` and `CreateOrderSafe` return the error "cart not found" when the
cart id is unknown, otherwise "unauthorized" when the cart belongs to another user, otherwise
"cart is empty" when the cart has no items; in these three cases the order service (stocks,
orders, order index of every user, counters) is as before. -/
theorem checkout_validation (s : OrderService) (cartID : String) (userID : Int)
    (address paymentMethod : String) (now : Int) :
    (s.cartService.GetCart cartID = none →
      s.CreateOrderNoLock cartID userID address paymentMethod now = (s, .error "cart not found") ∧
      s.CreateOrderSafe cartID userID address paymentMethod now = (s, .error "cart not found")) ∧
    (∀ cart, s.cartService.GetCart cartID = some cart → cart.UserID ≠ userID →
      s.CreateOrderNoLock cartID userID address paymentMethod now = (s, .error "unauthorized") ∧
      s.CreateOrderSafe cartID userID address paymentMethod now = (s, .error "unauthorized")) ∧
    (∀ cart, s.cartService.GetCart cartID = some cart → cart.UserID = userID →
      cart.Items = [] →
      s.CreateOrderNoLock cartID userID address paymentMethod now = (s, .error "cart is empty") ∧
      s.CreateOrderSafe cartID userID address paymentMethod now = (s, .error "cart is empty")) := by
  refine ⟨?_, ?_, ?_⟩
  · intro h
    simp [OrderService.CreateOrderNoLock, OrderService.CreateOrderSafe, h]
  · intro cart h hne
    simp [OrderService.CreateOrderNoLock, OrderService.CreateOrderSafe, h, hne]
  · intro cart h he hitems
    simp [OrderService.CreateOrderNoLock, OrderService.CreateOrderSafe, h, he, hitems]

/-- C14 at an instance: an unknown cart id, the cart of user 7 asked for by user 8, and the
empty cart of user 7 are refused by the safe checkout, and the service is as before. -/
theorem checkout_validation_witness :
    sampleCheckout.CreateOrderSafe "cart_0_0" 7 "Street" "card" 9 =
      (sampleCheckout, .error "cart not found") ∧
    sampleCheckout.CreateOrderSafe "cart_7_0" 8 "Street" "card" 9 =
      (sampleCheckout, .error "unauthorized") ∧
    sampleCheckoutEmpty.CreateOrderNoLock "cart_7_0" 7 "Street" "card" 9 =
      (sampleCheckoutEmpty, .error "cart is empty") :=
  ⟨((checkout_validation sampleCheckout "cart_0_0" 7 "Street" "card" 9).1 (by decide)).2,
    ((checkout_validation sampleCheckout "cart_7_0" 8 "Street" "card" 9).2.1
      { ID := "cart_7_0", UserID := 7,
        Items := [{ ProductID := 1, Quantity := 2, Price := 5, Name := "Product", AddedAt := 1 },
                  { ProductID := 2, Quantity := 3, Price := 5, Name := "Product", AddedAt := 2 }],
        CreatedAt := 0, UpdatedAt := 2, Version := 1 } (by decide) (by decide)).2,
    ((checkout_validation sampleCheckoutEmpty "cart_7_0" 7 "Street" "card" 9).2.2
      { ID := "cart_7_0", UserID := 7, Items := [], CreatedAt := 0, UpdatedAt := 0,
        Version := 1 } (by decide) (by decide) rfl).1⟩

/-- C15, what the code does: `CreateOrderBatchCheck` makes no test of the owner of the cart
and no test for an empty cart.  Asked by user 8 for the cart of user 7 it stores an order of
user 8 with the lines of that cart, and asked for the empty cart of user 7 it stores an order
without items; each time `totalOrders` goes from 0 to 1. -/
theorem batch_checkout_without_validation :
    (sampleCheckout.cartService.GetCart "cart_7_0").map (fun c => c.UserID) = some 7 ∧
    ((sampleCheckout.CreateOrderBatchCheck "cart_7_0" 8 9).2.toOption).map
      (fun o => (o.ID, o.UserID, o.Items.map (fun i => (i.ProductID, i.Quantity))))
      = some ("order_8_9", 8, [(1, 2), (2, 3)]) ∧
    ((sampleCheckout.CreateOrderBatchCheck "cart_7_0" 8 9).1.orders.get "order_8_9").map
      (fun o => o.UserID) = some 8 ∧
    (sampleCheckout.CreateOrderBatchCheck "cart_7_0" 8 9).1.stats.totalOrders = 1 ∧
    (sampleCheckoutEmpty.cartService.GetCart "cart_7_0").map (fun c => c.Items) = some [] ∧
    (sampleCheckoutEmpty.CreateOrderBatchCheck "cart_7_0" 7 9).2 =
      .ok { ID := "order_7_9", UserID := 7, Items := [], Total := 0, Status := "pending",
            CreatedAt := 9, UpdatedAt := 9 } ∧
    (sampleCheckoutEmpty.CreateOrderBatchCheck "cart_7_0" 7 9).1.stats.totalOrders = 1 := by
  refine ⟨by decide, by decide, by decide, by decide, by decide, by rfl, by decide⟩

/-- C16, the claim as stated fails: the cart of user 7 holds one line, of product 1 with the
quantity -9223372036854775808, and product 1 has stock 5; `CreateOrderSafe` returns an order,
and the stock of product 1 afterwards is -9223372036854775803, not 5 minus the quantity of
the line, which is 9223372036854775813. -/
theorem CreateOrderSafe_alone_counterexample :
    (sampleCheckoutLeast.cartService.GetCart "cart_7_0").map
      (fun c => (c.UserID, c.Items.map (fun i => (i.ProductID, i.Quantity))))
      = some (7, [(1, -9223372036854775808)]) ∧
    (sampleCheckoutLeast.productService.products.get 1).map (fun p => p.Stock) = some 5 ∧
    returnedOrder (sampleCheckoutLeast.CreateOrderSafe "cart_7_0" 7 "Street" "card" 9).2
      = true ∧
    ((sampleCheckoutLeast.CreateOrderSafe "cart_7_0" 7 "Street" "card"
      9).1.productService.products.get 1).map (fun p => p.Stock)
      = some (-9223372036854775803) ∧
    ((sampleCheckoutLeast.CreateOrderSafe "cart_7_0" 7 "Street" "card"
      9).1.productService.products.get 1).map (fun p => p.Stock)
      ≠ some (5 - (-9223372036854775808)) := by
  refine ⟨by decide, by decide, by rfl, by decide, by decide⟩

/-- C16 as amended: `CreateOrderSafe`, run alone on a cart that passes validation, whose items
have pairwise distinct product ids and whose products all exist.  If the product of some line
item has less stock than the quantity asked, the call returns an insufficient-stock error,
`failedOrders` goes up by one, and the inventory, the orders, the order index and the other
counters are as before.  Otherwise the call returns an order (every `UpdateStock` succeeds),
the stock of the product of every line item becomes Go's `stock - quantity of the line` (for
`int` operands the difference wrapped around to 64 bits; exactly the stock minus the quantity
whenever that difference is an `int`, so for every quantity at least zero) and its time stamp
is set, and every other product is as before. -/
theorem CreateOrderSafe_alone (s : OrderService) (cartID : String) (userID : Int)
    (address paymentMethod : String) (now : Int) (cart : Cart)
    (hc : s.cartService.GetCart cartID = some cart) (hu : cart.UserID = userID)
    (hne : cart.Items ≠ []) (hd : DistinctProducts cart.Items)
    (hex : ∀ item ∈ cart.Items, ∃ p, s.productService.products.get item.ProductID = some p) :
    ((∃ item ∈ cart.Items, ∃ p, s.productService.products.get item.ProductID = some p ∧
        p.Stock < item.Quantity) →
      (∃ name, (s.CreateOrderSafe cartID userID address paymentMethod now).2 =
        .error ("insufficient stock for product " ++ name)) ∧
      (s.CreateOrderSafe cartID userID address paymentMethod now).1.stats.failedOrders
        = s.stats.failedOrders + 1 ∧
      (s.CreateOrderSafe cartID userID address paymentMethod now).1.stats.totalOrders
        = s.stats.totalOrders ∧
      (s.CreateOrderSafe cartID userID address paymentMethod now).1.stats.raceConditionDetected
        = s.stats.raceConditionDetected ∧
      (s.CreateOrderSafe cartID userID address paymentMethod now).1.productService
        = s.productService ∧
      (s.CreateOrderSafe cartID userID address paymentMethod now).1.orders = s.orders ∧
      (s.CreateOrderSafe cartID userID address paymentMethod now).1.userOrders = s.userOrders ∧
      (s.CreateOrderSafe cartID userID address paymentMethod now).1.cartService
        = s.cartService) ∧
    ((∀ item ∈ cart.Items, ∀ p, s.productService.products.get item.ProductID = some p →
        item.Quantity ≤ p.Stock) →
      (∃ order, (s.CreateOrderSafe cartID userID address paymentMethod now).2 = .ok order) ∧
      (∀ item ∈ cart.Items, ∃ p, s.productService.products.get item.ProductID = some p ∧
        (s.CreateOrderSafe cartID userID address paymentMethod
          now).1.productService.products.get item.ProductID =
          some { p with Stock := goSub p.Stock item.Quantity, UpdatedAt := now } ∧
        (IsInt64 p.Stock → IsInt64 item.Quantity →
          goSub p.Stock item.Quantity = wrap64 (p.Stock - item.Quantity)) ∧
        (IsInt64 (p.Stock - item.Quantity) →
          goSub p.Stock item.Quantity = p.Stock - item.Quantity) ∧
        (0 ≤ item.Quantity → goSub p.Stock item.Quantity = p.Stock - item.Quantity)) ∧
      (∀ id, (∀ item ∈ cart.Items, item.ProductID ≠ id) →
        (s.CreateOrderSafe cartID userID address paymentMethod
          now).1.productService.products.get id = s.productService.products.get id)) := by
  have hl : ¬ cart.Items.length = 0 := by
    intro h0
    exact hne (List.length_eq_zero.mp h0)
  have hu1 : ¬ cart.UserID ≠ userID := fun h => h hu
  constructor
  · rintro ⟨item, hmem, p, hg, hlt⟩
    rcases safeCheckItems_cases s.productService cart.Items [] [] 0 hex with
      ⟨u, o, t, hs⟩ | ⟨name, hs, _⟩
    · obtain ⟨_, _, _, _, _, hall⟩ := safeCheckItems_passed _ _ _ _ _ _ _ _ hs
      obtain ⟨p1, hg1, hle⟩ := hall item hmem
      rw [hg] at hg1
      cases hg1
      omega
    · have hres : s.CreateOrderSafe cartID userID address paymentMethod now =
          (⟨s.orders, s.userOrders, s.productService, s.cartService,
            ⟨s.stats.totalOrders, s.stats.failedOrders + 1, s.stats.raceConditionDetected⟩⟩,
            .error ("insufficient stock for product " ++ name)) := by
        simp only [OrderService.CreateOrderSafe, hc, hu1, hl, if_false, hs]
      rw [hres]
      exact ⟨⟨name, rfl⟩, rfl, rfl, rfl, rfl, rfl, rfl, rfl⟩
  · intro hall
    rcases safeCheckItems_cases s.productService cart.Items [] [] 0 hex with
      ⟨u, o, t, hs⟩ | ⟨name, _, item, hmem, p, hg, hlt⟩
    · obtain ⟨ois, hueq, _, _, _, hsuff⟩ := safeCheckItems_passed _ _ _ _ _ _ _ _ hs
      simp only [List.nil_append] at hueq
      have hwf : GoMap.WF u := hueq ▸ WF_map_items cart.Items hd
      have hallu : ∀ e ∈ u, ∃ p, s.productService.products.get e.1 = some p ∧
          e.2 ≤ p.Stock := by
        intro e he
        rw [hueq] at he
        obtain ⟨item, hmem, heq⟩ := List.mem_map.mp he
        subst heq
        exact hsuff item hmem
      obtain ⟨hnone, hget⟩ := safeUpdateItems_get now u s.productService hwf hallu
      rcases hup : safeUpdateItems now s.productService u with ⟨ps1, r⟩
      rw [hup] at hnone hget
      simp only at hnone hget
      subst hnone
      simp only [OrderService.CreateOrderSafe, hc, hu1, hl, if_false, hs, hup]
      refine ⟨⟨_, rfl⟩, ?_, ?_⟩
      · intro item hmem
        obtain ⟨p, hg, hle⟩ := hsuff item hmem
        refine ⟨p, hg, ?_, fun h1 h2 => goSub_int64 _ _ h1 h2,
          fun h1 => goSub_of_fits _ _ h1, fun h1 => goSub_of_le _ _ h1 hle⟩
        show ps1.products.get item.ProductID = _
        rw [hget item.ProductID,
          GoMap.get_of_mem u hwf item.ProductID item.Quantity
            (hueq ▸ List.mem_map.mpr ⟨item, hmem, rfl⟩), hg]
        rfl
      · intro id hid
        show ps1.products.get id = _
        have hnk : id ∉ GoMap.keys u := by
          rw [hueq, keys_map_items]
          intro hm
          obtain ⟨item, hmem, heq⟩ := List.mem_map.mp hm
          exact hid item hmem heq
        rw [hget id, GoMap.get_eq_none_of_not_mem u id hnk]
    · exact absurd (hall item hmem p hg) (not_le.mpr hlt)

/-- C16 as amended, at an instance: with stocks 5 and 1 the cart that asks for 2 and 3 is refused and
`failedOrders` becomes 1 with the stocks untouched; with stocks 5 and 4 the order is made
and the stocks become 3 and 1. -/
theorem CreateOrderSafe_alone_witness :
    (sampleCheckoutShort.CreateOrderSafe "cart_7_0" 7 "Street" "card" 9).1.stats.failedOrders
      = 0 + 1 ∧
    (sampleCheckoutShort.CreateOrderSafe "cart_7_0" 7 "Street" "card" 9).1.productService
      = sampleCheckoutShort.productService ∧
    (sampleCheckout.CreateOrderSafe "cart_7_0" 7 "Street" "card"
      9).1.productService.products.map (fun e => (e.1, e.2.Stock)) = [(1, 3), (2, 1)] ∧
    (∃ order, (sampleCheckout.CreateOrderSafe "cart_7_0" 7 "Street" "card" 9).2 = .ok order) :=
  ⟨((CreateOrderSafe_alone sampleCheckoutShort "cart_7_0" 7 "Street" "card" 9
      { ID := "cart_7_0", UserID := 7,
        Items := [{ ProductID := 1, Quantity := 2, Price := 5, Name := "Product", AddedAt := 1 },
                  { ProductID := 2, Quantity := 3, Price := 5, Name := "Product", AddedAt := 2 }],
        CreatedAt := 0, UpdatedAt := 2, Version := 1 }
      (by decide) (by decide) (by decide) (by decide)
      (fun item hmem => Option.isSome_iff_exists.mp
        ((by decide : ∀ i ∈ [(⟨1, 2, 5, "Product", 1⟩ : CartItem), ⟨2, 3, 5, "Product", 2⟩],
          (sampleCheckoutShort.productService.products.get i.ProductID).isSome = true)
          item hmem))).1
      ⟨⟨2, 3, 5, "Product", 2⟩, by decide, sampleProduct 2 1, by decide, by decide⟩).2.1,
    by decide, by decide,
    ((CreateOrderSafe_alone sampleCheckout "cart_7_0" 7 "Street" "card" 9
      { ID := "cart_7_0", UserID := 7,
        Items := [{ ProductID := 1, Quantity := 2, Price := 5, Name := "Product", AddedAt := 1 },
                  { ProductID := 2, Quantity := 3, Price := 5, Name := "Product", AddedAt := 2 }],
        CreatedAt := 0, UpdatedAt := 2, Version := 1 }
      (by decide) (by decide) (by decide) (by decide)
      (fun item hmem => Option.isSome_iff_exists.mp
        ((by decide : ∀ i ∈ [(⟨1, 2, 5, "Product", 1⟩ : CartItem), ⟨2, 3, 5, "Product", 2⟩],
          (sampleCheckout.productService.products.get i.ProductID).isSome = true)
          item hmem))).2
      (fun item hmem p hg =>
        (by decide : ∀ i ∈ [(⟨1, 2, 5, "Product", 1⟩ : CartItem), ⟨2, 3, 5, "Product", 2⟩],
          ∀ q ∈ sampleCheckout.productService.products.get i.ProductID, i.Quantity ≤ q.Stock)
          item hmem p hg)).1⟩

/-- C18: for a cart that exists, whose products all exist and whose items have pairwise
distinct product ids, if the product of some line item has less stock than the quantity of
the line, `CreateOrderBatchCheck` returns the reservation-failed error, the inventory, the
orders and the order index are as before, `raceConditionDetected` goes up by one, and
`failedOrders` and `totalOrders` are as before. -/
theorem batch_checkout_failure (s : OrderService) (cartID : String) (userID now : Int)
    (cart : Cart) (hc : s.cartService.GetCart cartID = some cart)
    (hd : DistinctProducts cart.Items)
    (hex : ∀ item ∈ cart.Items, ∃ p, s.productService.products.get item.ProductID = some p)
    (hshort : ∃ item ∈ cart.Items, ∃ p,
      s.productService.products.get item.ProductID = some p ∧ p.Stock < item.Quantity) :
    (s.CreateOrderBatchCheck cartID userID now).2 =
      .error "inventory reservation failed - possible race condition" ∧
    (s.CreateOrderBatchCheck cartID userID now).1.productService = s.productService ∧
    (s.CreateOrderBatchCheck cartID userID now).1.orders = s.orders ∧
    (s.CreateOrderBatchCheck cartID userID now).1.userOrders = s.userOrders ∧
    (s.CreateOrderBatchCheck cartID userID now).1.cartService = s.cartService ∧
    (s.CreateOrderBatchCheck cartID userID now).1.stats.raceConditionDetected
      = s.stats.raceConditionDetected + 1 ∧
    (s.CreateOrderBatchCheck cartID userID now).1.stats.failedOrders = s.stats.failedOrders ∧
    (s.CreateOrderBatchCheck cartID userID now).1.stats.totalOrders = s.stats.totalOrders := by
  obtain ⟨o, t, hb⟩ := batchCollectItems_distinct s.productService cart.Items [] [] 0 hex hd
    (by simp [GoMap.keys])
  simp only [List.nil_append] at hb
  have hcheck : reserveCheck s.productService.products
      (cart.Items.map (fun i => (i.ProductID, i.Quantity))) = false := by
    cases hr : reserveCheck s.productService.products
      (cart.Items.map (fun i => (i.ProductID, i.Quantity))) with
    | false => rfl
    | true =>
      obtain ⟨item, hmem, p, hg, hlt⟩ := hshort
      obtain ⟨p1, hg1, hle⟩ := (reserveCheck_iff _ _).mp hr (item.ProductID, item.Quantity)
        (List.mem_map.mpr ⟨item, hmem, rfl⟩)
      simp only at hg1 hle
      rw [hg] at hg1
      cases hg1
      omega
  have hres : s.CreateOrderBatchCheck cartID userID now =
      (⟨s.orders, s.userOrders, s.productService, s.cartService,
        ⟨s.stats.totalOrders, s.stats.failedOrders, s.stats.raceConditionDetected + 1⟩⟩,
        .error "inventory reservation failed - possible race condition") := by
    simp [OrderService.CreateOrderBatchCheck, hc, hb,
      tryReserveInventory_of_WF s _ (WF_map_items cart.Items hd), hcheck]
  rw [hres]
  exact ⟨rfl, rfl, rfl, rfl, rfl, rfl, rfl, rfl⟩

/-- C18 at an instance: with stocks 5 and 1 the batch checkout of the cart that asks for 2
and 3 fails, the stocks stay 5 and 1 and `raceConditionDetected` becomes 1. -/
theorem batch_checkout_failure_witness :
    (sampleCheckoutShort.CreateOrderBatchCheck "cart_7_0" 7 9).2 =
      .error "inventory reservation failed - possible race condition" ∧
    (sampleCheckoutShort.CreateOrderBatchCheck "cart_7_0" 7 9).1.productService.products.map
      (fun e => (e.1, e.2.Stock)) = [(1, 5), (2, 1)] ∧
    (sampleCheckoutShort.CreateOrderBatchCheck "cart_7_0" 7 9).1.stats.raceConditionDetected
      = 1 :=
  ⟨(batch_checkout_failure sampleCheckoutShort "cart_7_0" 7 9
      { ID := "cart_7_0", UserID := 7,
        Items := [{ ProductID := 1, Quantity := 2, Price := 5, Name := "Product", AddedAt := 1 },
                  { ProductID := 2, Quantity := 3, Price := 5, Name := "Product", AddedAt := 2 }],
        CreatedAt := 0, UpdatedAt := 2, Version := 1 }
      (by decide) (by decide)
      (fun item hmem => Option.isSome_iff_exists.mp
        ((by decide : ∀ i ∈ [(⟨1, 2, 5, "Product", 1⟩ : CartItem), ⟨2, 3, 5, "Product", 2⟩],
          (sampleCheckoutShort.productService.products.get i.ProductID).isSome = true)
          item hmem))
      ⟨⟨2, 3, 5, "Product", 2⟩, by decide, sampleProduct 2 1, by decide, by decide⟩).1,
    by decide, by decide⟩

/-- C19: whenever `CreateOrderNoLock`, `CreateOrderSafe`, `CreateOrderBatchCheck` or
`FlashSalePurchase` returns an order, the order is pending and belongs to the requesting
user, it is stored under its id, its id is appended at the end of the order index of that
user, `totalOrders` goes up by one and the two other counters are as before. -/
theorem order_creation_success (s : OrderService) :
    (∀ (cartID : String) (userID : Int) (address paymentMethod : String) (now : Int)
        (order : Order),
      (s.CreateOrderNoLock cartID userID address paymentMethod now).2 = .ok order →
      OrderRecorded s (s.CreateOrderNoLock cartID userID address paymentMethod now).1
        userID order) ∧
    (∀ (cartID : String) (userID : Int) (address paymentMethod : String) (now : Int)
        (order : Order),
      (s.CreateOrderSafe cartID userID address paymentMethod now).2 = .ok order →
      OrderRecorded s (s.CreateOrderSafe cartID userID address paymentMethod now).1
        userID order) ∧
    (∀ (cartID : String) (userID now : Int) (order : Order),
      (s.CreateOrderBatchCheck cartID userID now).2 = .ok order →
      OrderRecorded s (s.CreateOrderBatchCheck cartID userID now).1 userID order) ∧
    (∀ (productID quantity userID now : Int) (order : Order),
      (s.FlashSalePurchase productID quantity userID now).2 = .ok order →
      OrderRecorded s (s.FlashSalePurchase productID quantity userID now).1 userID order) := by
  refine ⟨?_, ?_, ?_, ?_⟩
  · intro cartID userID address paymentMethod now order h
    obtain ⟨cart, ps1, _, _, hres, hid, hst⟩ := CreateOrderNoLock_ok s _ _ _ _ _ _ h
    rw [hres]
    exact OrderRecorded_storeOrder s _ userID order rfl rfl hid hst
  · intro cartID userID address paymentMethod now order h
    obtain ⟨cart, u, ps1, _, _, _, hres, hid, hst⟩ := CreateOrderSafe_ok s _ _ _ _ _ _ h
    rw [hres]
    exact OrderRecorded_storeOrder s _ userID order rfl rfl hid hst
  · intro cartID userID now order h
    obtain ⟨cart, pq, _, _, _, hres, hid, hst⟩ := CreateOrderBatchCheck_ok s _ _ _ _ h
    rw [hres]
    exact OrderRecorded_storeOrder s _ userID order (tryReserveInventory_rest s pq).1
      (tryReserveInventory_rest s pq).2.1 hid hst
  · intro productID quantity userID now order h
    obtain ⟨ps1, hres, hid, hst⟩ := FlashSalePurchase_ok s _ _ _ _ _ h
    rw [hres]
    exact OrderRecorded_storeOrder s _ userID order rfl rfl hid hst

/-- C19 at an instance: the flash sale purchase of 2 of product 1 by user 7 returns the
order "flash_7_9", and that order is recorded. -/
theorem order_creation_success_witness :
    ((sampleShop.FlashSalePurchase 1 2 7 9).2.toOption).map (fun o => o.ID)
      = some "flash_7_9" ∧
    (sampleShop.FlashSalePurchase 1 2 7 9).1.userOrders.get 7 = some ["flash_7_9"] ∧
    OrderRecorded sampleShop (sampleShop.FlashSalePurchase 1 2 7 9).1 7
      { ID := "flash_7_9", UserID := 7,
        Items := [{ ProductID := 1, Quantity := 2, Price := 5, Name := "Product" }],
        Total := 5 * ((2 : Int) : Rat), Status := "pending", CreatedAt := 9, UpdatedAt := 9 } :=
  ⟨by decide, by decide,
    (order_creation_success sampleShop).2.2.2 1 2 7 9 _ (by rfl)⟩

/-- C20: whenever `CreateOrderSafe`, `CreateOrderNoLock` or `CreateOrderBatchCheck` returns
an order, the order has one line per line item of the cart, in cart order, each with the
product id and quantity of the cart line and the price and name of the product in the
inventory, and the total of the order is the sum of price times quantity over its lines. -/
theorem order_lines_and_total (s : OrderService) :
    (∀ (cartID : String) (userID : Int) (address paymentMethod : String) (now : Int)
        (order : Order),
      (s.CreateOrderSafe cartID userID address paymentMethod now).2 = .ok order →
      ∃ cart, s.cartService.GetCart cartID = some cart ∧
        List.Forall₂ (LineOf s.productService) cart.Items order.Items ∧
        order.Total = orderTotal order.Items) ∧
    (∀ (cartID : String) (userID : Int) (address paymentMethod : String) (now : Int)
        (order : Order),
      (s.CreateOrderNoLock cartID userID address paymentMethod now).2 = .ok order →
      ∃ cart, s.cartService.GetCart cartID = some cart ∧
        List.Forall₂ (LineOf s.productService) cart.Items order.Items ∧
        order.Total = orderTotal order.Items) ∧
    (∀ (cartID : String) (userID now : Int) (order : Order),
      (s.CreateOrderBatchCheck cartID userID now).2 = .ok order →
      ∃ cart, s.cartService.GetCart cartID = some cart ∧
        List.Forall₂ (LineOf s.productService) cart.Items order.Items ∧
        order.Total = orderTotal order.Items) := by
  refine ⟨?_, ?_, ?_⟩
  · intro cartID userID address paymentMethod now order h
    obtain ⟨cart, u, ps1, hc, hs, _, _, _, _⟩ := CreateOrderSafe_ok s _ _ _ _ _ _ h
    obtain ⟨ois, _, ho, ht, hf, _⟩ := safeCheckItems_passed _ _ _ _ _ _ _ _ hs
    simp only [List.nil_append, zero_add] at ho ht
    exact ⟨cart, hc, ho ▸ hf, by rw [ht, ho]⟩
  · intro cartID userID address paymentMethod now order h
    obtain ⟨cart, ps1, hc, hn, _, _, _⟩ := CreateOrderNoLock_ok s _ _ _ _ _ _ h
    obtain ⟨ois, ho, ht, hf⟩ :=
      noLockItems_ok s.productService cart.Items s.productService [] 0 ps1 _ _
        (fun _ => rfl) hn
    simp only [List.nil_append, zero_add] at ho ht
    exact ⟨cart, hc, ho ▸ hf, by rw [ht, ho]⟩
  · intro cartID userID now order h
    obtain ⟨cart, pq, hc, hb, _, _, _, _⟩ := CreateOrderBatchCheck_ok s _ _ _ _ h
    obtain ⟨ois, ho, ht, hf⟩ := batchCollectItems_ok _ _ _ _ _ _ _ _ hb
    simp only [List.nil_append, zero_add] at ho ht
    exact ⟨cart, hc, ho ▸ hf, by rw [ht, ho]⟩

/-- C20 at an instance: the safe checkout of the cart with 2 of product 1 and 3 of product 2
returns an order whose two lines match the cart lines and whose total is the sum of price
times quantity over its lines. -/
theorem order_lines_and_total_witness :
    ∃ cart, sampleCheckout.cartService.GetCart "cart_7_0" = some cart ∧
      List.Forall₂ (LineOf sampleCheckout.productService) cart.Items
        [{ ProductID := 1, Quantity := 2, Price := 5, Name := "Product" },
         { ProductID := 2, Quantity := 3, Price := 5, Name := "Product" }] ∧
      (0 + 5 * ((2 : Int) : Rat) + 5 * ((3 : Int) : Rat) : Rat) =
        orderTotal [{ ProductID := 1, Quantity := 2, Price := 5, Name := "Product" },
                    { ProductID := 2, Quantity := 3, Price := 5, Name := "Product" }] :=
  (order_lines_and_total sampleCheckout).1 "cart_7_0" 7 "Street" "card" 9
    { ID := "order_7_9", UserID := 7,
      Items := [{ ProductID := 1, Quantity := 2, Price := 5, Name := "Product" },
                { ProductID := 2, Quantity := 3, Price := 5, Name := "Product" }],
      Total := 0 + 5 * ((2 : Int) : Rat) + 5 * ((3 : Int) : Rat), Status := "pending",
      CreatedAt := 9, UpdatedAt := 9 } (by rfl)

/-- C17, the claim as stated fails: with stocks 5 and 1, `CreateOrderNoLock` on the cart that
asks for 2 of product 1 and 3 of product 2 returns the insufficient-stock error for the
second line, and the stock of product 1 is 3 after the call, not 5. -/
theorem CreateOrderNoLock_counterexample :
    (sampleCheckoutShort.CreateOrderNoLock "cart_7_0" 7 "Street" "card" 9).2 =
      .error "insufficient stock for product Product" ∧
    (sampleCheckoutShort.productService.products.get 1).map (fun p => p.Stock) = some 5 ∧
    ((sampleCheckoutShort.CreateOrderNoLock "cart_7_0" 7 "Street" "card"
      9).1.productService.products.get 1).map (fun p => p.Stock) = some 3 ∧
    (sampleCheckoutShort.CreateOrderNoLock "cart_7_0" 7 "Street" "card" 9).1.productService
      ≠ sampleCheckoutShort.productService := by
  refine ⟨by rfl, by decide, by decide, by decide⟩

/-- C17 as amended: whenever `CreateOrderNoLock` returns an error, the orders, the order
index, the counters and the carts are as before.  Either the cart was refused (not found,
unauthorized, empty) and the whole service is as before; or the loop ran without error over
the line items `pre` of the cart, the line item that follows them failed on the inventory so
reached (its product is missing, or has less stock than the line asks), and that inventory is
the inventory after the call, with what the lines of `pre` took still taken: when `pre` has
pairwise distinct product ids, the product of each line of `pre` had at least the quantity of
the line and now has Go's `stock - quantity` (exactly the stock minus the quantity for a
quantity at least zero), and every other product is as before.  With no line before the
failing one the whole service is as before. -/
theorem CreateOrderNoLock_failure (s : OrderService) (cartID : String) (userID : Int)
    (address paymentMethod : String) (now : Int) (e : String)
    (h : (s.CreateOrderNoLock cartID userID address paymentMethod now).2 = .error e) :
    (s.CreateOrderNoLock cartID userID address paymentMethod now).1.orders = s.orders ∧
    (s.CreateOrderNoLock cartID userID address paymentMethod now).1.userOrders
      = s.userOrders ∧
    (s.CreateOrderNoLock cartID userID address paymentMethod now).1.stats = s.stats ∧
    (s.CreateOrderNoLock cartID userID address paymentMethod now).1.cartService
      = s.cartService ∧
    (((e = "cart not found" ∨ e = "unauthorized" ∨ e = "cart is empty") ∧
        (s.CreateOrderNoLock cartID userID address paymentMethod now).1 = s) ∨
      ∃ cart pre item post,
        s.cartService.GetCart cartID = some cart ∧ cart.Items = pre ++ item :: post ∧
        (∃ o t, noLockItems s.productService pre [] 0 =
          ((s.CreateOrderNoLock cartID userID address paymentMethod now).1.productService,
            .ok (o, t))) ∧
        (((s.CreateOrderNoLock cartID userID address paymentMethod
              now).1.productService.products.get item.ProductID = none ∧
            e = "product " ++ toString item.ProductID ++ " not found") ∨
          ∃ p, (s.CreateOrderNoLock cartID userID address paymentMethod
              now).1.productService.products.get item.ProductID = some p ∧
            p.Stock < item.Quantity ∧ e = "insufficient stock for product " ++ p.Name) ∧
        (pre = [] → (s.CreateOrderNoLock cartID userID address paymentMethod now).1 = s) ∧
        (DistinctProducts pre →
          (∀ x ∈ pre, ∃ p, s.productService.products.get x.ProductID = some p ∧
            x.Quantity ≤ p.Stock ∧
            (s.CreateOrderNoLock cartID userID address paymentMethod
              now).1.productService.products.get x.ProductID =
              some { p with Stock := goSub p.Stock x.Quantity } ∧
            (0 ≤ x.Quantity → goSub p.Stock x.Quantity = p.Stock - x.Quantity)) ∧
          (∀ id, (∀ x ∈ pre, x.ProductID ≠ id) →
            (s.CreateOrderNoLock cartID userID address paymentMethod
              now).1.productService.products.get id = s.productService.products.get id))) := by
  rcases Option.eq_none_or_eq_some (s.cartService.GetCart cartID) with hc | ⟨cart, hc⟩
  · have hres : s.CreateOrderNoLock cartID userID address paymentMethod now =
        (s, .error "cart not found") := by
      simp [OrderService.CreateOrderNoLock, hc]
    rw [hres] at h ⊢
    simp only [Except.error.injEq] at h
    exact ⟨rfl, rfl, rfl, rfl, Or.inl ⟨Or.inl h.symm, rfl⟩⟩
  · by_cases hu : cart.UserID ≠ userID
    · have hres : s.CreateOrderNoLock cartID userID address paymentMethod now =
          (s, .error "unauthorized") := by
        simp [OrderService.CreateOrderNoLock, hc, hu]
      rw [hres] at h ⊢
      simp only [Except.error.injEq] at h
      exact ⟨rfl, rfl, rfl, rfl, Or.inl ⟨Or.inr (Or.inl h.symm), rfl⟩⟩
    · by_cases hl : cart.Items.length = 0
      · have hres : s.CreateOrderNoLock cartID userID address paymentMethod now =
            (s, .error "cart is empty") := by
          simp only [OrderService.CreateOrderNoLock, hc, hu, hl, if_true, if_false]
        rw [hres] at h ⊢
        simp only [Except.error.injEq] at h
        exact ⟨rfl, rfl, rfl, rfl, Or.inl ⟨Or.inr (Or.inr h.symm), rfl⟩⟩
      · rcases hn : noLockItems s.productService cart.Items [] 0 with ⟨ps1, r⟩
        cases r with
        | ok res =>
          simp only [OrderService.CreateOrderNoLock, hc, hu, hl, if_false, hn] at h
          exact Except.noConfusion h
        | error e1 =>
          have hres : s.CreateOrderNoLock cartID userID address paymentMethod now =
              (⟨s.orders, s.userOrders, ps1, s.cartService, s.stats⟩, .error e1) := by
            simp only [OrderService.CreateOrderNoLock, hc, hu, hl, if_false, hn]
          rw [hres] at h ⊢
          simp only [Except.error.injEq] at h
          subst h
          obtain ⟨pre, item, post, o, t, hsplit, hrun, hfail⟩ :=
            noLockItems_error _ _ _ _ _ _ hn
          refine ⟨rfl, rfl, rfl, rfl, Or.inr ⟨cart, pre, item, post, hc, hsplit,
            ⟨o, t, hrun⟩, hfail, ?_, ?_⟩⟩
          · intro hpre
            subst hpre
            simp only [noLockItems, Prod.mk.injEq] at hrun
            simp only
            rw [← hrun.1]
          · intro hd
            constructor
            · intro x hx
              obtain ⟨p, hp, hle, hp1⟩ := noLockItems_lines pre _ _ _ _ _ _ hd hrun x hx
              exact ⟨p, hp, hle, hp1, fun h0 => goSub_of_le _ _ h0 hle⟩
            · intro id hid
              have hget := noLockItems_get pre _ _ _ _ _ _ hd hrun id
              have hnk : id ∉ GoMap.keys (pre.map (fun i => (i.ProductID, i.Quantity))) := by
                rw [keys_map_items]
                intro hm
                obtain ⟨x, hx, heq⟩ := List.mem_map.mp hm
                exact hid x hx heq
              rw [GoMap.get_eq_none_of_not_mem _ id hnk] at hget
              exact hget

/-- C17 as amended, at an instance: with stocks 5 and 1 the call on the cart that asks for 2
of product 1 and 3 of product 2 fails at the second line; the orders and counters are as
they were, and the 2 that the first line took stay taken: product 1 has stock 3 after the
call, as the theorem says of the one line before the failing one. -/
theorem CreateOrderNoLock_failure_witness :
    (sampleCheckoutShort.CreateOrderNoLock "cart_7_0" 7 "Street" "card" 9).2 =
      .error "insufficient stock for product Product" ∧
    (sampleCheckoutShort.productService.products.get 1).map (fun p => p.Stock) = some 5 ∧
    ((sampleCheckoutShort.CreateOrderNoLock "cart_7_0" 7 "Street" "card"
      9).1.productService.products.get 1).map (fun p => p.Stock) = some 3 ∧
    (sampleCheckoutShort.CreateOrderNoLock "cart_7_0" 7 "Street" "card" 9).1.orders
      = sampleCheckoutShort.orders ∧
    (sampleCheckoutShort.CreateOrderNoLock "cart_7_0" 7 "Street" "card" 9).1.stats
      = sampleCheckoutShort.stats ∧
    (∃ cart pre item post,
      sampleCheckoutShort.cartService.GetCart "cart_7_0" = some cart ∧
      cart.Items = pre ++ item :: post ∧
      (∃ p, (sampleCheckoutShort.CreateOrderNoLock "cart_7_0" 7 "Street" "card"
          9).1.productService.products.get item.ProductID = some p ∧
        p.Stock < item.Quantity) ∧
      (DistinctProducts pre →
        ∀ x ∈ pre, ∃ p, sampleCheckoutShort.productService.products.get x.ProductID = some p ∧
          (sampleCheckoutShort.CreateOrderNoLock "cart_7_0" 7 "Street" "card"
            9).1.productService.products.get x.ProductID =
            some { p with Stock := goSub p.Stock x.Quantity })) :=
  ⟨by rfl, by decide, by decide,
    (CreateOrderNoLock_failure sampleCheckoutShort "cart_7_0" 7 "Street" "card" 9
      "insufficient stock for product Product" (by rfl)).1,
    (CreateOrderNoLock_failure sampleCheckoutShort "cart_7_0" 7 "Street" "card" 9
      "insufficient stock for product Product" (by rfl)).2.2.1,
    ((CreateOrderNoLock_failure sampleCheckoutShort "cart_7_0" 7 "Street" "card" 9
      "insufficient stock for product Product" (by rfl)).2.2.2.2.resolve_left
        (fun hl => absurd hl.1 (by decide))).imp
      (fun cart hcart => hcart.imp (fun pre hpre => hpre.imp (fun item hitem =>
        hitem.imp (fun post hpost =>
          ⟨hpost.1, hpost.2.1,
            hpost.2.2.2.1.elim
              (fun hnf => absurd hnf.2 (insufficient_ne_not_found "Product" item.ProductID))
              (fun hp => hp.imp (fun p hpp => ⟨hpp.1, hpp.2.1⟩)),
            fun hd x hx => (hpost.2.2.2.2.2 hd).1 x hx |>.imp
              (fun p hpp => ⟨hpp.1, hpp.2.2.1⟩)⟩))))⟩

/-- C12: in a cart store built by the methods of the store, `CreateCart` for user `u` returns
a cart of user `u` with version 1 and no items; afterwards `GetCart` of its id and
`GetCartByUserID` of `u` both return that cart, whatever cart `u` was mapped to before, and
`GetCartByUserID` of every other user returns what it returned before. -/
theorem CreateCart_contract (s : CartService) (hr : CartReachable s) (userID now : Int) :
    (s.CreateCart userID now).2.UserID = userID ∧
    (s.CreateCart userID now).2.Version = 1 ∧
    (s.CreateCart userID now).2.Items = [] ∧
    (s.CreateCart userID now).1.GetCart (s.CreateCart userID now).2.ID
      = some (s.CreateCart userID now).2 ∧
    (s.CreateCart userID now).1.GetCartByUserID userID = some (s.CreateCart userID now).2 ∧
    (∀ other, other ≠ userID →
      (s.CreateCart userID now).1.GetCartByUserID other = s.GetCartByUserID other) ∧
    CartReachable (s.CreateCart userID now).1 := by
  refine ⟨rfl, rfl, rfl, ?_, ?_, ?_, CartReachable.createCart s userID now hr⟩
  · exact GoMap.get_set_self _ _ _
  · simp only [CartService.GetCartByUserID, CartService.CreateCart, GoMap.get_set_self]
  · intro other hne
    have ho := UserCartsOwned_of_reachable s hr
    simp only [CartService.GetCartByUserID, CartService.CreateCart]
    rw [GoMap.get_set_ne _ _ (Ne.symm hne)]
    cases hg : s.userCarts.get other with
    | none => rfl
    | some cartID =>
      simp only
      obtain ⟨t, ht⟩ := ho other cartID hg
      have hid : "cart_" ++ toString userID ++ "_" ++ toString now ≠ cartID := by
        intro heq
        rw [ht] at heq
        exact hne (cartID_user _ _ _ _ heq).symm
      exact GoMap.get_set_ne _ _ hid

/-- C12 at an instance: after the cart of user 7, a cart made for user 8 leaves user 7 with
the cart "cart_7_0", and a second cart made for user 7 at time 5 replaces it. -/
theorem CreateCart_contract_witness :
    ((sampleCarts.CreateCart 8 3).1.GetCartByUserID 7).map (fun c => c.ID) = some "cart_7_0" ∧
    ((sampleCarts.CreateCart 7 5).1.GetCartByUserID 7).map (fun c => c.ID) = some "cart_7_5" ∧
    (∀ other, other ≠ 8 →
      (sampleCarts.CreateCart 8 3).1.GetCartByUserID other = sampleCarts.GetCartByUserID other) :=
  ⟨by decide, by decide,
    (CreateCart_contract sampleCarts
      (CartReachable.createCart NewCartService 7 0 CartReachable.new) 8 3).2.2.2.2.2.1⟩

/-- C22, the claim as stated fails: in the sample inventory no product has id 9 and product 2
has stock 1; `UpdateStock` returns the same `(false, nil)` for 3 of product 9 and for 3 of
product 2. -/
theorem UpdateStock_failures_counterexample :
    sampleShop.productService.products.get 9 = none ∧
    (sampleShop.productService.products.get 2).map (fun p => p.Stock) = some 1 ∧
    (sampleShop.productService.UpdateStock 9 3 0).2 = (false, none) ∧
    (sampleShop.productService.UpdateStock 2 3 0).2 = (false, none) ∧
    (sampleShop.productService.UpdateStock 9 3 0).2 =
      (sampleShop.productService.UpdateStock 2 3 0).2 := by
  refine ⟨by decide, by decide, by decide, by decide, by decide⟩

/-- C22 as amended: `UpdateStock` returns the same result `(false, nil)`, and leaves the
inventory as it was, for a product id that does not exist and for a product that exists with
less stock than the quantity: the result does not tell the two causes apart. -/
theorem UpdateStock_failures_alike (s : ProductService) (missing existing : Int)
    (quantity1 quantity2 now1 now2 : Int) (p : Product)
    (h1 : s.products.get missing = none) (h2 : s.products.get existing = some p)
    (h3 : p.Stock < quantity2) :
    s.UpdateStock missing quantity1 now1 = (s, (false, none)) ∧
    s.UpdateStock existing quantity2 now2 = (s, (false, none)) ∧
    (s.UpdateStock missing quantity1 now1).2 = (s.UpdateStock existing quantity2 now2).2 := by
  have e1 : s.UpdateStock missing quantity1 now1 = (s, (false, none)) := by
    simp [ProductService.UpdateStock, h1]
  have e2 : s.UpdateStock existing quantity2 now2 = (s, (false, none)) := by
    simp [ProductService.UpdateStock, h2, h3]
  exact ⟨e1, e2, by rw [e1, e2]⟩

/-- C22 as amended, at an instance: product 9 is missing and product 2 has stock 1 in the
sample inventory; both calls return `(false, nil)` and change nothing. -/
theorem UpdateStock_failures_alike_witness :
    sampleShop.productService.UpdateStock 9 3 0 = (sampleShop.productService, (false, none)) ∧
    sampleShop.productService.UpdateStock 2 3 0 = (sampleShop.productService, (false, none)) :=
  ⟨(UpdateStock_failures_alike sampleShop.productService 9 2 3 3 0 0 (sampleProduct 2 1)
      (by decide) (by decide) (by decide)).1,
    (UpdateStock_failures_alike sampleShop.productService 9 2 3 3 0 0 (sampleProduct 2 1)
      (by decide) (by decide) (by decide)).2.1⟩

/-- C23, the claim as stated fails: the snapshot of `GetStats` has no key
`race_conditions_detected`; its keys are `total_orders`, `failed_orders` and
`race_conditions`. -/
theorem GetStats_counterexample :
    (sampleShop.GetStats).2.get "race_conditions_detected" = none ∧
    GoMap.keys (sampleShop.GetStats).2 = ["total_orders", "failed_orders", "race_conditions"] := by
  refine ⟨by decide, by decide⟩

/-- C23 as amended: `GetStats` returns a snapshot whose keys are exactly `total_orders`,
`failed_orders` and `race_conditions`, mapped to the counters `totalOrders`, `failedOrders`
and `raceConditionDetected`, and it leaves the service as it was. -/
theorem GetStats_snapshot (s : OrderService) :
    (s.GetStats).1 = s ∧
    GoMap.keys (s.GetStats).2 = ["total_orders", "failed_orders", "race_conditions"] ∧
    GoMap.WF (s.GetStats).2 ∧
    (s.GetStats).2.get "total_orders" = some s.stats.totalOrders ∧
    (s.GetStats).2.get "failed_orders" = some s.stats.failedOrders ∧
    (s.GetStats).2.get "race_conditions" = some s.stats.raceConditionDetected := by
  refine ⟨rfl, rfl, ?_, ?_, ?_, ?_⟩
  · simp only [GoMap.WF, OrderService.GetStats, GoMap.keys, List.map_cons, List.map_nil]
    decide
  · simp [OrderService.GetStats, GoMap.get]
  · simp [OrderService.GetStats, GoMap.get]
  · simp [OrderService.GetStats, GoMap.get]

/-- C27: `contains` never slices out of range, and it returns `true` exactly when there is
an index `i` with `0 ≤ i ≤ len(s) - len(substr)` and `s[i : i+len(substr)] = substr`, on the
bytes of the strings; it returns `true` when `substr` is empty and `false` when `substr` is
longer than `s`. -/
theorem contains_spec (s substr : String) :
    ∃ b, contains s substr = some b ∧
      (b = true ↔ ∃ i : Nat,
        (i : Int) ≤ ((goBytes s).length : Int) - ((goBytes substr).length : Int) ∧
        goSlice (goBytes s) (i : Int) ((i : Int) + ((goBytes substr).length : Int))
          = some (goBytes substr)) ∧
      (substr = "" → b = true) ∧
      ((goBytes s).length < (goBytes substr).length → b = false) := by
  obtain ⟨b, hb, hiff⟩ := containsLoop_spec (goBytes s) (goBytes substr)
    (((goBytes s).length : Int) - ((goBytes substr).length : Int) + 1).toNat 0 (by omega)
  have hiff2 : b = true ↔ ∃ i : Nat,
      (i : Int) ≤ ((goBytes s).length : Int) - ((goBytes substr).length : Int) ∧
      goSlice (goBytes s) (i : Int) ((i : Int) + ((goBytes substr).length : Int))
        = some (goBytes substr) := by
    rw [hiff]
    constructor
    · rintro ⟨j, _, h2, h3⟩
      have hj : j + (goBytes substr).length ≤ (goBytes s).length := by omega
      exact ⟨j, by omega, by rw [goSlice_nat _ _ _ hj, h3]⟩
    · rintro ⟨i, h1, h2⟩
      have hi : i + (goBytes substr).length ≤ (goBytes s).length := by omega
      rw [goSlice_nat _ _ _ hi] at h2
      exact ⟨i, Nat.zero_le i, by omega, Option.some.inj h2⟩
  refine ⟨b, hb, hiff2, ?_, ?_⟩
  · intro he
    subst he
    rw [hiff2]
    refine ⟨0, ?_, ?_⟩
    · have : (goBytes "").length = 0 := rfl
      rw [this]
      simp
    · have h0 : goBytes "" = [] := rfl
      rw [h0]
      simp [goSlice]
  · intro hlt
    cases hbv : b with
    | false => rfl
    | true =>
      obtain ⟨i, h1, _⟩ := hiff2.mp hbv
      omega

/-- C28, what the code does: `contains` compares the bytes as they are.  It does not find
"product" in "Product A", and it finds it in the lower-cased "product a". -/
theorem contains_case_sensitive :
    contains "Product A" "product" = some false ∧
    contains "product a" "product" = some true ∧
    contains "Product A" "Product" = some true := by
  refine ⟨by decide, by decide, by decide⟩

/-- C21: on a new order service, for a product of stock `S` at least zero and `N` calls
`FlashSalePurchase(productID, 1, userID)` run one after the other, `min S N` calls return an
order and the other `N - min S N` fail, the stock left is `S - min S N`, and `GetStats`
reports `total_orders = min S N`. -/
theorem flash_sale_sequence (productService : ProductService) (cartService : CartService)
    (productID : Int) (p : Product) (calls : List (Int × Int))
    (hg : productService.products.get productID = some p) (hS : 0 ≤ p.Stock) :
    (flashSaleRun productID (NewOrderService productService cartService) calls).2.1
      = min p.Stock.toNat calls.length ∧
    (flashSaleRun productID (NewOrderService productService cartService) calls).2.2
      = calls.length - min p.Stock.toNat calls.length ∧
    (∃ p1, (flashSaleRun productID (NewOrderService productService cartService)
        calls).1.productService.products.get productID = some p1 ∧
      p1.Stock = p.Stock - ((min p.Stock.toNat calls.length : Nat) : Int)) ∧
    ((flashSaleRun productID (NewOrderService productService cartService)
        calls).1.GetStats).2.get "total_orders"
      = some ((min p.Stock.toNat calls.length : Nat) : Int) := by
  obtain ⟨h1, h2, h3, h4⟩ := flashSaleRun_spec productID calls
    (NewOrderService productService cartService) p hg hS
  refine ⟨h1, h2, h3, ?_⟩
  simp only [OrderService.GetStats, GoMap.get, if_true]
  rw [h4]
  simp [NewOrderService]

/-- C21 at an instance: with stock 10 and 15 buyers, 10 calls return an order, 5 fail, no
stock is left and `total_orders` is 10. -/
theorem flash_sale_sequence_witness :
    (flashSaleRun 1 flashShop flashBuyers).2.1 = 10 ∧
    (flashSaleRun 1 flashShop flashBuyers).2.2 = 5 ∧
    ((flashSaleRun 1 flashShop flashBuyers).1.productService.products.get 1).map
      (fun p => p.Stock) = some 0 ∧
    ((flashSaleRun 1 flashShop flashBuyers).1.GetStats).2.get "total_orders" = some 10 :=
  ⟨(flash_sale_sequence _ NewCartService 1 (sampleProduct 1 10) flashBuyers
      (by decide) (by decide)).1.trans (by decide),
    (flash_sale_sequence _ NewCartService 1 (sampleProduct 1 10) flashBuyers
      (by decide) (by decide)).2.1.trans (by decide),
    by decide,
    (flash_sale_sequence _ NewCartService 1 (sampleProduct 1 10) flashBuyers
      (by decide) (by decide)).2.2.2.trans (by decide)⟩

/-- C29: starting from a new order service, after any sequence of `CreateOrderNoLock`,
`CreateOrderSafe`, `CreateOrderBatchCheck` and `FlashSalePurchase` calls, each one step,
`totalOrders` is the sum over the users of the order index of the number of their order ids,
which is the number of calls that returned an order; the order index holds every user
once. -/
theorem total_orders_counts_orders (productService : ProductService)
    (cartService : CartService) (calls : List OrderCall) :
    (runOrderCalls (NewOrderService productService cartService) calls).1.stats.totalOrders
      = ((indexSize (runOrderCalls (NewOrderService productService cartService)
          calls).1.userOrders : Nat) : Int) ∧
    indexSize (runOrderCalls (NewOrderService productService cartService) calls).1.userOrders
      = (runOrderCalls (NewOrderService productService cartService) calls).2 ∧
    GoMap.WF (runOrderCalls (NewOrderService productService cartService)
      calls).1.userOrders ∧
    ((runOrderCalls (NewOrderService productService cartService) calls).1.GetStats).2.get
      "total_orders"
      = some (((runOrderCalls (NewOrderService productService cartService) calls).2 : Nat)
          : Int) := by
  obtain ⟨h1, h2, h3⟩ := runOrderCalls_counts calls
    (NewOrderService productService cartService) (by simp [NewOrderService, GoMap.WF, GoMap.keys])
  have e0 : (NewOrderService productService cartService).stats.totalOrders = 0 := rfl
  have e1 : indexSize (NewOrderService productService cartService).userOrders = 0 := rfl
  rw [e0, zero_add] at h1
  rw [e1, zero_add] at h2
  refine ⟨by rw [h1, h2], h2, h3, ?_⟩
  simp only [OrderService.GetStats, GoMap.get, if_true]
  rw [h1]

/-- C26, the claim as stated fails: product 1 of the sample inventory has stock 5, and after
`UpdateStock` with the quantity -5 it has stock 10. -/
theorem stock_raised_counterexample :
    (sampleShop.productService.products.get 1).map (fun p => p.Stock) = some 5 ∧
    (sampleShop.productService.UpdateStock 1 (-5) 0).2 = (true, none) ∧
    ((sampleShop.productService.UpdateStock 1 (-5) 0).1.products.get 1).map
      (fun p => p.Stock) = some 10 ∧
    ((sampleShop.FlashSalePurchase 1 (-5) 7 0).1.productService.products.get 1).map
      (fun p => p.Stock) = some 10 := by
  refine ⟨by decide, by decide, by decide, by decide⟩

/-- C26 as amended: after any call of `UpdateStock`, `tryReserveInventory`,
`CreateOrderNoLock`, `CreateOrderSafe`, `CreateOrderBatchCheck` or `FlashSalePurchase` the
product ids of the inventory are as before, and when the quantities asked (the quantity
argument, the quantities of the map, the quantities of the line items of the cart) are at
least zero, no product has more stock than before. -/
theorem stock_not_raised (s : OrderService) :
    (∀ productID quantity now : Int,
      StockKept (0 ≤ quantity) s.productService
        (s.productService.UpdateStock productID quantity now).1) ∧
    (∀ productQuantities : GoMap Int Int,
      StockKept (∀ e ∈ productQuantities, 0 ≤ e.2) s.productService
        (s.tryReserveInventory productQuantities).1.productService) ∧
    (∀ (cartID : String) (userID : Int) (address paymentMethod : String) (now : Int),
      StockKept (∀ cart, s.cartService.GetCart cartID = some cart →
          ∀ item ∈ cart.Items, 0 ≤ item.Quantity) s.productService
        (s.CreateOrderNoLock cartID userID address paymentMethod now).1.productService) ∧
    (∀ (cartID : String) (userID : Int) (address paymentMethod : String) (now : Int),
      StockKept (∀ cart, s.cartService.GetCart cartID = some cart →
          ∀ item ∈ cart.Items, 0 ≤ item.Quantity) s.productService
        (s.CreateOrderSafe cartID userID address paymentMethod now).1.productService) ∧
    (∀ (cartID : String) (userID now : Int),
      StockKept (∀ cart, s.cartService.GetCart cartID = some cart →
          ∀ item ∈ cart.Items, 0 ≤ item.Quantity) s.productService
        (s.CreateOrderBatchCheck cartID userID now).1.productService) ∧
    (∀ productID quantity userID now : Int,
      StockKept (0 ≤ quantity) s.productService
        (s.FlashSalePurchase productID quantity userID now).1.productService) :=
  ⟨fun productID quantity now => UpdateStock_kept _ _ _ _,
    fun pq => tryReserveInventory_kept s pq,
    fun cartID userID address paymentMethod now =>
      CreateOrderNoLock_kept s cartID userID address paymentMethod now,
    fun cartID userID address paymentMethod now =>
      CreateOrderSafe_kept s cartID userID address paymentMethod now,
    fun cartID userID now => CreateOrderBatchCheck_kept s cartID userID now,
    fun productID quantity userID now => FlashSalePurchase_kept s productID quantity userID now⟩

/-- C26 as amended, at an instance: a flash sale purchase of 2 of product 1 keeps the product
ids 1 and 2 and leaves product 1 with a stock of at most 5. -/
theorem stock_not_raised_witness :
    GoMap.keys (sampleShop.FlashSalePurchase 1 2 7 0).1.productService.products = [1, 2] ∧
    (∃ p1, (sampleShop.FlashSalePurchase 1 2 7 0).1.productService.products.get 1 = some p1 ∧
      p1.Stock ≤ 5) :=
  ⟨((stock_not_raised sampleShop).2.2.2.2.2 1 2 7 0).1,
    ((stock_not_raised sampleShop).2.2.2.2.2 1 2 7 0).2 (by decide) 1 (sampleProduct 1 5)
      (by decide)⟩

/-- C24, the claim as stated fails: the sample inventory holds the ids 1 and 2; for the page
4611686018427387905 (that is `2^62 + 1`) and the limit 4, `(page-1)*limit` is `2^64`, far
beyond the two products, and `GetAllProducts` returns the products 1 and 2, not the empty
list: Go's product wraps around to 0. -/
theorem GetAllProducts_page_counterexample :
    GoMap.keys sampleShop.productService.products = [1, 2] ∧
    (2 : Int) ≤ (4611686018427387905 - 1) * 4 ∧
    goMul (goSub 4611686018427387905 1) 4 = 0 ∧
    (sampleShop.productService.GetAllProducts 4611686018427387905 4).2.map
      (fun r => (r.1.map (fun p => p.ID), r.2)) = some ([1, 2], 2) := by
  refine ⟨by decide, by decide, by decide, by decide⟩

/-- C24 as amended: for a catalog whose product ids are exactly 1 to `N` (a catalog the
memory holds: `N` products are at most `maxAlloc` bytes), every page at least 1 and every
limit at least 1 with `page * limit` at most 9223372036854775807, the greatest `int`,
`GetAllProducts` returns the total `N` and the products stored under the ids
`(page-1)*limit + 1` to `min(page*limit, N)`, in this order (no product when
`(page-1)*limit ≥ N`), and leaves the service as it was. -/
theorem GetAllProducts_page (s : ProductService) (N : Nat) (page limit : Int)
    (hwf : GoMap.WF s.products)
    (hids : ∀ id, id ∈ GoMap.keys s.products ↔ 1 ≤ id ∧ id ≤ (N : Int))
    (hmem : productSize * (N : Int) ≤ maxAlloc)
    (hpage : 1 ≤ page) (hlimit : 1 ≤ limit) (hfit : page * limit ≤ 9223372036854775807) :
    ∃ result, s.GetAllProducts page limit = (s, some (result, (N : Int))) ∧
      ((N : Int) ≤ (page - 1) * limit → result = []) ∧
      result.length = (min (page * limit) (N : Int) - (page - 1) * limit).toNat ∧
      ∀ k : Nat, k < result.length →
        result[k]? = s.products.get ((page - 1) * limit + 1 + (k : Int)) := by
  have hlen := length_of_ids s.products N hwf hids
  obtain ⟨hmul, hadd, hstart, hend⟩ := page_bounds page limit hpage hlimit hfit
  have hpl : page * limit = (page - 1) * limit + limit := by ring
  unfold ProductService.GetAllProducts
  simp only [hlen, hmul, hadd]
  by_cases hN : (N : Int) = 0
  · simp only [hN, if_true]
    refine ⟨[], rfl, fun _ => rfl, ?_, fun k hk => absurd hk (Nat.not_lt_zero k)⟩
    simp only [List.length_nil]
    omega
  · simp only [hN, if_false]
    by_cases hge : (page - 1) * limit ≥ (N : Int)
    · simp only [hge, if_true]
      refine ⟨[], rfl, fun _ => rfl, ?_, fun k hk => absurd hk (Nat.not_lt_zero k)⟩
      simp only [List.length_nil]
      omega
    · simp only [hge, if_false]
      have hcap : goSub (if (page - 1) * limit + limit > (N : Int) then (N : Int)
          else (page - 1) * limit + limit) ((page - 1) * limit)
          = (if (page - 1) * limit + limit > (N : Int) then (N : Int)
              else (page - 1) * limit + limit) - (page - 1) * limit := by
        apply goSub_of_fits
        unfold IsInt64
        split_ifs <;> omega
      have hnn : ¬ ((if (page - 1) * limit + limit > (N : Int) then (N : Int)
            else (page - 1) * limit + limit) - (page - 1) * limit < 0 ∨
          productSize * ((if (page - 1) * limit + limit > (N : Int) then (N : Int)
            else (page - 1) * limit + limit) - (page - 1) * limit) > maxAlloc) := by
        unfold productSize maxAlloc at *
        split_ifs <;> omega
      simp only [hcap, hnn, if_false]
      have hcount : ((if (page - 1) * limit + limit > (N : Int) then (N : Int)
          else (page - 1) * limit + limit) - (page - 1) * limit).toNat
          = (min (page * limit) (N : Int) - (page - 1) * limit).toNat := by
        rw [hpl]
        split_ifs <;> congr 1 <;> omega
      rw [hcount]
      have hex : ∀ k : Nat,
          k < (min (page * limit) (N : Int) - (page - 1) * limit).toNat →
          ∃ p, s.products.get ((page - 1) * limit + 1 + (k : Int)) = some p := by
        intro k hk
        apply GoMap.get_of_mem_keys
        rw [hids]
        rw [hpl] at hk
        omega
      obtain ⟨hl, hget⟩ := pageLoop_spec s.products _ ((page - 1) * limit) hex
      refine ⟨_, rfl, fun h => False.elim h, hl, ?_⟩
      intro k hk
      rw [hl] at hk
      exact hget k hk

/-- C24 as amended, at an instance: the sample inventory holds the ids 1 and 2; page 2 with
limit 1 is the product of id 2, and the total is 2. -/
theorem GetAllProducts_page_witness :
    ∃ result, sampleShop.productService.GetAllProducts 2 1 =
        (sampleShop.productService, some (result, ((2 : Nat) : Int))) ∧
      result.length = (min (2 * 1) ((2 : Nat) : Int) - (2 - 1) * 1).toNat ∧
      result.map (fun p => p.ID) = [2] :=
  (GetAllProducts_page sampleShop.productService 2 2 1 (by decide)
    (by
      intro id
      simp only [sampleShop, NewOrderService, GoMap.keys, List.map_cons, List.map_nil,
        List.mem_cons, List.mem_singleton, List.not_mem_nil, or_false]
      omega)
    (by decide) (by decide) (by decide) (by decide)).imp
    (fun result h => ⟨h.1, h.2.2.1, by
      have he := h.1
      have hv : sampleShop.productService.GetAllProducts 2 1 =
          (sampleShop.productService, some ([sampleProduct 2 1], 2)) := by decide
      rw [hv] at he
      simp only [Prod.mk.injEq, Option.some.injEq, true_and] at he
      rw [← he.1]
      rfl⟩)

/-- C25, the claim as stated fails: on the sample inventory, the search for "Prod" with the
page 9223372036854775807, the greatest `int`, and the limit 100 does not return: Go's
`(page-1)*limit` wraps around to -200, and the slice expression `results[-200:-100]` is a
run-time panic. -/
theorem SearchProducts_contract_counterexample :
    goMul (goSub 9223372036854775807 1) 100 = -200 ∧
    goAdd (-200) 100 = -100 ∧
    (sampleShop.productService.SearchProducts sampleShop.productService.products
      "Prod" "" 0 0 9223372036854775807 100).2 = none := by
  refine ⟨by decide, by decide, by decide⟩

/-- C25 as amended: for every catalog, every order `visit` in which the loop visits its
entries, every filter, every page at least 1 and every limit at least 1 with `page * limit`
at most 9223372036854775807, the greatest `int`, `SearchProducts` returns as total the number
of products of the catalog that satisfy the filter, every product it returns satisfies the
filter (the returned products are those at the positions of the page in the list of matching
products, in the order visited), the returned list has the length
`min(limit, max(0, total - (page-1)*limit))`, and the service is as it was. -/
theorem SearchProducts_contract (s : ProductService) (visit : GoMap Int Product)
    (query category : String) (minPrice maxPrice : Rat) (page limit : Int)
    (hvisit : visit.Perm s.products)
    (hpage : 1 ≤ page) (hlimit : 1 ≤ limit) (hfit : page * limit ≤ 9223372036854775807) :
    ∃ result total,
      s.SearchProducts visit query category minPrice maxPrice page limit
        = (s, some (result, total)) ∧
      total = (((s.products.filter
        (fun e => decide (SearchMatch e.2 query category minPrice maxPrice))).length : Nat)
          : Int) ∧
      (∀ p ∈ result, SearchMatch p query category minPrice maxPrice) ∧
      result = ((matchingProducts visit query category minPrice maxPrice).drop
        ((page - 1) * limit).toNat).take limit.toNat ∧
      (result.length : Int) = min limit (max 0 (total - (page - 1) * limit)) := by
  obtain ⟨hmul, hadd, hstart, hend⟩ := page_bounds page limit hpage hlimit hfit
  have htot : (matchingProducts visit query category minPrice maxPrice).length
      = (s.products.filter
        (fun e => decide (SearchMatch e.2 query category minPrice maxPrice))).length := by
    simp only [matchingProducts, List.length_map]
    exact (hvisit.filter _).length_eq
  unfold ProductService.SearchProducts
  simp only [searchLoop_spec, hmul, hadd]
  by_cases hge : (page - 1) * limit
      ≥ ((matchingProducts visit query category minPrice maxPrice).length : Int)
  · simp only [hge, if_true]
    refine ⟨[], _, rfl, by rw [htot], by simp, ?_, ?_⟩
    · rw [List.drop_eq_nil_of_le (by omega)]
      simp
    · simp only [List.length_nil, Nat.cast_zero]
      omega
  · simp only [hge, if_false]
    rw [goSlice_page _ _ _ hstart (by omega) hlimit]
    refine ⟨_, _, rfl, by rw [htot], ?_, ?_, ?_⟩
    · intro p hp
      exact matchingProducts_mem visit query category minPrice maxPrice p
        (List.mem_of_mem_drop (List.mem_of_mem_take hp))
    · apply List.ext_getElem?
      intro k
      simp only [List.getElem?_take, List.getElem?_drop]
      by_cases hk : k < (min limit
          (((matchingProducts visit query category minPrice maxPrice).length : Int)
            - (page - 1) * limit)).toNat
      · have hk2 : k < limit.toNat := by omega
        simp [hk, hk2]
      · simp only [hk, if_false]
        by_cases hk2 : k < limit.toNat
        · simp only [hk2, if_true]
          symm
          apply List.getElem?_eq_none
          omega
        · simp [hk2]
    · simp only [List.length_take, List.length_drop]
      omega

/-- C25 as amended, at an instance: both sample products are named "Product"; the search for
"Prod" with page 2 and limit 1 returns the total 2 and one product, in whichever of the two
orders the loop visits the two entries. -/
theorem SearchProducts_contract_witness :
    (∃ result total,
      sampleShop.productService.SearchProducts
          [(1, sampleProduct 1 5), (2, sampleProduct 2 1)] "Prod" "" 0 0 2 1
        = (sampleShop.productService, some (result, total)) ∧
      total = ((2 : Nat) : Int) ∧
      (result.length : Int) = min 1 (max 0 (total - (2 - 1) * 1))) ∧
    (∃ result total,
      sampleShop.productService.SearchProducts
          [(2, sampleProduct 2 1), (1, sampleProduct 1 5)] "Prod" "" 0 0 2 1
        = (sampleShop.productService, some (result, total)) ∧
      total = ((2 : Nat) : Int) ∧
      (result.length : Int) = min 1 (max 0 (total - (2 - 1) * 1))) :=
  ⟨(SearchProducts_contract sampleShop.productService
      [(1, sampleProduct 1 5), (2, sampleProduct 2 1)] "Prod" "" 0 0 2 1
      (List.Perm.refl _) (by decide) (by decide) (by decide)).imp
      (fun _ h => h.imp (fun _ h2 => ⟨h2.1, h2.2.1.trans (by decide), h2.2.2.2.2⟩)),
    (SearchProducts_contract sampleShop.productService
      [(2, sampleProduct 2 1), (1, sampleProduct 1 5)] "Prod" "" 0 0 2 1
      (List.Perm.swap _ _ _) (by decide) (by decide) (by decide)).imp
      (fun _ h => h.imp (fun _ h2 => ⟨h2.1, h2.2.1.trans (by decide), h2.2.2.2.2⟩))⟩

/-- C30, the claim as stated fails: on the sample inventory, for the page
9223372036854775807, the greatest `int`, and the limit 100, which the handlers pass on as
they are, `SearchProducts` with the empty filter slices `results[-200:-100]`, a run-time
panic; `GetAllProducts` returns for the same page and limit. -/
theorem pagination_returns_counterexample :
    (1 : Int) ≤ 9223372036854775807 ∧ (1 : Int) ≤ 100 ∧ (100 : Int) ≤ 100 ∧
    (sampleShop.productService.SearchProducts sampleShop.productService.products
      "" "" 0 0 9223372036854775807 100).2 = none ∧
    (sampleShop.productService.GetAllProducts 9223372036854775807 100).2.isSome = true := by
  refine ⟨by decide, by decide, by decide, by decide, by decide⟩

/-- C30 as amended: for every catalog, every page at least 1 and every limit from 1 to 100,
`GetAllProducts` does not ask `make` for a negative capacity (nor for one beyond `maxAlloc`)
and returns without panic, also when the page arithmetic wraps around; and for every filter
and every order of visit, when `page * limit` is at most 9223372036854775807, the greatest
`int`, `SearchProducts` does not slice out of range and returns without panic. -/
theorem pagination_returns (s : ProductService) (visit : GoMap Int Product)
    (query category : String) (minPrice maxPrice : Rat) (page limit : Int)
    (hpage : 1 ≤ page) (hlimit : 1 ≤ limit) (hmax : limit ≤ 100) :
    (∃ r, s.GetAllProducts page limit = (s, some r)) ∧
    (page * limit ≤ 9223372036854775807 →
      ∃ r, s.SearchProducts visit query category minPrice maxPrice page limit
        = (s, some r)) := by
  constructor
  · unfold ProductService.GetAllProducts
    by_cases h0 : (s.products.length : Int) = 0
    · simp only [h0, if_true]
      exact ⟨_, rfl⟩
    · simp only [h0, if_false]
      by_cases hge : goMul (goSub page 1) limit ≥ (s.products.length : Int)
      · simp only [hge, if_true]
        exact ⟨_, rfl⟩
      · simp only [hge, if_false]
        have hnn := page_capacity (goMul (goSub page 1) limit) limit
          (s.products.length : Int) hlimit hmax hge
        simp only [hnn, if_false]
        exact ⟨_, rfl⟩
  · intro hfit
    obtain ⟨hmul, hadd, hstart, hend⟩ := page_bounds page limit hpage hlimit hfit
    unfold ProductService.SearchProducts
    simp only [searchLoop_spec, hmul, hadd]
    by_cases hge : (page - 1) * limit
        ≥ ((matchingProducts visit query category minPrice maxPrice).length : Int)
    · simp only [hge, if_true]
      exact ⟨_, rfl⟩
    · simp only [hge, if_false]
      rw [goSlice_page _ _ _ hstart (by omega) hlimit]
      exact ⟨_, rfl⟩

/-- C30 as amended, at an instance: the first page of the sample inventory with limit 100,
also the page 9223372036854775807 with limit 100, and the search of every product with page
3 and limit 1 return without panic. -/
theorem pagination_returns_witness :
    (∃ r, sampleShop.productService.GetAllProducts 1 100
      = (sampleShop.productService, some r)) ∧
    (∃ r, sampleShop.productService.GetAllProducts 9223372036854775807 100
      = (sampleShop.productService, some r)) ∧
    (∃ r, sampleShop.productService.SearchProducts sampleShop.productService.products
        "" "" 0 0 3 1
      = (sampleShop.productService, some r)) :=
  ⟨(pagination_returns sampleShop.productService [] "" "" 0 0 1 100
      (by decide) (by decide) (by decide)).1,
    (pagination_returns sampleShop.productService [] "" "" 0 0 9223372036854775807 100
      (by decide) (by decide) (by decide)).1,
    (pagination_returns sampleShop.productService sampleShop.productService.products
      "" "" 0 0 3 1 (by decide) (by decide) (by decide)).2 (by decide)⟩

end GoEcommerce
